import Mathlib

/-!
# libprop: geodesic points, line discretisation and the path-loss engine

A shallow embedding of `utils.C`, `geom.C`, `source.C` and `radio.C`.

C++ `double` values are modelled by real numbers, so every statement below is a
statement of exact real arithmetic.  The libm functions are modelled by their
Mathlib counterparts: `sin`, `cos` by `Real.sin`, `Real.cos`; `asin`, `acos` by
`Real.arcsin`, `Real.arccos`; `sqrt` by `Real.sqrt`; `log` by `Real.log`;
`atan2 y x` by the argument of the complex number `x + y i` (range `(-π, π]`, value
`0` at the origin, as in C).  Outside their domains the C functions give NaN, the
Mathlib ones a default value; the theorems that need a domain carry it as a
hypothesis.

Undefined behaviour (reading past the vertex list, a null `last`) and a loop that
does not finish within the given fuel are modelled by `none`.
-/

noncomputable section

namespace Libprop

/-! ## utils.h / utils.C -/

/-- The constant `PI` of `utils.h` (a six digit approximation, not `Real.pi`). -/
def PI : ℝ := 3.14159

/-- The constant `RADIUS` of `utils.h`: the Earth radius in kilometres. -/
def RADIUS : ℝ := 6378.2064

/-- The function `toRadians` of `utils.C`. -/
def toRadians (d : ℝ) : ℝ := d * PI / 180

/-- The function `toDegrees` of `utils.C`. -/
def toDegrees (r : ℝ) : ℝ := r * 180 / PI

/-- The libm function `atan2 y x`: the angle of the vector `(x, y)`, in `(-π, π]`,
and `0` at the origin. -/
def atan2 (y x : ℝ) : ℝ := Complex.arg ⟨x, y⟩

/-- The libm function `log10`. -/
def log10 (x : ℝ) : ℝ := Real.log x / Real.log 10

/-- The constant `DBL_MAX` of `float.h`: the largest finite `double`. -/
def DBL_MAX : ℝ := (2 - (2 : ℝ) ^ (-52 : ℤ)) * (2 : ℝ) ^ (1023 : ℤ)

/-- The libm function `ldexp`: `x * 2 ^ n`. -/
def ldexp (x : ℝ) (n : ℤ) : ℝ := x * (2 : ℝ) ^ n

/-- The conversion `(int)x` of a `double`: truncation towards zero.  (Values beyond the
range of `int` are undefined in C; the model keeps the integer.) -/
def castInt (x : ℝ) : ℤ := if 0 ≤ x then ⌊x⌋ else ⌈x⌉

/-- The function `ieee_single` of `utils.C`.  The arguments are the four bytes
`data2[0]`, ..., `data2[3]` in file order, each read as an `unsigned char`. -/
def ieee_single (b0 b1 b2 b3 : ℕ) : ℝ :=
  let data0 := b3 % 256
  let data1 := b2 % 256
  let data2 := b1 % 256
  let data3 := b0 % 256
  let src : ℕ := (data0 <<< 24) + (data1 <<< 16) + (data2 <<< 8) + data3
  let s : ℕ := (src &&& 0x80000000) >>> 31
  let e : ℕ := (src &&& 0x7F800000) >>> 23
  let f : ℝ := ((src &&& 0x007FFFFF : ℕ) : ℝ)
  if e = 255 ∧ f ≠ 0 then DBL_MAX
  else if e = 255 ∧ f = 0 ∧ s = 1 then -DBL_MAX
  else if e = 255 ∧ f = 0 ∧ s = 0 then DBL_MAX
  else if e > 0 ∧ e < 255 then
    let f := f + ((0x00800000 : ℕ) : ℝ)
    let f := if s ≠ 0 then -f else f
    ldexp f ((e : ℤ) - 127 - 23)
  else if e = 0 ∧ f ≠ 0 then
    let f := if s ≠ 0 then -f else f
    ldexp f (-126 - 23)
  else if e = 0 ∧ f = 0 ∧ s = 1 then 0
  else if e = 0 ∧ f = 0 ∧ s = 0 then 0
  else 0

/-! ## geom.h / geom.C : Point -/

/-- The class `Point` of `geom.h`. -/
structure Point where
  lat : ℝ
  lon : ℝ
  elev : ℝ
  towerHeight : ℝ
  vegHeight : ℝ
  vegType : ℤ
  vegCover : ℤ
  landType : ℤ

/-- The constructor `Point::Point(double _lat, double _lon)`. -/
def Point.new (lat lon : ℝ) : Point :=
  { lat := lat, lon := lon, elev := -1, towerHeight := 0, vegHeight := 0,
    vegType := -1, vegCover := -1, landType := -1 }

/-- The constructor `Point::Point(double _lat, double _lon, double _towerHeight)`. -/
def Point.newTower (lat lon towerHeight : ℝ) : Point :=
  { lat := lat, lon := lon, elev := -1, towerHeight := towerHeight, vegHeight := 0,
    vegType := -1, vegCover := -1, landType := -1 }

/-- The method `Point::distance`: great-circle distance in kilometres, over the reals
(`Point.distanceDouble` below rounds every operation as the code does). -/
def Point.distance (self p : Point) : ℝ :=
  let lat1 := toRadians self.lat
  let lon1 := toRadians self.lon
  let lat2 := toRadians p.lat
  let lon2 := toRadians p.lon
  Real.arccos (Real.sin lat1 * Real.sin lat2 +
    Real.cos lat1 * Real.cos lat2 * Real.cos (lon2 - lon1)) * RADIUS

/-- The method `Point::bearing`: initial bearing in radians. -/
def Point.bearing (self p : Point) : ℝ :=
  let lat1 := toRadians self.lat
  let lon1 := toRadians self.lon
  let lat2 := toRadians p.lat
  let lon2 := toRadians p.lon
  atan2 (Real.sin (lon2 - lon1) * Real.cos lat2)
    (Real.cos lat1 * Real.sin lat2 -
      Real.sin lat1 * Real.cos lat2 * Real.cos (lon2 - lon1))

/-- The method `Point::project`: walk `distance` km from `self` along `bearing`. -/
def Point.project (self : Point) (bearing distance : ℝ) : Point :=
  let lat1 := toRadians self.lat
  let lon1 := toRadians self.lon
  let ratio := distance / RADIUS
  let lat2 := Real.arcsin (Real.sin lat1 * Real.cos ratio +
    Real.cos lat1 * Real.sin ratio * Real.cos bearing)
  let lon2 := lon1 + atan2 (Real.sin bearing * Real.sin ratio * Real.cos lat1)
    (Real.cos ratio - Real.sin lat1 * Real.sin lat2)
  Point.new (toDegrees lat2) (toDegrees lon2)

/-! ## geom.h / geom.C : RegionLine -/

/-- The class `RegionLine` of `geom.h`: an ordered list of vertices. -/
structure RegionLine where
  list : List Point

/-- The constructor `RegionLine::RegionLine(Point* p, Point* q)`. -/
def RegionLine.ofPoints (p q : Point) : RegionLine :=
  { list := [p, q] }

/-- The constructor `RegionLine::RegionLine(string filename)`.  The stream is seen through
what its reads produce: `entries` holds, for every turn of the `while` loop, the latitude
and the longitude of the point after `in >> *p` on a fresh `Point()`, whatever the
read did. -/
def RegionLine.ofEntries (entries : List (ℝ × ℝ)) : RegionLine :=
  { list := entries.foldl
      (fun list e => if e.1 = -1 ∨ e.2 = -1 then list else list ++ [Point.new e.1 e.2]) [] }

/-- The loop of `RegionLine::length`: `last` is the previous vertex, the list holds
the vertices still to visit, `length` the sum so far. -/
def RegionLine.lengthLoop : Point → List Point → ℝ → ℝ
  | _, [], length => length
  | last, it :: rest, length => RegionLine.lengthLoop it rest (length + last.distance it)

/-- The method `RegionLine::length`.  Reading `list[0]` of an empty line is undefined
behaviour: `none`. -/
def RegionLine.length (self : RegionLine) : Option ℝ :=
  match self.list with
  | [] => none
  | first :: rest => some (RegionLine.lengthLoop first rest 0)

/-- The local variables `i`, `last`, `next`, `lastExact`, `bearing`, `distance` of
`RegionLine::discrete`; a null `last` is `none`. -/
structure Cursor where
  i : ℕ
  last : Option Point
  next : Point
  lastExact : ℝ
  bearing : ℝ
  distance : ℝ

/-- The inner `while` loop of `RegionLine::discrete`: move to the next segment as long
as `here - lastExact >= distance`.  Reading `this->list[i]` past the end is undefined
behaviour: `none`. -/
def RegionLine.advance (list : List Point) (here : ℝ) (c : Cursor) : Option Cursor :=
  if here - c.lastExact ≥ c.distance then
    if h : c.i < list.length then
      RegionLine.advance list here
        { i := c.i + 1
          last := some c.next
          next := list.get ⟨c.i, h⟩
          lastExact := c.lastExact + c.distance
          bearing := c.next.bearing (list.get ⟨c.i, h⟩)
          distance := c.next.distance (list.get ⟨c.i, h⟩) }
    else none
  else some c
termination_by list.length - c.i
decreasing_by simp_wf; omega

/-- The outer `for` loop of `RegionLine::discrete`, from the current value of `here`;
it returns the points pushed from here on.  `none` when the fuel runs out, when the
inner loop reads past the vertex list, or when `last` is still null. -/
def RegionLine.discreteLoop (list : List Point) (resolution length : ℝ) :
    ℕ → ℝ → Cursor → Option (List Point)
  | 0, _, _ => none
  | fuel + 1, here, c =>
    if here < length then
      match RegionLine.advance list here c with
      | none => none
      | some c1 =>
        match c1.last with
        | none => none
        | some last =>
          match RegionLine.discreteLoop list resolution length fuel (here + resolution) c1 with
          | none => none
          | some more => some (last.project c1.bearing (here - c1.lastExact) :: more)
    else some []

/-- The method `RegionLine::discrete`. -/
def RegionLine.discrete (self : RegionLine) (fuel : ℕ) (resolution : ℝ) :
    Option (List Point) :=
  match self.length with
  | none => none
  | some length =>
    match self.list with
    | [] => none
    | first :: _ =>
      RegionLine.discreteLoop self.list resolution length fuel 0
        { i := 1, last := none, next := first, lastExact := 0, bearing := 0, distance := 0 }

/-! ## geom.h / geom.C : RegionArea -/

/-- The class `RegionArea` of `geom.h`: a box given by its two corner points. -/
structure RegionArea where
  bottomLeft : Point
  topRight : Point

/-- The constructor `RegionArea::RegionArea()`: the empty area, with sentinel corners. -/
def RegionArea.new : RegionArea :=
  { bottomLeft := Point.new 1024 1024
    topRight := Point.new 0 (-1024) }

/-- The constructor `RegionArea::RegionArea(Point* bottomLeft, Point* topRight)`. -/
def RegionArea.ofCorners (bottomLeft topRight : Point) : RegionArea :=
  { bottomLeft := bottomLeft
    topRight := topRight }

/-- The constructor `RegionArea::RegionArea(Point* center, double radius)`. -/
def RegionArea.ofCenter (center : Point) (radius : ℝ) : RegionArea :=
  { topRight := center.project (toRadians 45) radius
    bottomLeft := center.project (toRadians 225) radius }

/-- The local variable `degRes` of `RegionArea::discrete`: the latitude gained one
resolution step north of the bottom-left corner. -/
def RegionArea.degRes (self : RegionArea) (resolution : ℝ) : ℝ :=
  (self.bottomLeft.project 0 resolution).lat - self.bottomLeft.lat

/-- The inner `for` loop of `RegionArea::discrete`, from the current value of `lon`: the
points of one row.  `none` when the fuel runs out. -/
def RegionArea.discreteLon (self : RegionArea) (degRes lat : ℝ) : ℕ → ℝ → Option (List Point)
  | 0, _ => none
  | fuel + 1, lon =>
    if lon < self.topRight.lon then
      match RegionArea.discreteLon self degRes lat fuel (lon + degRes) with
      | none => none
      | some more => some (Point.new lat lon :: more)
    else some []

/-- The outer `for` loop of `RegionArea::discrete`, from the current value of `lat`: the
rows one after the other.  Every row gets `rowFuel`; `none` when some fuel runs out. -/
def RegionArea.discreteLat (self : RegionArea) (degRes : ℝ) (rowFuel : ℕ) :
    ℕ → ℝ → Option (List Point)
  | 0, _ => none
  | fuel + 1, lat =>
    if lat < self.topRight.lat then
      match RegionArea.discreteLon self degRes lat rowFuel self.bottomLeft.lon with
      | none => none
      | some row =>
        match RegionArea.discreteLat self degRes rowFuel fuel (lat + degRes) with
        | none => none
        | some more => some (row ++ more)
    else some []

/-- The method `RegionArea::discrete`. -/
def RegionArea.discrete (self : RegionArea) (fuel : ℕ) (resolution : ℝ) :
    Option (List Point) :=
  let degRes := self.degRes resolution
  RegionArea.discreteLat self degRes fuel fuel self.bottomLeft.lat

/-- The method `RegionArea::contains`. -/
def RegionArea.contains (self : RegionArea) (p : Point) : Bool :=
  decide (p.lat ≤ self.topRight.lat ∧ p.lat ≥ self.bottomLeft.lat ∧
    p.lon ≤ self.topRight.lon ∧ p.lon ≥ self.bottomLeft.lon)

/-- The method `RegionArea::add`: the area with its corners moved to include `p`. -/
def RegionArea.add (self : RegionArea) (p : Point) : RegionArea :=
  { bottomLeft :=
      { self.bottomLeft with
        lat := min self.bottomLeft.lat p.lat
        lon := min self.bottomLeft.lon p.lon }
    topRight :=
      { self.topRight with
        lat := max self.topRight.lat p.lat
        lon := max self.topRight.lon p.lon } }

/-! ## source.h / source.C : the source interface and the source group -/

/-- The abstract class `Source` of `source.h`, seen through its two virtual methods
`contains` and `resolve`; `resolve` returns the point with its attributes filled. -/
structure Source where
  contains : Point → Bool
  resolve : Point → Point

/-- The class `SourceGroup` of `source.h`: an ordered list of member sources. -/
structure SourceGroup where
  list : List Source

/-- The method `SourceGroup::resolve`: every member that contains the point resolves
it, in list order. -/
def SourceGroup.resolve (self : SourceGroup) (p : Point) : Point :=
  self.list.foldl (fun p it => if it.contains p then it.resolve p else p) p

/-- The method `SourceGroup::contains`. -/
def SourceGroup.contains (self : SourceGroup) (p : Point) : Bool :=
  self.list.any (fun it => it.contains p)

/-- The method `Source::resolveList`, called on a source group. -/
def SourceGroup.resolveList (self : SourceGroup) (list : List Point) : List Point :=
  list.map self.resolve

/-- The constant `LAND_NONE` of `source.h`. -/
def LAND_NONE : ℤ := 0

/-- The constant `LAND_FOREST` of `source.h`. -/
def LAND_FOREST : ℤ := 1

/-- The constant `LAND_RESIDENTIAL` of `source.h`. -/
def LAND_RESIDENTIAL : ℤ := 2

/-- The constant `LAND_COMMERCIAL` of `source.h`. -/
def LAND_COMMERCIAL : ℤ := 3

/-- The constant `TYPE_ELEV` of `source.h`. -/
def TYPE_ELEV : ℤ := 2

/-- The constant `TYPE_VEGTYPE` of `source.h`. -/
def TYPE_VEGTYPE : ℤ := 3

/-- The constant `TYPE_VEGHEIGHT` of `source.h`. -/
def TYPE_VEGHEIGHT : ℤ := 4

/-- The constant `TYPE_LAND` of `source.h`. -/
def TYPE_LAND : ℤ := 5

/-- The constant `EC` of `source.h`. -/
def EC : ℝ := 0.082271854

/-- The constant `EC2` of `source.h`. -/
def EC2 : ℝ := 0.006768658

/-! ## source.h / source.C : converters and the coverage rectangle of a grid source -/

/-- The class `Convert` of `source.h`, seen through its virtual method `convert`, which
returns the coordinates `(x, y)`. -/
structure Convert where
  convert : Point → ℝ × ℝ

/-- The method `Convert::convert` of the base class: `x` is the longitude, `y` the
latitude. -/
def Convert.identity : Convert :=
  { convert := fun p => (p.lon, p.lat) }

/-- The data members of the class `Source` of `source.h` that the grid sources
`SourceInteger` and `SourceGridFloat` inherit: the converter, the type of data, the
numbers of columns and rows, the coverage rectangle and the cell size. -/
structure GridSource where
  convert : Convert
  type : ℤ
  ncols : ℤ
  nrows : ℤ
  top : ℝ
  left : ℝ
  bottom : ℝ
  right : ℝ
  cellsize : ℝ

/-- The method `Source::contains` of `source.C`, which both grid sources inherit. -/
def GridSource.contains (self : GridSource) (p : Point) : Bool :=
  let xy := self.convert.convert p
  let x := xy.1
  let y := xy.2
  decide (x > self.left ∧ x < self.right ∧ y > self.bottom ∧ y < self.top)

/-! ## source.h / source.C : the Albers converter -/

/-- The data members of the class `ConvertAlbers` of `source.h`. -/
structure ConvertAlbers where
  middleLon : ℝ
  bigC : ℝ
  coneConst : ℝ
  r0 : ℝ

/-- The method `ConvertAlbers::calcQ`. -/
def ConvertAlbers.calcQ (lat : ℝ) : ℝ :=
  let s := Real.sin lat
  let es := s * EC
  (1.0 - EC2) * ((s / (1 - es * es)) - (1 / (2 * EC)) * Real.log ((1 - es) / (1 + es)))

/-- The method `ConvertAlbers::calcMsq`. -/
def ConvertAlbers.calcMsq (lat : ℝ) : ℝ :=
  let c := Real.cos lat
  let es := Real.sin lat * EC
  c * c / (1 - es * es)

/-- The constructor `ConvertAlbers::ConvertAlbers()`. -/
def ConvertAlbers.new : ConvertAlbers :=
  let northLat := toRadians 29.500000
  let southLat := toRadians 45.500000
  let originLat := toRadians 23.000000
  let originLon := toRadians (-96.000000)
  let q1 := ConvertAlbers.calcQ southLat
  let q2 := ConvertAlbers.calcQ northLat
  let q0 := ConvertAlbers.calcQ originLat
  let m1sq := ConvertAlbers.calcMsq southLat
  let m2sq := ConvertAlbers.calcMsq northLat
  let coneConst := (m1sq - m2sq) / (q2 - q1)
  let bigC := m1sq + coneConst * q1
  { middleLon := originLon
    bigC := bigC
    coneConst := coneConst
    r0 := (RADIUS * 1000) * Real.sqrt (bigC - coneConst * q0) / coneConst }

/-- The method `ConvertAlbers::convert`. -/
def ConvertAlbers.convert (self : ConvertAlbers) (p : Point) : ℝ × ℝ :=
  let lat := toRadians p.lat
  let lon := toRadians p.lon
  let q := ConvertAlbers.calcQ lat
  let theta := self.coneConst * (lon - self.middleLon)
  let r := (RADIUS * 1000) * Real.sqrt (self.bigC - self.coneConst * q) / self.coneConst
  ((r * Real.sin theta * 1) + 80, ((self.r0 - r * Real.cos theta) * 1) + 80)

/-- A `ConvertAlbers` used where a `Convert` is expected. -/
def ConvertAlbers.toConvert (self : ConvertAlbers) : Convert :=
  { convert := self.convert }

/-! ## source.h / source.C : the two grid sources -/

/-- The row that `SourceInteger::resolve` and `SourceGridFloat::resolve` compute (the
same lines in both), with the exact quotient (`GridSource.rowDouble` below rounds it). -/
def GridSource.row (self : GridSource) (p : Point) : ℤ :=
  let y := (self.convert.convert p).2
  let row := castInt ((y - self.bottom) / self.cellsize)
  self.nrows - max 0 (min row self.nrows) - 1

/-- The column that `SourceInteger::resolve` and `SourceGridFloat::resolve` compute, with
the exact quotient (`GridSource.colDouble` below rounds it). -/
def GridSource.col (self : GridSource) (p : Point) : ℤ :=
  let x := (self.convert.convert p).1
  let col := castInt ((x - self.left) / self.cellsize)
  max 0 (min col self.ncols)

/-- The local variable `offset` of both `resolve` methods, as an unbounded integer (the
`int` product `row * ncols` of the code overflows for a grid of `2^31` cells or more). -/
def GridSource.offset (self : GridSource) (p : Point) : ℤ :=
  (self.row p * self.ncols) + self.col p

/-- The conversion `(int)*data` of one byte read as a `char` (signed, as with GCC on
x86). -/
def charToInt (b : ℕ) : ℤ :=
  if b % 256 < 128 then ((b % 256 : ℕ) : ℤ) else ((b % 256 : ℕ) : ℤ) - 256

/-- The class `SourceInteger` of `source.h`: the inherited members and the bytes of the
data file, `raw pos` being the byte at position `pos` (the cache holds the same values;
positions outside the file hold unspecified bytes). -/
structure SourceInteger extends GridSource where
  raw : ℤ → ℕ

/-- The constructor `SourceInteger::SourceInteger`, from the header values it reads:
`NCOLS`, `NROWS`, the cell size and the top-left corner. -/
def SourceInteger.new (convert : Convert) (type ncols nrows : ℤ) (cellsize left top : ℝ)
    (raw : ℤ → ℕ) : SourceInteger :=
  { convert := convert
    type := type
    ncols := ncols
    nrows := nrows
    cellsize := cellsize
    left := left
    top := top
    bottom := top - ((nrows : ℝ) * cellsize)
    right := left + ((ncols : ℝ) * cellsize)
    raw := raw }

/-- The method `SourceInteger::value`. -/
def SourceInteger.value (self : SourceInteger) (offset : ℤ) : ℤ :=
  charToInt (self.raw offset)

/-- The method `SourceInteger::resolve`. -/
def SourceInteger.resolve (self : SourceInteger) (p : Point) : Point :=
  let offset := self.toGridSource.offset p
  let iv := self.value offset
  if self.type = TYPE_LAND then
    if iv = 41 ∨ iv = 42 ∨ iv = 43 ∨ iv = 90 ∨ iv = 91 ∨ iv = 93 then
      { p with landType := LAND_FOREST }
    else if iv = 22 then
      { p with landType := LAND_RESIDENTIAL }
    else if iv = 23 ∨ iv = 24 then
      { p with landType := LAND_COMMERCIAL }
    else
      { p with landType := LAND_NONE }
  else p

/-- A `SourceInteger` used where a `Source` is expected; `contains` is inherited. -/
def SourceInteger.toSource (self : SourceInteger) : Source :=
  { contains := self.toGridSource.contains
    resolve := self.resolve }

/-- The class `SourceGridFloat` of `source.h`: the inherited members and the bytes of
the data file, four for every cell. -/
structure SourceGridFloat extends GridSource where
  raw : ℤ → ℕ

/-- The constructor `SourceGridFloat::SourceGridFloat` with explicit header values (the
other constructor reads the same values from the header file). -/
def SourceGridFloat.new (convert : Convert) (type ncols nrows : ℤ) (left bottom cellsize : ℝ)
    (raw : ℤ → ℕ) : SourceGridFloat :=
  { convert := convert
    type := type
    nrows := nrows
    ncols := ncols
    left := left
    bottom := bottom
    cellsize := cellsize
    top := bottom + ((nrows : ℝ) * cellsize)
    right := left + ((ncols : ℝ) * cellsize)
    raw := raw }

/-- The method `SourceGridFloat::value`. -/
def SourceGridFloat.value (self : SourceGridFloat) (offset : ℤ) : ℝ :=
  ieee_single (self.raw (offset * 4)) (self.raw (offset * 4 + 1)) (self.raw (offset * 4 + 2))
    (self.raw (offset * 4 + 3))

/-- The method `SourceGridFloat::resolve`. -/
def SourceGridFloat.resolve (self : SourceGridFloat) (p : Point) : Point :=
  let offset := self.toGridSource.offset p
  let dv := self.value offset
  let iv := castInt dv
  if self.type = TYPE_ELEV then
    { p with elev := dv }
  else if self.type = TYPE_VEGTYPE then
    let p : Point := { p with vegType := iv }
    if iv = 101 ∨ iv = 111 ∨ iv = 121 then { p with vegCover := 15 }
    else if iv = 102 ∨ iv = 112 ∨ iv = 122 then { p with vegCover := 25 }
    else if iv = 103 ∨ iv = 113 ∨ iv = 123 then { p with vegCover := 35 }
    else if iv = 104 ∨ iv = 114 ∨ iv = 124 then { p with vegCover := 45 }
    else if iv = 105 ∨ iv = 115 ∨ iv = 125 then { p with vegCover := 55 }
    else if iv = 106 ∨ iv = 116 ∨ iv = 126 then { p with vegCover := 65 }
    else if iv = 107 ∨ iv = 117 ∨ iv = 127 then { p with vegCover := 75 }
    else if iv = 108 ∨ iv = 118 ∨ iv = 128 then { p with vegCover := 85 }
    else if iv = 109 ∨ iv = 119 ∨ iv = 129 then { p with vegCover := 95 }
    else p
  else if self.type = TYPE_VEGHEIGHT then
    if iv = 101 then { p with vegHeight := 0.25 }
    else if iv = 102 then { p with vegHeight := 0.5 }
    else if iv = 103 then { p with vegHeight := 1 }
    else if iv = 104 then { p with vegHeight := 0.25 }
    else if iv = 105 then { p with vegHeight := 0.5 }
    else if iv = 106 then { p with vegHeight := 1.5 }
    else if iv = 107 then { p with vegHeight := 3 }
    else if iv = 108 then { p with vegHeight := 2.5 }
    else if iv = 109 then { p with vegHeight := 5 }
    else if iv = 110 then { p with vegHeight := 12.5 }
    else if iv = 111 then { p with vegHeight := 25 }
    else if iv = 112 then { p with vegHeight := 50 }
    else p
  else p

/-- A `SourceGridFloat` used where a `Source` is expected; `contains` is inherited. -/
def SourceGridFloat.toSource (self : SourceGridFloat) : Source :=
  { contains := self.toGridSource.contains
    resolve := self.resolve }

/-- A grid source: one of the two classes. -/
inductive Grid where
  | integer : SourceInteger → Grid
  | float : SourceGridFloat → Grid

/-- The inherited members of a grid source. -/
def Grid.toGridSource : Grid → GridSource
  | Grid.integer s => s.toGridSource
  | Grid.float s => s.toGridSource

/-- The method `resolve` of a grid source. -/
def Grid.resolve : Grid → Point → Point
  | Grid.integer s => s.resolve
  | Grid.float s => s.resolve

/-- A grid source used where a `Source` is expected. -/
def Grid.toSource : Grid → Source
  | Grid.integer s => s.toSource
  | Grid.float s => s.toSource

/-- A converter that reads only the latitude and the longitude of a point, as both
converters of `source.C` do. -/
def Convert.positional (c : Convert) : Prop :=
  ∀ p q : Point, p.lat = q.lat → p.lon = q.lon → c.convert p = c.convert q

/-! ## radio.h / radio.C -/

/-- The constant `SPEED_LIGHT` of `radio.h`, in metres per second. -/
def SPEED_LIGHT : ℝ := 299792458

/-- The constant `DENIED` of `radio.h`. -/
def DENIED : ℝ := 1024

/-- The constant `LARGE_LOSS` of `radio.h`. -/
def LARGE_LOSS : ℝ := -16777216

/-- The constant `CONSIDER_VEG` of `radio.h`. -/
def CONSIDER_VEG : Bool := true

/-- The constant `CONSIDER_LAND` of `radio.h`. -/
def CONSIDER_LAND : Bool := true

/-- The function `knifeEdgeLoss` of `radio.C`, over the reals, where the square root of a
negative number is 0 (`knifeEdgeLossDouble` below rounds every operation and returns NaN
there, as the code does). -/
def knifeEdgeLoss (startY endY pointY distX dist1X dist2X lambda _sight : ℝ) : ℝ :=
  let d := Real.sqrt ((endY - startY) ^ 2 + distX ^ 2)
  let d1 := Real.sqrt (dist1X ^ 2 + (startY - pointY) ^ 2)
  let d2 := Real.sqrt (dist2X ^ 2 + (endY - pointY) ^ 2)
  let deltaD := d1 + d2 - d
  let v := 2 * Real.sqrt (deltaD / lambda)
  let loss := 6.9 + 20 * log10 (Real.sqrt (v ^ 2 + 1) + v)
  loss

/-- The function `calcLandLoss` of `radio.C`. -/
def calcLandLoss (type : ℤ) (distance freq : ℝ) : ℝ :=
  let loss : ℝ :=
    if type = LAND_FOREST then -9.484 + 2.776 * Real.log freq
    else if type = LAND_RESIDENTIAL then -9.735 + 3.196 * Real.log freq
    else if type = LAND_COMMERCIAL then -10.31 + 3.616 * Real.log freq
    else 0
  let distance := distance / 200
  loss * distance

/-- The variables that the path walk of `pathLoss` updates. -/
structure WalkState where
  vegDepth : ℝ
  forestDepth : ℝ
  residentialDepth : ℝ
  commercialDepth : ℝ
  worstFresnel : ℝ
  lineDead : Bool

/-- The `for` loop of `pathLoss` over the discretised path: the list holds the samples
`path[i]`, `path[i+1]`, ... still to visit, `size` is `path.size()`.  The `break` on an
obstructed sample ends the walk with `lineDead` set. -/
def pathLoss.walk (size : ℕ) (resolution lambda dist elevStart elevEnd : ℝ) :
    List Point → ℕ → WalkState → WalkState
  | [], _, st => st
  | r :: rest, i, st =>
    let fraction := (i : ℝ) / (size : ℝ)
    let d1 := fraction * dist
    let d2 := (1 - fraction) * dist
    let ground := r.elev
    let sight := ((elevEnd - elevStart) * fraction) + elevStart
    let fresnel := Real.sqrt ((lambda * d1 * d2) / (d1 + d2))
    let curve := ((d1 / 1000) ^ 2 / (2 * RADIUS)) * 1000
    let veg := r.vegHeight
    let ground := ground - curve
    if sight < ground then
      { st with lineDead := true }
    else
      let st1 : WalkState :=
        if sight - fresnel < ground then
          let startY := elevStart
          let pointY := ground
          let endY := elevEnd - (((dist / 1000) ^ 2 / (2 * RADIUS)) * 1000)
          let distX := dist
          let dist1X := d1
          let dist2X := d2
          let fresLoss := knifeEdgeLoss startY endY pointY distX dist1X dist2X lambda sight
          if fresLoss > st.worstFresnel then { st with worstFresnel := fresLoss } else st
        else st
      let st2 : WalkState :=
        if sight < ground + veg then { st1 with vegDepth := st1.vegDepth + resolution }
        else st1
      let st3 : WalkState :=
        if r.landType = LAND_FOREST then
          { st2 with forestDepth := st2.forestDepth + resolution }
        else if r.landType = LAND_RESIDENTIAL then
          { st2 with residentialDepth := st2.residentialDepth + resolution }
        else if r.landType = LAND_COMMERCIAL then
          { st2 with commercialDepth := st2.commercialDepth + resolution }
        else st2
      pathLoss.walk size resolution lambda dist elevStart elevEnd rest (i + 1) st3

/-- The vegetation term of `pathLoss`, from the vegetation depth in metres (the value
of `vegDepth` after `vegDepth *= 1000`). -/
def pathLoss.vegLoss (freq vegDepth : ℝ) : ℝ :=
  if CONSIDER_VEG then
    if vegDepth < 14 then
      0.45 * (freq / 1000) ^ (0.284 : ℝ) * vegDepth
    else if vegDepth < 400 then
      1.33 * (freq / 1000) ^ (0.284 : ℝ) * vegDepth ^ (0.588 : ℝ)
    else
      LARGE_LOSS
  else 0

/-- The land-use term of `pathLoss`, from the three depths in kilometres. -/
def pathLoss.landLoss (freq forestDepth residentialDepth commercialDepth : ℝ) : ℝ :=
  if CONSIDER_LAND then
    let forestDepth := forestDepth * 1000
    let residentialDepth := residentialDepth * 1000
    let commercialDepth := commercialDepth * 1000
    0 + calcLandLoss LAND_FOREST forestDepth freq
      + calcLandLoss LAND_RESIDENTIAL residentialDepth freq
      + calcLandLoss LAND_COMMERCIAL commercialDepth freq
  else 0

/-- The function `pathLoss` of `radio.C`.  `none` when the discretisation of the path
does not finish within the fuel (or runs into undefined behaviour). -/
def pathLoss (fuel : ℕ) (p q : Point) (s : SourceGroup)
    (resolution txPower antenna freq : ℝ) : Option ℝ :=
  let lambda := SPEED_LIGHT / (freq * 1000000)
  let txPowerDbm := 10 * log10 txPower
  let dist := p.distance q * 1000
  let p := s.resolve p
  let q := s.resolve q
  let elevStart := p.elev + p.towerHeight
  let elevEnd := q.elev + q.towerHeight
  let horizon := (3.569 * Real.sqrt elevStart) * 1000
  if dist > horizon then
    some DENIED
  else
    let curve := ((dist / 1000) ^ 2 / (2 * RADIUS)) * 1000
    let elevEnd := elevEnd - curve
    let line := RegionLine.ofPoints p q
    match line.discrete fuel resolution with
    | none => none
    | some path =>
      let path := s.resolveList path
      let w := pathLoss.walk path.length resolution lambda dist elevStart elevEnd path 0
        { vegDepth := 0, forestDepth := 0, residentialDepth := 0, commercialDepth := 0,
          worstFresnel := 0, lineDead := false }
      let freeSpace := 32.4 + 20 * log10 freq + 20 * log10 (dist / 1000)
      let vegLoss := pathLoss.vegLoss freq (w.vegDepth * 1000)
      let landLoss := pathLoss.landLoss freq w.forestDepth w.residentialDepth
        w.commercialDepth
      let system := txPowerDbm + antenna
      let totalLoss := freeSpace + w.worstFresnel + vegLoss + landLoss
      if w.lineDead then some DENIED else some (system - totalLoss)

/-- The values that `point_to_point` of `longley.C` hands back through its three
reference parameters. -/
structure LongleyResult where
  dbloss : ℝ
  strmode : String
  errnum : ℤ

/-- The type of the function `point_to_point`.  The file `longley.C` that `radio.C`
includes is not part of the sources at hand: the function is a parameter of
`pathLossLongley`, with the arguments of the call in their order. -/
@[reducible] def PointToPoint : Type :=
  List ℝ → ℝ → ℝ → ℝ → ℝ → ℝ → ℝ → ℤ → ℤ → ℝ → ℝ → LongleyResult

/-- The loop of `pathLossLongley` that copies the elevations of the samples into
`elev[2]`, `elev[3]`, ...; a sample with the elevation -1 fails the `assert`: `none`. -/
def longleyProfile.fill : List Point → Option (List ℝ)
  | [] => some []
  | r :: rest =>
    if r.elev = -1 then none
    else (longleyProfile.fill rest).map (fun elev => r.elev :: elev)

/-- The array `elev` that `pathLossLongley` forms for a path that is not empty:
`elev[0] = path.size() - 1`, `elev[1] = resolution * 1000`, then the elevations. -/
def longleyProfile (resolution : ℝ) (path : List Point) : Option (List ℝ) :=
  (longleyProfile.fill path).map
    (fun elev => ((path.length - 1 : ℕ) : ℝ) :: (resolution * 1000) :: elev)

/-- The function `pathLossLongley` of `radio.C`, for a given function `point_to_point`.
The result is `none` when the discretisation of the path does not finish within the fuel
or when the `assert` on an elevation fails. -/
def pathLossLongley (point_to_point : PointToPoint) (fuel : ℕ) (p q : Point)
    (s : SourceGroup) (resolution txPower antenna freq : ℝ) : Option ℝ :=
  let txPowerDbm := 10 * log10 txPower
  let p := s.resolve p
  let q := s.resolve q
  let line := RegionLine.ofPoints p q
  match line.discrete fuel resolution with
  | none => none
  | some path =>
    let path := s.resolveList path
    if path.length = 0 then some (txPowerDbm + antenna)
    else
      match longleyProfile resolution path with
      | none => none
      | some elev =>
        let tht_m := p.towerHeight
        let rht_m := q.towerHeight
        let eps_dielect : ℝ := 15
        let sgm_conductivity : ℝ := 0.005
        let eno_ns_surfref : ℝ := 301
        let frq_mhz := freq
        let radio_climate : ℤ := 5
        let pol : ℤ := 0
        let conf : ℝ := 0.9
        let rel : ℝ := 0.9
        let out := point_to_point elev tht_m rht_m eps_dielect sgm_conductivity
          eno_ns_surfref frq_mhz radio_climate pol conf rel
        if out.errnum ≠ 0 then some DENIED
        else
          let system := txPowerDbm + antenna
          let totalLoss := out.dbloss
          some (system - totalLoss)

/-! ## The quantities of the path walk, worded after the specification

These definitions are not part of the code: they restate, sample by sample, what the
specification says the walk of `pathLoss` computes, and are compared with the loop
`pathLoss.walk` in the theorems below.  `size` is the number of samples, `i` the index
of a sample and `r` the (resolved) sample point. -/

/-- The distance in metres from the transmitter to sample `i`: the fraction `i / size`
of the whole distance. -/
def sampleD1 (dist : ℝ) (size i : ℕ) : ℝ := (i : ℝ) / (size : ℝ) * dist

/-- The distance in metres from sample `i` to the receiver. -/
def sampleD2 (dist : ℝ) (size i : ℕ) : ℝ := (1 - (i : ℝ) / (size : ℝ)) * dist

/-- The curvature-corrected ground elevation at sample `i`: the sample elevation minus
`(d1 / 1000)^2 / (2 * RADIUS) * 1000`. -/
def sampleGround (dist : ℝ) (size i : ℕ) (r : Point) : ℝ :=
  r.elev - (sampleD1 dist size i / 1000) ^ 2 / (2 * RADIUS) * 1000

/-- The sight elevation at sample `i`, interpolated linearly between the two endpoint
elevations: `elevStart + (elevEnd - elevStart) * i / size`. -/
def sampleSight (elevStart elevEnd : ℝ) (size i : ℕ) : ℝ :=
  elevStart + (elevEnd - elevStart) * (i : ℝ) / (size : ℝ)

/-- The radius of the first Fresnel zone at sample `i`. -/
def sampleFresnel (lambda dist : ℝ) (size i : ℕ) : ℝ :=
  Real.sqrt (lambda * sampleD1 dist size i * sampleD2 dist size i /
    (sampleD1 dist size i + sampleD2 dist size i))

/-- Sample `i` is obstructed: the ground is above the sight line. -/
@[reducible] def sampleObstructed (dist elevStart elevEnd : ℝ) (size i : ℕ) (r : Point) : Prop :=
  sampleSight elevStart elevEnd size i < sampleGround dist size i r

/-- Sample `i` encroaches into the first Fresnel zone. -/
@[reducible] def sampleEncroaches (lambda dist elevStart elevEnd : ℝ) (size i : ℕ) (r : Point) : Prop :=
  sampleSight elevStart elevEnd size i - sampleFresnel lambda dist size i <
    sampleGround dist size i r

/-- The knife-edge loss that `pathLoss` computes for sample `i`. -/
def sampleKnifeEdge (lambda dist elevStart elevEnd : ℝ) (size i : ℕ) (r : Point) : ℝ :=
  knifeEdgeLoss elevStart (elevEnd - (dist / 1000) ^ 2 / (2 * RADIUS) * 1000)
    (sampleGround dist size i r) dist (sampleD1 dist size i) (sampleD2 dist size i) lambda
    (sampleSight elevStart elevEnd size i)

/-- The sight line at sample `i` is below the vegetation canopy. -/
@[reducible] def sampleInVegetation (dist elevStart elevEnd : ℝ) (size i : ℕ) (r : Point) : Prop :=
  sampleSight elevStart elevEnd size i < sampleGround dist size i r + r.vegHeight

/-- The worst diffraction loss of a list of indexed samples: the maximum of the
knife-edge losses of the encroaching samples, and 0 when there is none. -/
def worstDiffraction (lambda dist elevStart elevEnd : ℝ) (size : ℕ)
    (samples : List (ℕ × Point)) : ℝ :=
  ((samples.filter (fun x =>
      decide (sampleEncroaches lambda dist elevStart elevEnd size x.1 x.2))).map
    (fun x => sampleKnifeEdge lambda dist elevStart elevEnd size x.1 x.2)).foldr max 0

/-- The vegetation depth in kilometres of a list of indexed samples: one resolution step
for every sample whose sight line is below the canopy. -/
def vegetationDepth (resolution dist elevStart elevEnd : ℝ) (size : ℕ)
    (samples : List (ℕ × Point)) : ℝ :=
  resolution * ((samples.filter (fun x =>
    decide (sampleInVegetation dist elevStart elevEnd size x.1 x.2))).length : ℝ)

/-- The depth in kilometres of one land-use class in a list of indexed samples: one
resolution step for every sample of that class. -/
def landDepth (resolution : ℝ) (type : ℤ) (samples : List (ℕ × Point)) : ℝ :=
  resolution * ((samples.filter (fun x => decide (x.2.landType = type))).length : ℝ)

/-! ## The IEEE-754 single format, worded after the specification -/

/-- The 32-bit pattern `b3 b2 b1 b0` of four bytes given in file order `b0 b1 b2 b3`:
the bytes reversed, most significant first. -/
def bitPattern (b0 b1 b2 b3 : ℕ) : ℕ :=
  b3 * 2 ^ 24 + b2 * 2 ^ 16 + b1 * 2 ^ 8 + b0

/-- The real value of the IEEE-754 single with the bit pattern `w`, for an exponent field
other than 255: with `s`, `e`, `f` the sign, exponent and fraction fields,
`(-1)^s * (2^23 + f) * 2^(e - 150)` for `1 ≤ e ≤ 254` and `(-1)^s * f * 2^(-149)` for
`e = 0`. -/
def ieeeValue (w : ℕ) : ℝ :=
  let s : ℕ := w / 2 ^ 31 % 2
  let e : ℕ := w / 2 ^ 23 % 2 ^ 8
  let f : ℕ := w % 2 ^ 23
  if e = 0 then (-1 : ℝ) ^ s * (f : ℝ) * (2 : ℝ) ^ (-149 : ℤ)
  else (-1 : ℝ) ^ s * ((2 : ℝ) ^ 23 + (f : ℝ)) * (2 : ℝ) ^ ((e : ℤ) - 150)

/-! ## The code tables of the grid sources, worded after the specification

These definitions are not part of the code: they restate the fixed tables that the
specification gives for the three kinds of coded cells, and are compared with the
`switch` statements of the two `resolve` methods in the theorems below. -/

/-- The land-use class of a land-cover code: forest for 41, 42, 43, 90, 91, 93,
residential for 22, commercial for 23 and 24, none for every other code. -/
def landClassOf (code : ℤ) : ℤ :=
  if code ∈ [41, 42, 43, 90, 91, 93] then LAND_FOREST
  else if code = 22 then LAND_RESIDENTIAL
  else if code ∈ [23, 24] then LAND_COMMERCIAL
  else LAND_NONE

/-- The vegetation cover of a vegetation-type code: `10 * (c mod 10) + 5` for the codes
101..109, 111..119 and 121..129, no cover for every other code. -/
def vegCoverOf (code : ℤ) : Option ℤ :=
  if (101 ≤ code ∧ code ≤ 109) ∨ (111 ≤ code ∧ code ≤ 119) ∨ (121 ≤ code ∧ code ≤ 129) then
    some (10 * (code % 10) + 5)
  else none

/-- The vegetation height in metres of a vegetation-height code: the table of the twelve
codes 101..112, no height for every other code. -/
def vegHeightOf (code : ℤ) : Option ℝ :=
  if code < 101 ∨ 112 < code then none
  else
    ([0.25, 0.5, 1, 0.25, 0.5, 1.5, 3, 2.5, 5, 12.5, 25, 50] : List ℝ)[(code - 101).toNat]?

/-! ## Data files and tiles of the examples -/

/-- A data file with the given bytes (and zero bytes beyond its end). -/
def fileOf (bytes : List ℕ) : ℤ → ℕ :=
  fun pos => if 0 ≤ pos then bytes.getD pos.toNat 0 else 0

/-- A tile of a single cell of one degree that covers the open square from (0, 0) to
(1, 1), of the given type and with the given four bytes of its cell. -/
def floatTile (type : ℤ) (b0 b1 b2 b3 : ℕ) : SourceGridFloat :=
  SourceGridFloat.new Convert.identity type 1 1 0 0 1 (fileOf [b0, b1, b2, b3])

/-- A tile of two rows and two columns of one degree that covers the open square from
(0, 0) to (2, 2), of the given type and with the given four cells of one byte. -/
def landTile (type : ℤ) (c0 c1 c2 c3 : ℕ) : SourceInteger :=
  SourceInteger.new Convert.identity type 2 2 1 0 2 (fileOf [c0, c1, c2, c3])

/-- A stand-in for `point_to_point` that hands back the same loss and error code for
every profile. -/
def constantModel (dbloss : ℝ) (errnum : ℤ) : PointToPoint :=
  fun _ _ _ _ _ _ _ _ _ _ _ => { dbloss := dbloss, strmode := "", errnum := errnum }

/-! ## Double precision

The definitions above compute over the reals.  Where a claim is decided by the rounding of
the `double` operations of the code, the functions it needs are translated once more, with
every operation rounded to the nearest double.  The functions of the C library (`sin`,
`cos`, `acos`, `sqrt`, `pow`, `log10`) are taken as correctly rounded, and a NaN result is
`none`. -/

/-- A finite value of the type `double` (IEEE 754 binary64): `m * 2^e` with a mantissa
`|m| < 2^53` and an exponent `-1074 ≤ e ≤ 971`. -/
def IsDouble (d : ℝ) : Prop :=
  ∃ m e : ℤ, |m| < 2 ^ 53 ∧ -1074 ≤ e ∧ e ≤ 971 ∧ d = (m : ℝ) * (2 : ℝ) ^ e

/-- The double `d` is nearest to the real `x`: no double is closer to `x`. -/
def Rounds (x d : ℝ) : Prop :=
  IsDouble d ∧ ∀ d' : ℝ, IsDouble d' → |x - d| ≤ |x - d'|

/-- The rounding of the real `x` to a double, to nearest.  In a tie the hardware takes the
double with an even mantissa and `fl` one of the two; no value computed below is a tie.
Overflow is not modelled. -/
def fl (x : ℝ) : ℝ :=
  Classical.epsilon (fun d : ℝ => Rounds x d)

/-- The function `toRadians` of `utils.C` in double precision: `d * PI / 180`, with the
double nearest to the literal `3.14159`. -/
def toRadiansDouble (d : ℝ) : ℝ := fl (fl (d * fl PI) / 180)

/-- The method `Point::distance` in double precision.  `acos` of an argument outside
`[-1, 1]` is NaN: `none`. -/
def Point.distanceDouble (self p : Point) : Option ℝ :=
  let lat1 := toRadiansDouble self.lat
  let lon1 := toRadiansDouble self.lon
  let lat2 := toRadiansDouble p.lat
  let lon2 := toRadiansDouble p.lon
  let arg := fl (fl (fl (Real.sin lat1) * fl (Real.sin lat2)) +
    fl (fl (fl (Real.cos lat1) * fl (Real.cos lat2)) * fl (Real.cos (fl (lon2 - lon1)))))
  if arg < -1 ∨ 1 < arg then none
  else some (fl (fl (Real.arccos arg) * fl RADIUS))

/-- The function `knifeEdgeLoss` of `radio.C` in double precision.  `sqrt` of a negative
argument is NaN, and so is all that is computed from it: `none`. -/
def knifeEdgeLossDouble (startY endY pointY distX dist1X dist2X lambda _sight : ℝ) :
    Option ℝ :=
  let d := fl (Real.sqrt (fl (fl (fl (endY - startY) ^ 2) + fl (distX ^ 2))))
  let d1 := fl (Real.sqrt (fl (fl (dist1X ^ 2) + fl (fl (startY - pointY) ^ 2))))
  let d2 := fl (Real.sqrt (fl (fl (dist2X ^ 2) + fl (fl (endY - pointY) ^ 2))))
  let deltaD := fl (fl (d1 + d2) - d)
  let ratio := fl (deltaD / lambda)
  if ratio < 0 then none
  else
    let v := fl (2 * fl (Real.sqrt ratio))
    let loss := fl (fl 6.9 +
      fl (20 * fl (log10 (fl (fl (Real.sqrt (fl (fl (v ^ 2) + 1))) + v)))))
    some loss

/-- The row that both `resolve` methods compute, in double precision. -/
def GridSource.rowDouble (self : GridSource) (p : Point) : ℤ :=
  let y := (self.convert.convert p).2
  let row := castInt (fl (fl (y - self.bottom) / self.cellsize))
  self.nrows - max 0 (min row self.nrows) - 1

/-- The column that both `resolve` methods compute, in double precision. -/
def GridSource.colDouble (self : GridSource) (p : Point) : ℤ :=
  let x := (self.convert.convert p).1
  let col := castInt (fl (fl (x - self.left) / self.cellsize))
  max 0 (min col self.ncols)

/-- The local variable `offset` of both `resolve` methods, in double precision (for a
grid of fewer than `2^31` cells, where the product of the two `int` does not overflow). -/
def GridSource.offsetDouble (self : GridSource) (p : Point) : ℤ :=
  (self.rowDouble p * self.ncols) + self.colDouble p

/-- The constructor `SourceInteger::SourceInteger` in double precision: the bottom and the
right edge are computed from the header values. -/
def SourceInteger.newDouble (convert : Convert) (type ncols nrows : ℤ)
    (cellsize left top : ℝ) (raw : ℤ → ℕ) : SourceInteger :=
  { convert := convert
    type := type
    ncols := ncols
    nrows := nrows
    cellsize := cellsize
    left := left
    top := top
    bottom := fl (top - fl ((nrows : ℝ) * cellsize))
    right := fl (left + fl ((ncols : ℝ) * cellsize))
    raw := raw }

/-- The constructor `SourceGridFloat::SourceGridFloat` in double precision: the top and
the right edge are computed from the header values. -/
def SourceGridFloat.newDouble (convert : Convert) (type ncols nrows : ℤ)
    (left bottom cellsize : ℝ) (raw : ℤ → ℕ) : SourceGridFloat :=
  { convert := convert
    type := type
    nrows := nrows
    ncols := ncols
    left := left
    bottom := bottom
    cellsize := cellsize
    top := fl (bottom + fl ((nrows : ℝ) * cellsize))
    right := fl (left + fl ((ncols : ℝ) * cellsize))
    raw := raw }

/-- An elevation tile of 1000 rows and 1000 columns with the header values `-111.3` for the
left edge, `0` for the bottom edge and `0.1` for the cell size, as doubles. -/
def wideTile : SourceGridFloat :=
  SourceGridFloat.newDouble Convert.identity TYPE_ELEV 1000 1000 (fl (-111.3)) 0 (fl 0.1)
    (fileOf [])

/-! ## Synthetic sources of the test scenarios -/

/-- The synthetic elevation source of the specification's flat-terrain scenario: it
covers every point and sets the elevation to the constant `E`, nothing else. -/
def flatSource (E : ℝ) : Source :=
  { contains := fun _ => true
    resolve := fun pt => { pt with elev := E } }

/-- The source group holding only `flatSource E`. -/
def flatGroup (E : ℝ) : SourceGroup :=
  { list := [flatSource E] }

/-- The source group without any member: it resolves nothing. -/
def emptyGroup : SourceGroup :=
  { list := [] }

/-! # Theorems -/

/-! ## Constants and unit conversion -/

/-- The constant `PI` is positive. -/
theorem PI_pos : 0 < PI := by unfold PI; norm_num

/-- The Earth radius is positive. -/
theorem RADIUS_pos : 0 < RADIUS := by unfold RADIUS; norm_num

/-- The constant `PI` is a lower approximation of `π`. -/
theorem PI_lt_pi : PI < Real.pi := by
  unfold PI
  have := Real.pi_gt_d6
  linarith

/-- Converting radians to degrees and back changes nothing (in real arithmetic). -/
theorem toRadians_toDegrees (x : ℝ) : toRadians (toDegrees x) = x := by
  unfold toRadians toDegrees
  have := PI_pos.ne.symm
  field_simp

/-- Converting degrees to radians and back changes nothing (in real arithmetic). -/
theorem toDegrees_toRadians (x : ℝ) : toDegrees (toRadians x) = x := by
  unfold toRadians toDegrees
  have := PI_pos.ne.symm
  field_simp

/-- A latitude in `[-90, 90]` degrees is, in radians, strictly within `(-π/2, π/2)`. -/
theorem toRadians_lat_mem {lat : ℝ} (h1 : -90 ≤ lat) (h2 : lat ≤ 90) :
    -(Real.pi / 2) < toRadians lat ∧ toRadians lat < Real.pi / 2 := by
  have hp := PI_lt_pi
  have hpos := PI_pos
  unfold toRadians
  constructor
  · have : -(PI / 2) ≤ lat * PI / 180 := by nlinarith
    linarith
  · have : lat * PI / 180 ≤ PI / 2 := by nlinarith
    linarith

/-- The cosine of `atan2 y x` times the length of `(x, y)` is `x`. -/
theorem cos_atan2_mul (y x : ℝ) : Real.cos (atan2 y x) * Real.sqrt (x ^ 2 + y ^ 2) = x := by
  unfold atan2
  by_cases hz : (⟨x, y⟩ : ℂ) = 0
  · have hx : x = 0 := by simpa using congrArg Complex.re hz
    have hy : y = 0 := by simpa using congrArg Complex.im hz
    subst hx; subst hy
    simp
  · rw [Complex.cos_arg hz]
    have habs : Complex.abs ⟨x, y⟩ = Real.sqrt (x ^ 2 + y ^ 2) := by
      rw [Complex.abs_apply, Complex.normSq_mk]
      congr 1; ring
    rw [habs]
    have : Real.sqrt (x ^ 2 + y ^ 2) ≠ 0 := by
      rw [← habs]
      exact (map_ne_zero Complex.abs).2 hz
    field_simp

/-- The sine of `atan2 y x` times the length of `(x, y)` is `y`. -/
theorem sin_atan2_mul (y x : ℝ) : Real.sin (atan2 y x) * Real.sqrt (x ^ 2 + y ^ 2) = y := by
  unfold atan2
  by_cases hz : (⟨x, y⟩ : ℂ) = 0
  · have hx : x = 0 := by simpa using congrArg Complex.re hz
    have hy : y = 0 := by simpa using congrArg Complex.im hz
    subst hx; subst hy
    simp
  · rw [Complex.sin_arg]
    have habs : Complex.abs ⟨x, y⟩ = Real.sqrt (x ^ 2 + y ^ 2) := by
      rw [Complex.abs_apply, Complex.normSq_mk]
      congr 1; ring
    rw [habs]
    have : Real.sqrt (x ^ 2 + y ^ 2) ≠ 0 := by
      rw [← habs]
      exact (map_ne_zero Complex.abs).2 hz
    field_simp

/-! ## Geodesic points -/

/-- The range of `bearing` is that of `atan2`: `(-π, π]`. -/
theorem bearing_range (p q : Point) : -Real.pi < p.bearing q ∧ p.bearing q ≤ Real.pi := by
  -- The range of `atan2`.
  have atan2_range : ∀ (y x : ℝ),
      -Real.pi < atan2 y x ∧ atan2 y x ≤ Real.pi := fun y x =>
    ⟨Complex.neg_pi_lt_arg _, Complex.arg_le_pi _⟩
  unfold Point.bearing
  exact atan2_range _ _

/-! ## The walk of `pathLoss` -/

/-- One turn of the walk of `pathLoss`, in the words of the sample quantities. -/
theorem walk_cons (size : ℕ) (resolution lambda dist elevStart elevEnd : ℝ) (r : Point)
    (rest : List Point) (i : ℕ) (st : WalkState) :
    pathLoss.walk size resolution lambda dist elevStart elevEnd (r :: rest) i st =
      if sampleObstructed dist elevStart elevEnd size i r then { st with lineDead := true }
      else pathLoss.walk size resolution lambda dist elevStart elevEnd rest (i + 1)
        { vegDepth := st.vegDepth +
            (if sampleInVegetation dist elevStart elevEnd size i r then resolution else 0)
          forestDepth := st.forestDepth + (if r.landType = LAND_FOREST then resolution else 0)
          residentialDepth := st.residentialDepth +
            (if r.landType = LAND_RESIDENTIAL then resolution else 0)
          commercialDepth := st.commercialDepth +
            (if r.landType = LAND_COMMERCIAL then resolution else 0)
          worstFresnel :=
            if sampleEncroaches lambda dist elevStart elevEnd size i r then
              max st.worstFresnel (sampleKnifeEdge lambda dist elevStart elevEnd size i r)
            else st.worstFresnel
          lineDead := st.lineDead } := by
  -- A land type is one of the three classes that `pathLoss` counts, or none of them.
  have landType_cases : ∀ (t : ℤ),
      (t = LAND_FOREST ∧ t ≠ LAND_RESIDENTIAL ∧ t ≠ LAND_COMMERCIAL) ∨
      (t ≠ LAND_FOREST ∧ t = LAND_RESIDENTIAL ∧ t ≠ LAND_COMMERCIAL) ∨
      (t ≠ LAND_FOREST ∧ t ≠ LAND_RESIDENTIAL ∧ t = LAND_COMMERCIAL) ∨
      (t ≠ LAND_FOREST ∧ t ≠ LAND_RESIDENTIAL ∧ t ≠ LAND_COMMERCIAL) := by
    intro t
    unfold LAND_FOREST LAND_RESIDENTIAL LAND_COMMERCIAL
    omega
  have hsight : (elevEnd - elevStart) * ((i : ℝ) / (size : ℝ)) + elevStart =
      sampleSight elevStart elevEnd size i := by
    unfold sampleSight; ring
  rw [pathLoss.walk]
  simp only [hsight]
  unfold sampleObstructed sampleEncroaches sampleInVegetation sampleKnifeEdge sampleFresnel
    sampleGround sampleD1 sampleD2
  generalize sampleSight elevStart elevEnd size i = sight
  generalize r.elev - (↑i / ↑size * dist / 1000) ^ 2 / (2 * RADIUS) * 1000 = ground
  generalize Real.sqrt (lambda * (↑i / ↑size * dist) * ((1 - ↑i / ↑size) * dist) /
          (↑i / ↑size * dist + (1 - ↑i / ↑size) * dist)) = fresnel
  generalize knifeEdgeLoss elevStart (elevEnd - (dist / 1000) ^ 2 / (2 * RADIUS) * 1000)
    ground dist (↑i / ↑size * dist) ((1 - ↑i / ↑size) * dist) lambda sight = fresLoss
  by_cases hobs : sight < ground
  · simp only [hobs, if_true]
  · simp only [hobs, if_false]
    congr 1
    have hmax : (if fresLoss > st.worstFresnel then { st with worstFresnel := fresLoss } else st)
        = { st with worstFresnel := max st.worstFresnel fresLoss } := by
      rcases lt_or_le st.worstFresnel fresLoss with hw | hw
      · simp only [gt_iff_lt, hw, if_true, max_eq_right hw.le]
      · simp only [gt_iff_lt, not_lt.2 hw, if_false, max_eq_left hw]
    rw [hmax]
    rcases landType_cases r.landType with h | h | h | h
    · simp only [if_pos h.1, if_neg h.2.1, if_neg h.2.2]
      by_cases henc : sight - fresnel < ground <;>
      by_cases hveg : sight < ground + r.vegHeight <;>
      simp only [henc, hveg, if_true, if_false, add_zero]
    · simp only [if_neg h.1, if_pos h.2.1, if_neg h.2.2]
      by_cases henc : sight - fresnel < ground <;>
      by_cases hveg : sight < ground + r.vegHeight <;>
      simp only [henc, hveg, if_true, if_false, add_zero]
    · simp only [if_neg h.1, if_neg h.2.1, if_pos h.2.2]
      by_cases henc : sight - fresnel < ground <;>
      by_cases hveg : sight < ground + r.vegHeight <;>
      simp only [henc, hveg, if_true, if_false, add_zero]
    · simp only [if_neg h.1, if_neg h.2.1, if_neg h.2.2]
      by_cases henc : sight - fresnel < ground <;>
      by_cases hveg : sight < ground + r.vegHeight <;>
      simp only [henc, hveg, if_true, if_false, add_zero]

/-- The worst diffraction loss is never negative. -/
theorem worstDiffraction_nonneg (lambda dist elevStart elevEnd : ℝ) (size : ℕ)
    (samples : List (ℕ × Point)) :
    0 ≤ worstDiffraction lambda dist elevStart elevEnd size samples := by
  unfold worstDiffraction
  generalize List.map _ _ = ks
  induction ks with
  | nil => simp
  | cons k ks ih => simp only [List.foldr_cons]; exact le_max_of_le_right ih

/-- The worst diffraction loss, one sample after the other. -/
theorem worstDiffraction_cons (lambda dist elevStart elevEnd : ℝ) (size : ℕ) (x : ℕ × Point)
    (samples : List (ℕ × Point)) :
    worstDiffraction lambda dist elevStart elevEnd size (x :: samples) =
      if sampleEncroaches lambda dist elevStart elevEnd size x.1 x.2 then
        max (sampleKnifeEdge lambda dist elevStart elevEnd size x.1 x.2)
          (worstDiffraction lambda dist elevStart elevEnd size samples)
      else worstDiffraction lambda dist elevStart elevEnd size samples := by
  unfold worstDiffraction
  by_cases h : sampleEncroaches lambda dist elevStart elevEnd size x.1 x.2
  · rw [if_pos h, List.filter_cons_of_pos (by simpa using h)]
    simp only [List.map_cons, List.foldr_cons]
  · rw [if_neg h, List.filter_cons_of_neg (by simpa using h)]

/-- On a path without obstructed sample the walk ends with the totals of the
specification: the depths, the worst diffraction loss, and `lineDead` unchanged. -/
theorem walk_clear (size : ℕ) (resolution lambda dist elevStart elevEnd : ℝ) :
    ∀ (l : List Point) (i : ℕ) (st : WalkState), 0 ≤ st.worstFresnel →
      (∀ (j : ℕ) (r : Point), l[j]? = some r →
        ¬ sampleObstructed dist elevStart elevEnd size (i + j) r) →
      pathLoss.walk size resolution lambda dist elevStart elevEnd l i st =
        { vegDepth := st.vegDepth +
            vegetationDepth resolution dist elevStart elevEnd size (l.enumFrom i)
          forestDepth := st.forestDepth + landDepth resolution LAND_FOREST (l.enumFrom i)
          residentialDepth := st.residentialDepth +
            landDepth resolution LAND_RESIDENTIAL (l.enumFrom i)
          commercialDepth := st.commercialDepth +
            landDepth resolution LAND_COMMERCIAL (l.enumFrom i)
          worstFresnel := max st.worstFresnel
            (worstDiffraction lambda dist elevStart elevEnd size (l.enumFrom i))
          lineDead := st.lineDead } := by
  -- The depth of a land-use class, one sample after the other.
  have landDepth_cons : ∀ (resolution : ℝ) (type : ℤ) (x : ℕ × Point) (samples : List (ℕ × Point)),
      landDepth resolution type (x :: samples) =
        (if x.2.landType = type then resolution else 0) + landDepth resolution type samples := by
    intro resolution type x samples
    unfold landDepth
    by_cases h : x.2.landType = type
    · rw [if_pos h, List.filter_cons_of_pos (by simpa using h)]
      simp only [List.length_cons]; push_cast; ring
    · rw [if_neg h, List.filter_cons_of_neg (by simpa using h)]
      ring
  -- The vegetation depth, one sample after the other.
  have vegetationDepth_cons : ∀ (resolution dist elevStart elevEnd : ℝ) (size : ℕ) (x : ℕ × Point)
      (samples : List (ℕ × Point)),
      vegetationDepth resolution dist elevStart elevEnd size (x :: samples) =
        (if sampleInVegetation dist elevStart elevEnd size x.1 x.2 then resolution else 0) +
          vegetationDepth resolution dist elevStart elevEnd size samples := by
    intro resolution dist elevStart elevEnd size x samples
    unfold vegetationDepth
    by_cases h : sampleInVegetation dist elevStart elevEnd size x.1 x.2
    · rw [if_pos h, List.filter_cons_of_pos (by simpa using h)]
      simp only [List.length_cons]; push_cast; ring
    · rw [if_neg h, List.filter_cons_of_neg (by simpa using h)]
      ring
  intro l
  induction l with
  | nil =>
    intro i st hw _
    simp only [pathLoss.walk, List.enumFrom_nil, vegetationDepth, landDepth, worstDiffraction,
      List.filter_nil, List.map_nil, List.foldr_nil, List.length_nil, Nat.cast_zero, mul_zero,
      add_zero, max_eq_left hw]
  | cons r0 rest ih =>
    intro i st hw hclear
    have h0 : ¬ sampleObstructed dist elevStart elevEnd size i r0 := by
      have := hclear 0 r0 (by simp)
      simpa using this
    rw [walk_cons, if_neg h0, ih]
    · simp only [List.enumFrom_cons, worstDiffraction_cons, vegetationDepth_cons,
        landDepth_cons]
      congr 1
      · ring
      · ring
      · ring
      · ring
      · by_cases henc : sampleEncroaches lambda dist elevStart elevEnd size i r0
        · simp only [henc, if_true, max_assoc]
        · simp only [henc, if_false]
    · show 0 ≤ (if sampleEncroaches lambda dist elevStart elevEnd size i r0 then
          max st.worstFresnel (sampleKnifeEdge lambda dist elevStart elevEnd size i r0)
        else st.worstFresnel)
      split_ifs
      · exact le_max_of_le_left hw
      · exact hw
    · intro j r hj
      have := hclear (j + 1) r (by simpa using hj)
      have e : i + 1 + j = i + (j + 1) := by omega
      rw [e]; exact this

/-- The knife-edge loss is never below 6.9 dB (in the model `sqrt` and `log10` are total,
and `sqrt` is never negative). -/
theorem knifeEdgeLoss_ge (startY endY pointY distX dist1X dist2X lambda sight : ℝ) :
    6.9 ≤ knifeEdgeLoss startY endY pointY distX dist1X dist2X lambda sight := by
  unfold knifeEdgeLoss log10
  simp only
  have hv : 0 ≤ 2 * Real.sqrt ((Real.sqrt (dist1X ^ 2 + (startY - pointY) ^ 2) +
    Real.sqrt (dist2X ^ 2 + (endY - pointY) ^ 2) -
    Real.sqrt ((endY - startY) ^ 2 + distX ^ 2)) / lambda) := by positivity
  generalize 2 * Real.sqrt ((Real.sqrt (dist1X ^ 2 + (startY - pointY) ^ 2) +
    Real.sqrt (dist2X ^ 2 + (endY - pointY) ^ 2) -
    Real.sqrt ((endY - startY) ^ 2 + distX ^ 2)) / lambda) = v at hv ⊢
  have h1 : 1 ≤ Real.sqrt (v ^ 2 + 1) := by
    rw [Real.le_sqrt' one_pos]
    nlinarith
  have h2 : 0 ≤ Real.log (Real.sqrt (v ^ 2 + 1) + v) / Real.log 10 :=
    div_nonneg (Real.log_nonneg (by linarith)) (Real.log_nonneg (by norm_num))
  linarith

/-- The decimal logarithm is non-negative from 1 on. -/
theorem log10_nonneg {x : ℝ} (h : 1 ≤ x) : 0 ≤ log10 x :=
  div_nonneg (Real.log_nonneg h) (Real.log_nonneg (by norm_num))

/-- The transmit power of 4000 mW is at most 40 dBm. -/
theorem log10_4000_le : log10 4000 ≤ 4 := by
  unfold log10
  have h10 : 0 < Real.log 10 := Real.log_pos (by norm_num)
  rw [div_le_iff₀ h10]
  have h : Real.log 4000 ≤ Real.log ((10 : ℝ) ^ (4 : ℕ)) :=
    Real.log_le_log (by norm_num) (by norm_num)
  rw [Real.log_pow] at h
  push_cast at h
  linarith

/-- The worst diffraction loss is at least the knife-edge loss of every encroaching sample. -/
theorem le_worstDiffraction (lambda dist elevStart elevEnd : ℝ) (size : ℕ)
    (samples : List (ℕ × Point)) (x : ℕ × Point) (hx : x ∈ samples)
    (henc : sampleEncroaches lambda dist elevStart elevEnd size x.1 x.2) :
    sampleKnifeEdge lambda dist elevStart elevEnd size x.1 x.2 ≤
      worstDiffraction lambda dist elevStart elevEnd size samples := by
  induction samples with
  | nil => simp at hx
  | cons y ys ih =>
    rw [worstDiffraction_cons]
    rcases List.mem_cons.1 hx with rfl | hmem
    · rw [if_pos henc]; exact le_max_left _ _
    · split_ifs
      · exact le_max_of_le_right (ih hmem)
      · exact ih hmem

/-! ## Discretisation of a two-point line -/

/-- The discretisation of the two-point line `(P, Q)` of positive length at a positive
resolution: with enough fuel it returns the points projected from `P` towards `Q` at the
distances `0, r, 2r, ...` below the length, `⌈length / r⌉` of them. -/
theorem discrete_two_points (P Q : Point) (resolution : ℝ) (fuel : ℕ) (hres : 0 < resolution)
    (hlen : 0 < P.distance Q) (hfuel : ⌈P.distance Q / resolution⌉₊ < fuel) :
    (RegionLine.ofPoints P Q).discrete fuel resolution =
      some ((List.range ⌈P.distance Q / resolution⌉₊).map
        (fun k : ℕ => P.project (P.bearing Q) ((k : ℝ) * resolution))) := by
  -- The inner loop of `discrete` stays on the current segment while `here` is inside it.
  have advance_stay : ∀ (list : List Point) (here : ℝ) (c : Cursor)
      (h : here - c.lastExact < c.distance),
      RegionLine.advance list here c = some c := by
    intro list here c h
    rw [RegionLine.advance, if_neg (not_le.2 h)]
  -- The outer loop of `discrete` while the cursor stays on one segment that reaches the end
  -- of the line: it emits the projections from `last` at `here`, `here + resolution`, ...
  have discreteLoop_stay : ∀ (list : List Point) (resolution length : ℝ) (c : Cursor) (P : Point)
      (hlast : c.last = some P) (hD : length ≤ c.distance + c.lastExact),
      ∀ (m fuel : ℕ) (here : ℝ), (∀ k : ℕ, k < m → here + (k : ℝ) * resolution < length) →
        ¬ (here + (m : ℝ) * resolution < length) → m < fuel →
        RegionLine.discreteLoop list resolution length fuel here c =
          some ((List.range m).map
            (fun k : ℕ => P.project c.bearing (here + (k : ℝ) * resolution - c.lastExact))) := by
    intro list resolution length c P hlast hD
    intro m
    induction m with
    | zero =>
      intro fuel here _ hend hfuel
      obtain ⟨f, rfl⟩ : ∃ f, fuel = f + 1 := ⟨fuel - 1, by omega⟩
      have hend' : ¬ here < length := by simpa using hend
      rw [RegionLine.discreteLoop, if_neg hend']
      rfl
    | succ m ih =>
      intro fuel here hlt hend hfuel
      obtain ⟨f, rfl⟩ : ∃ f, fuel = f + 1 := ⟨fuel - 1, by omega⟩
      have h0 : here < length := by simpa using hlt 0 (Nat.succ_pos m)
      have hrec := ih f (here + resolution)
        (by
          intro k hk
          have := hlt (k + 1) (Nat.succ_lt_succ hk)
          push_cast at this
          linarith)
        (by
          intro hcon
          apply hend
          push_cast
          linarith)
        (by omega)
      rw [RegionLine.discreteLoop, if_pos h0, advance_stay list here c (by linarith)]
      simp only [hlast, hrec]
      rw [List.range_succ_eq_map, List.map_cons, List.map_map]
      congr 2
      · simp
      · apply List.map_congr_left
        intro k _
        simp only [Function.comp]
        congr 1
        push_cast
        ring
  have hlength : (RegionLine.ofPoints P Q).length = some (P.distance Q) := by
    simp [RegionLine.ofPoints, RegionLine.length, RegionLine.lengthLoop]
  have hn : 0 < ⌈P.distance Q / resolution⌉₊ := Nat.ceil_pos.2 (div_pos hlen hres)
  obtain ⟨m, hm⟩ : ∃ m, ⌈P.distance Q / resolution⌉₊ = m + 1 :=
    ⟨⌈P.distance Q / resolution⌉₊ - 1, by omega⟩
  obtain ⟨f, rfl⟩ : ∃ f, fuel = f + 1 := ⟨fuel - 1, by omega⟩
  have hk : ∀ k : ℕ, k < m + 1 → (k : ℝ) * resolution < P.distance Q := by
    intro k hk
    rw [← hm, Nat.lt_ceil] at hk
    exact (lt_div_iff₀ hres).1 hk
  have hend : P.distance Q ≤ ((m + 1 : ℕ) : ℝ) * resolution := by
    rw [← hm]
    exact (div_le_iff₀ hres).1 (Nat.le_ceil _)
  -- the first turn moves the cursor onto the only segment
  have hadv : RegionLine.advance [P, Q] 0
      { i := 1, last := none, next := P, lastExact := 0, bearing := 0, distance := 0 } =
      some { i := 2, last := some P, next := Q, lastExact := 0 + 0,
             bearing := P.bearing Q, distance := P.distance Q } := by
    rw [RegionLine.advance, if_pos (by simp), dif_pos (by simp)]
    exact advance_stay _ _ _ (by simpa using hlen)
  have hrest := discreteLoop_stay [P, Q] resolution (P.distance Q)
    { i := 2, last := some P, next := Q, lastExact := 0 + 0,
      bearing := P.bearing Q, distance := P.distance Q } P rfl (by simp) m f (0 + resolution)
    (by
      intro k hkm
      have := hk (k + 1) (Nat.succ_lt_succ hkm)
      push_cast at this
      linarith)
    (by
      intro hcon
      push_cast at hend
      linarith)
    (by omega)
  unfold RegionLine.discrete
  rw [hlength]
  simp only [RegionLine.ofPoints]
  rw [RegionLine.discreteLoop, if_pos hlen, hadv]
  simp only [hrest]
  rw [hm, List.range_succ_eq_map, List.map_cons, List.map_map]
  congr 2
  · simp
  · apply List.map_congr_left
    intro k _
    simp only [Function.comp]
    congr 1
    push_cast
    ring

/-! ## The path-loss engine -/

/-- Within the horizon and without obstructed sample, `pathLoss` returns the system gain
minus the sum of the four loss terms of the specification. -/
theorem pathLoss_of_clear (fuel : ℕ) (p q : Point) (s : SourceGroup)
    (resolution txPower antenna freq : ℝ) (path : List Point)
    (dist elevStart elevEnd lambda : ℝ)
    (hdist : dist = p.distance q * 1000)
    (hstart : elevStart = (s.resolve p).elev + (s.resolve p).towerHeight)
    (hend : elevEnd = (s.resolve q).elev + (s.resolve q).towerHeight -
      (dist / 1000) ^ 2 / (2 * RADIUS) * 1000)
    (hlambda : lambda = SPEED_LIGHT / (freq * 1000000))
    (hhor : dist ≤ 3.569 * Real.sqrt elevStart * 1000)
    (hpath : (RegionLine.ofPoints (s.resolve p) (s.resolve q)).discrete fuel resolution =
      some path)
    (hclear : ∀ (i : ℕ) (r : Point), (s.resolveList path)[i]? = some r →
      ¬ (r.elev - ((i : ℝ) / (path.length : ℝ) * dist / 1000) ^ 2 / (2 * RADIUS) * 1000 >
        elevStart + (elevEnd - elevStart) * (i : ℝ) / (path.length : ℝ))) :
    pathLoss fuel p q s resolution txPower antenna freq =
      some ((10 * log10 txPower + antenna) -
        ((32.4 + 20 * log10 freq + 20 * log10 (p.distance q)) +
          worstDiffraction lambda dist elevStart elevEnd path.length (s.resolveList path).enum +
          pathLoss.vegLoss freq
            (vegetationDepth resolution dist elevStart elevEnd path.length
              (s.resolveList path).enum * 1000) +
          (calcLandLoss LAND_FOREST
              (landDepth resolution LAND_FOREST (s.resolveList path).enum * 1000) freq +
            calcLandLoss LAND_RESIDENTIAL
              (landDepth resolution LAND_RESIDENTIAL (s.resolveList path).enum * 1000) freq +
            calcLandLoss LAND_COMMERCIAL
              (landDepth resolution LAND_COMMERCIAL (s.resolveList path).enum * 1000) freq))) := by
  have hlen : (s.resolveList path).length = path.length := by
    unfold SourceGroup.resolveList; simp
  have hwalk := walk_clear (s.resolveList path).length resolution lambda dist elevStart elevEnd
    (s.resolveList path) 0
    { vegDepth := 0, forestDepth := 0, residentialDepth := 0, commercialDepth := 0,
      worstFresnel := 0, lineDead := false } le_rfl
    (by
      intro j r hj
      rw [zero_add, hlen]
      exact hclear j r hj)
  have hkm : p.distance q * 1000 / 1000 = p.distance q := by ring
  unfold pathLoss
  simp only
  rw [if_neg (by rw [← hdist, ← hstart]; exact not_lt.2 hhor), hpath]
  simp only
  rw [← hdist, ← hstart, ← hend, ← hlambda, hwalk]
  simp only [zero_add, hlen, Bool.false_eq_true, if_false, hdist, hkm,
    max_eq_right (worstDiffraction_nonneg _ _ _ _ _ _), pathLoss.landLoss, CONSIDER_LAND,
    if_true, List.enum]

/-! ## Flat terrain -/

/-- The vegetation term vanishes at depth 0. -/
theorem vegLoss_zero (freq : ℝ) : pathLoss.vegLoss freq 0 = 0 := by
  unfold pathLoss.vegLoss CONSIDER_VEG
  norm_num

/-- A land-use class that is not traversed contributes nothing. -/
theorem calcLandLoss_zero (type : ℤ) (freq : ℝ) : calcLandLoss type 0 freq = 0 := by
  unfold calcLandLoss
  simp

/-- Flat ground at a constant elevation `E ≥ 0`, two towers of 10 m between 4 and 4.2 km
apart, resolution 0.01 km, 4000 mW, 0 dB, 900 MHz: the path is clear, `pathLoss` returns the
system gain minus the four loss terms, no sample is below the canopy or in a land-use
class, and a sample near the middle encroaches into the first Fresnel zone. -/
theorem pathLoss_flat_parts (fuel : ℕ) (p q : Point) (s : SourceGroup) (E : ℝ)
    (hs : ∀ pt : Point, s.resolve pt = { pt with elev := E })
    (hE : 0 ≤ E) (hp : p.towerHeight = 10) (hq : q.towerHeight = 10)
    (hL1 : 4 ≤ p.distance q) (hL2 : p.distance q ≤ 4.2) (hfuel : 422 ≤ fuel) :
    ∃ path : List Point,
      (RegionLine.ofPoints (s.resolve p) (s.resolve q)).discrete fuel 0.01 = some path ∧
      pathLoss fuel p q s 0.01 4000 0 900 =
        some ((10 * log10 4000 + 0) -
          ((32.4 + 20 * log10 900 + 20 * log10 (p.distance q)) +
            worstDiffraction (SPEED_LIGHT / (900 * 1000000)) (p.distance q * 1000) (E + 10)
            (E + 10 - (p.distance q * 1000 / 1000) ^ 2 / (2 * RADIUS) * 1000) path.length
            (s.resolveList path).enum +
            pathLoss.vegLoss 900
              (vegetationDepth 0.01 (p.distance q * 1000) (E + 10)
                (E + 10 - (p.distance q * 1000 / 1000) ^ 2 / (2 * RADIUS) * 1000) path.length
                (s.resolveList path).enum * 1000) +
            (calcLandLoss LAND_FOREST
                (landDepth 0.01 LAND_FOREST (s.resolveList path).enum * 1000) 900 +
              calcLandLoss LAND_RESIDENTIAL
                (landDepth 0.01 LAND_RESIDENTIAL (s.resolveList path).enum * 1000) 900 +
              calcLandLoss LAND_COMMERCIAL
                (landDepth 0.01 LAND_COMMERCIAL (s.resolveList path).enum * 1000) 900))) ∧
      vegetationDepth 0.01 (p.distance q * 1000) (E + 10)
        (E + 10 - (p.distance q * 1000 / 1000) ^ 2 / (2 * RADIUS) * 1000) path.length
        (s.resolveList path).enum = 0 ∧
      (∀ t : ℤ, t = LAND_FOREST ∨ t = LAND_RESIDENTIAL ∨ t = LAND_COMMERCIAL →
        landDepth 0.01 t (s.resolveList path).enum = 0) ∧
      ∃ x ∈ (s.resolveList path).enum,
        sampleEncroaches (SPEED_LIGHT / (900 * 1000000)) (p.distance q * 1000) (E + 10)
          (E + 10 - (p.distance q * 1000 / 1000) ^ 2 / (2 * RADIUS) * 1000) path.length
          x.1 x.2 := by
  -- On such flat ground the sight line is never more than the tower height above it.
  have flat_margin_le : ∀ (E L f : ℝ) (hf0 : 0 ≤ f) (hf1 : f ≤ 1),
      (E + 10) + ((E + 10 - (L * 1000 / 1000) ^ 2 / (2 * RADIUS) * 1000) - (E + 10)) * f - 10 ≤
        E - (f * (L * 1000) / 1000) ^ 2 / (2 * RADIUS) * 1000 := by
    intro E L f hf0 hf1
    have hR : (0 : ℝ) < 2 * RADIUS := by unfold RADIUS; norm_num
    have hc0 : 0 ≤ L ^ 2 / (2 * RADIUS) * 1000 := by positivity
    have key : (E - (f * (L * 1000) / 1000) ^ 2 / (2 * RADIUS) * 1000) -
        ((E + 10) + ((E + 10 - (L * 1000 / 1000) ^ 2 / (2 * RADIUS) * 1000) - (E + 10)) * f - 10) =
        (L ^ 2 / (2 * RADIUS) * 1000) * (f * (1 - f)) := by
      ring
    have hff0 : 0 ≤ f * (1 - f) := mul_nonneg hf0 (by linarith)
    nlinarith [mul_nonneg hc0 hff0]
  -- Near the middle of such a path the first Fresnel zone at 900 MHz is wider than 10 m.
  have flat_fresnel : ∀ (lambda dist f : ℝ) (hl : 0.33 ≤ lambda) (hd : 4000 ≤ dist)
      (hf0 : 10 / 21 ≤ f) (hf1 : f ≤ 1 / 2),
      10 < Real.sqrt (lambda * (f * dist) * ((1 - f) * dist) / (f * dist + (1 - f) * dist)) := by
    intro lambda dist f hl hd hf0 hf1
    have hden : f * dist + (1 - f) * dist = dist := by ring
    have hd0 : dist ≠ 0 := by linarith
    have e : lambda * (f * dist) * ((1 - f) * dist) / dist = lambda * f * (1 - f) * dist := by
      field_simp; ring
    rw [hden, e, Real.lt_sqrt (by norm_num)]
    have h1 : 0.33 * (10 / 21) ≤ lambda * f := mul_le_mul hl hf0 (by norm_num) (by linarith)
    have h2 : 0.33 * (10 / 21) * (1 / 2) ≤ lambda * f * (1 - f) :=
      mul_le_mul h1 (by linarith) (by norm_num) (by nlinarith)
    have h3 : 0.33 * (10 / 21) * (1 / 2) * 4000 ≤ lambda * f * (1 - f) * dist :=
      mul_le_mul h2 hd (by norm_num) (by nlinarith)
    norm_num at h3 ⊢
    linarith
  -- On flat ground between two towers of 10 m, about 4 km apart, no sample is obstructed:
  -- the sight line stays `10 - c f (1 - f)` above the ground, `c` being the curvature drop.
  have flat_clear : ∀ (E L f : ℝ) (hL1 : 0 ≤ L) (hL2 : L ≤ 4.2) (hf0 : 0 ≤ f) (hf1 : f ≤ 1),
      E - (f * (L * 1000) / 1000) ^ 2 / (2 * RADIUS) * 1000 ≤
        (E + 10) + ((E + 10 - (L * 1000 / 1000) ^ 2 / (2 * RADIUS) * 1000) - (E + 10)) * f := by
    intro E L f hL1 hL2 hf0 hf1
    have hR : (12756 : ℝ) ≤ 2 * RADIUS := by unfold RADIUS; norm_num
    have hc0 : 0 ≤ L ^ 2 / (2 * RADIUS) * 1000 := by positivity
    have hc1 : L ^ 2 / (2 * RADIUS) * 1000 ≤ 2 := by
      rw [div_mul_eq_mul_div, div_le_iff₀ (by linarith)]
      nlinarith
    have key : (E + 10) + ((E + 10 - (L * 1000 / 1000) ^ 2 / (2 * RADIUS) * 1000) - (E + 10)) * f -
        (E - (f * (L * 1000) / 1000) ^ 2 / (2 * RADIUS) * 1000) =
        10 - (L ^ 2 / (2 * RADIUS) * 1000) * (f * (1 - f)) := by
      ring
    have hff : f * (1 - f) ≤ 1 := by nlinarith
    have hff0 : 0 ≤ f * (1 - f) := mul_nonneg hf0 (by linarith)
    nlinarith
  -- The wavelength at 900 MHz is above 0.33 m.
  have lambda_900_gt :
      (0.33 : ℝ) ≤ SPEED_LIGHT / (900 * 1000000) := by
    unfold SPEED_LIGHT; norm_num
  -- The samples of a two-point line are fresh points: no vegetation, no land type.
  have range_project_get : ∀ (P : Point) (b resolution : ℝ) (n i : ℕ) (pt : Point)
      (h : ((List.range n).map (fun k : ℕ => P.project b ((k : ℝ) * resolution)))[i]? = some pt),
      i < n ∧ pt.vegHeight = 0 ∧ pt.landType = -1 := by
    intro P b resolution n i pt h
    rw [List.getElem?_map] at h
    cases hk : (List.range n)[i]? with
    | none => rw [hk] at h; simp at h
    | some k =>
      rw [hk] at h
      simp only [Option.map_some', Option.some.injEq] at h
      have hi : i < n := by
        have := (List.getElem?_eq_some.1 hk).1
        simpa using this
      subst h
      exact ⟨hi, rfl, rfl⟩
  -- A source group that only sets the elevation, to the constant `E`, resolves a whole
  -- list to that elevation.
  have resolveList_flat : ∀ (s : SourceGroup) (E : ℝ)
      (hs : ∀ pt : Point, s.resolve pt = { pt with elev := E }) (path : List Point) (i : ℕ)
      (r : Point) (hr : (s.resolveList path)[i]? = some r),
      ∃ pt, path[i]? = some pt ∧ r = { pt with elev := E } := by
    intro s E hs path i r hr
    unfold SourceGroup.resolveList at hr
    rw [List.getElem?_map] at hr
    cases hpt : path[i]? with
    | none => rw [hpt] at hr; simp at hr
    | some pt =>
      rw [hpt] at hr
      simp only [Option.map_some', Option.some.injEq] at hr
      exact ⟨pt, rfl, by rw [← hr, hs]⟩
  have hPQ : (s.resolve p).distance (s.resolve q) = p.distance q := by rw [hs, hs]; rfl
  have hPe : (s.resolve p).elev + (s.resolve p).towerHeight = E + 10 := by rw [hs]; simp [hp]
  have hQe : (s.resolve q).elev + (s.resolve q).towerHeight = E + 10 := by rw [hs]; simp [hq]
  -- the number of samples
  have hdiv0 : (400 : ℝ) ≤ p.distance q / 0.01 := by
    rw [le_div_iff₀ (by norm_num)]; linarith
  have hdiv1 : p.distance q / 0.01 ≤ 420 := by
    rw [div_le_iff₀ (by norm_num)]; linarith
  have hn0 : 400 ≤ ⌈p.distance q / 0.01⌉₊ := by
    have h := le_trans hdiv0 (Nat.le_ceil (p.distance q / 0.01))
    exact_mod_cast h
  have hn1 : ⌈p.distance q / 0.01⌉₊ ≤ 420 := by
    apply Nat.ceil_le.2
    exact_mod_cast hdiv1
  have hpath := discrete_two_points (s.resolve p) (s.resolve q) 0.01 fuel (by norm_num)
    (by rw [hPQ]; linarith) (by rw [hPQ]; omega)
  rw [hPQ] at hpath
  generalize hn : ⌈p.distance q / 0.01⌉₊ = n at hn0 hn1 hpath
  generalize hpathdef : (List.range n).map
    (fun k : ℕ => (s.resolve p).project ((s.resolve p).bearing (s.resolve q)) ((k : ℝ) * 0.01)) =
    path at hpath
  have hlen : path.length = n := by rw [← hpathdef]; simp
  -- every resolved sample is bare ground at elevation E
  have hsample : ∀ (i : ℕ) (r : Point), (s.resolveList path)[i]? = some r →
      i < n ∧ r.elev = E ∧ r.vegHeight = 0 ∧ r.landType = -1 := by
    intro i r hr
    obtain ⟨pt, hpt, rfl⟩ := resolveList_flat s E hs path i r hr
    rw [← hpathdef] at hpt
    obtain ⟨hi, hv, hl⟩ := range_project_get _ _ _ _ _ _ hpt
    exact ⟨hi, rfl, hv, hl⟩
  have hnpos : (0 : ℝ) < n := by exact_mod_cast (by omega : 0 < n)
  -- no sample is obstructed, nor below the canopy
  have hclearf : ∀ (i : ℕ), i < n →
      E - ((i : ℝ) / (n : ℝ) * (p.distance q * 1000) / 1000) ^ 2 / (2 * RADIUS) * 1000 ≤
        (E + 10) + ((E + 10 - (p.distance q * 1000 / 1000) ^ 2 / (2 * RADIUS) * 1000) -
          (E + 10)) * (i : ℝ) / (n : ℝ) := by
    intro i hi
    have hf1 : (i : ℝ) / (n : ℝ) ≤ 1 := by
      rw [div_le_one hnpos]; exact_mod_cast hi.le
    have := flat_clear E (p.distance q) ((i : ℝ) / (n : ℝ)) (by linarith) hL2 (by positivity) hf1
    refine this.trans (le_of_eq ?_)
    ring
  have hclear : ∀ (i : ℕ) (r : Point), (s.resolveList path)[i]? = some r →
      ¬ (r.elev - ((i : ℝ) / (path.length : ℝ) * (p.distance q * 1000) / 1000) ^ 2 /
          (2 * RADIUS) * 1000 >
        (E + 10) + ((E + 10 - (p.distance q * 1000 / 1000) ^ 2 / (2 * RADIUS) * 1000) -
          (E + 10)) * (i : ℝ) / (path.length : ℝ)) := by
    intro i r hr
    obtain ⟨hi, he, _, _⟩ := hsample i r hr
    rw [hlen, he]
    exact not_lt.2 (hclearf i hi)
  have hhor : p.distance q * 1000 ≤ 3.569 * Real.sqrt (E + 10) * 1000 := by
    have h3 : (3 : ℝ) ≤ Real.sqrt (E + 10) := by
      rw [Real.le_sqrt' (by norm_num)]; linarith
    nlinarith
  have hmain := pathLoss_of_clear fuel p q s 0.01 4000 0 900 path (p.distance q * 1000) (E + 10)
    (E + 10 - (p.distance q * 1000 / 1000) ^ 2 / (2 * RADIUS) * 1000)
    (SPEED_LIGHT / (900 * 1000000)) rfl hPe.symm (by rw [hQe]) rfl hhor hpath hclear
  -- no sample is below the canopy or in a land-use class
  have hveg : vegetationDepth 0.01 (p.distance q * 1000) (E + 10)
      (E + 10 - (p.distance q * 1000 / 1000) ^ 2 / (2 * RADIUS) * 1000) path.length
      (s.resolveList path).enum = 0 := by
    unfold vegetationDepth
    rw [List.filter_eq_nil_iff.2, List.length_nil, Nat.cast_zero, mul_zero]
    intro x hx
    obtain ⟨hi, he, hv, _⟩ := hsample x.1 x.2 (List.mem_enum_iff_getElem?.1 hx)
    have := hclearf x.1 hi
    simp only [decide_eq_true_eq, sampleInVegetation, sampleSight, sampleGround, sampleD1, hv,
      he, add_zero, hlen, not_lt]
    exact this
  have hland : ∀ t : ℤ, t = LAND_FOREST ∨ t = LAND_RESIDENTIAL ∨ t = LAND_COMMERCIAL →
      landDepth 0.01 t (s.resolveList path).enum = 0 := by
    intro t ht
    unfold landDepth
    rw [List.filter_eq_nil_iff.2, List.length_nil, Nat.cast_zero, mul_zero]
    intro x hx
    obtain ⟨_, _, _, hl⟩ := hsample x.1 x.2 (List.mem_enum_iff_getElem?.1 hx)
    simp only [decide_eq_true_eq, hl]
    unfold LAND_FOREST LAND_RESIDENTIAL LAND_COMMERCIAL at ht
    omega
  -- sample 200, near the middle, lies inside the first Fresnel zone
  have h200 : 200 < (s.resolveList path).length := by
    unfold SourceGroup.resolveList; rw [List.length_map, hlen]; omega
  have hr200 : (s.resolveList path)[200]? = some ((s.resolveList path).get ⟨200, h200⟩) :=
    List.getElem?_eq_getElem h200
  obtain ⟨_, he, _, _⟩ := hsample 200 _ hr200
  have hf0 : (10 : ℝ) / 21 ≤ ((200 : ℕ) : ℝ) / (n : ℝ) := by
    rw [div_le_div_iff₀ (by norm_num) hnpos]
    have : (n : ℝ) ≤ 420 := by exact_mod_cast hn1
    push_cast; linarith
  have hf1 : ((200 : ℕ) : ℝ) / (n : ℝ) ≤ 1 / 2 := by
    rw [div_le_div_iff₀ hnpos (by norm_num)]
    have : (400 : ℝ) ≤ n := by exact_mod_cast hn0
    push_cast; linarith
  have henc : sampleEncroaches (SPEED_LIGHT / (900 * 1000000)) (p.distance q * 1000) (E + 10)
      (E + 10 - (p.distance q * 1000 / 1000) ^ 2 / (2 * RADIUS) * 1000) path.length 200
      ((s.resolveList path).get ⟨200, h200⟩) := by
    have hfres := flat_fresnel (SPEED_LIGHT / (900 * 1000000)) (p.distance q * 1000)
      (((200 : ℕ) : ℝ) / (n : ℝ)) lambda_900_gt (by linarith) hf0 hf1
    have hmar := flat_margin_le E (p.distance q) (((200 : ℕ) : ℝ) / (n : ℝ)) (by positivity)
      (by linarith)
    simp only [sampleEncroaches, sampleSight, sampleFresnel, sampleGround, sampleD1, sampleD2,
      hlen, he]
    have e : (E + 10) + ((E + 10 - (p.distance q * 1000 / 1000) ^ 2 / (2 * RADIUS) * 1000) -
        (E + 10)) * ((200 : ℕ) : ℝ) / (n : ℝ) =
        (E + 10) + ((E + 10 - (p.distance q * 1000 / 1000) ^ 2 / (2 * RADIUS) * 1000) -
        (E + 10)) * (((200 : ℕ) : ℝ) / (n : ℝ)) := by ring
    rw [e]
    linarith
  exact ⟨path, hpath, hmain, hveg, hland,
    ⟨(200, (s.resolveList path).get ⟨200, h200⟩), List.mk_mem_enum_iff_getElem?.2 hr200, henc⟩⟩

/-! ## The vegetation term -/

/-- At the depth ceiling the vegetation term is the constant `LARGE_LOSS`, whatever the
frequency. -/
theorem vegLoss_ceiling (freq d : ℝ) (h : 400 ≤ d) : pathLoss.vegLoss freq d = LARGE_LOSS := by
  unfold pathLoss.vegLoss CONSIDER_VEG
  simp only [if_true]
  rw [if_neg (not_lt.2 (by linarith)), if_neg (not_lt.2 h)]

/-! ## Concrete inputs -/

/-- The distance between two points of the equator, the first at longitude 0 and the
second `x` km further east. -/
theorem distance_equator (p q : Point) (x : ℝ) (hp1 : p.lat = 0) (hp2 : p.lon = 0)
    (hq1 : q.lat = 0) (hq2 : q.lon = toDegrees (x / RADIUS)) (h0 : 0 ≤ x)
    (h1 : x ≤ Real.pi * RADIUS) : p.distance q = x := by
  have hR := RADIUS_pos
  have hz : toRadians 0 = 0 := by unfold toRadians; simp
  unfold Point.distance
  simp only [hp1, hp2, hq1, hq2, hz, toRadians_toDegrees, Real.sin_zero, Real.cos_zero,
    mul_zero, zero_add, one_mul, sub_zero]
  rw [Real.arccos_cos (by positivity) (by rw [div_le_iff₀ hR]; exact h1)]
  field_simp

/-- A distance up to 100 km is below half the circumference of the Earth. -/
theorem small_le_pi_mul_RADIUS {x : ℝ} (h : x ≤ 100) : x ≤ Real.pi * RADIUS := by
  have hpi := Real.pi_gt_three
  have hR : (6378 : ℝ) ≤ RADIUS := by unfold RADIUS; norm_num
  nlinarith

/-- The empty source group leaves every point as it is. -/
theorem emptyGroup_resolve (pt : Point) : emptyGroup.resolve pt = pt := rfl

/-- The empty source group leaves every list of points as it is. -/
theorem emptyGroup_resolveList (l : List Point) : emptyGroup.resolveList l = l := by
  unfold SourceGroup.resolveList
  have : emptyGroup.resolve = id := funext emptyGroup_resolve
  rw [this, List.map_id]

/-- The flat source group sets the elevation and nothing else. -/
theorem flatGroup_resolve (E : ℝ) (pt : Point) :
    (flatGroup E).resolve pt = { pt with elev := E } := rfl

/-! ## The length and the discretisation of any line -/

/-- The loop of `length` adds to the sum so far the distances between consecutive
vertices. -/
theorem lengthLoop_eq_sum (d : Point) : ∀ (rest : List Point) (last : Point) (acc : ℝ),
    RegionLine.lengthLoop last rest acc =
      acc + ∑ i in Finset.range rest.length,
        ((last :: rest).getD i d).distance ((last :: rest).getD (i + 1) d) := by
  intro rest
  induction rest with
  | nil => intro last acc; simp [RegionLine.lengthLoop]
  | cons it rest ih =>
    intro last acc
    rw [RegionLine.lengthLoop, ih it (acc + last.distance it), List.length_cons,
      Finset.sum_range_succ']
    simp only [List.getD_cons_succ, List.getD_cons_zero]
    ring

/-- The number of steps of size `step > 0` from `lo` that stay below `hi`. -/
theorem steps_below (lo hi step : ℝ) (hstep : 0 < step) :
    (∀ k : ℕ, k < ⌈(hi - lo) / step⌉₊ → lo + (k : ℝ) * step < hi) ∧
      ¬ (lo + (⌈(hi - lo) / step⌉₊ : ℝ) * step < hi) := by
  constructor
  · intro k hk
    rw [Nat.lt_ceil, lt_div_iff₀ hstep] at hk
    linarith
  · intro hcon
    have h := Nat.le_ceil ((hi - lo) / step)
    rw [div_le_iff₀ hstep] at h
    linarith

/-- With a positive degree step and enough fuel `RegionArea::discrete` returns the grid
of the points `(bottomLeft.lat + i * degRes, bottomLeft.lon + j * degRes)`, row by row. -/
theorem area_discrete_eq (area : RegionArea) (resolution : ℝ) (fuel : ℕ)
    (hdeg : 0 < area.degRes resolution)
    (hfuel1 : ⌈(area.topRight.lat - area.bottomLeft.lat) / area.degRes resolution⌉₊ < fuel)
    (hfuel2 : ⌈(area.topRight.lon - area.bottomLeft.lon) / area.degRes resolution⌉₊ < fuel) :
    area.discrete fuel resolution =
      some ((List.range
          ⌈(area.topRight.lat - area.bottomLeft.lat) / area.degRes resolution⌉₊).flatMap
        (fun i : ℕ => (List.range
            ⌈(area.topRight.lon - area.bottomLeft.lon) / area.degRes resolution⌉₊).map
          (fun j : ℕ => Point.new (area.bottomLeft.lat + (i : ℝ) * area.degRes resolution)
            (area.bottomLeft.lon + (j : ℝ) * area.degRes resolution)))) := by
  -- The rows of the area grid: the outer loop emits one row for each of the latitudes
  -- `lat`, `lat + degRes`, ... below the top edge.
  have discreteLat_eq : ∀ (area : RegionArea) (degRes : ℝ) (rowFuel : ℕ) (row : ℝ → List Point)
      (hrow : ∀ lat : ℝ, RegionArea.discreteLon area degRes lat rowFuel area.bottomLeft.lon = some (row lat)),
      ∀ (m fuel : ℕ) (lat : ℝ), (∀ k : ℕ, k < m → lat + (k : ℝ) * degRes < area.topRight.lat) →
        ¬ (lat + (m : ℝ) * degRes < area.topRight.lat) → m < fuel →
        RegionArea.discreteLat area degRes rowFuel fuel lat =
          some ((List.range m).flatMap (fun i : ℕ => row (lat + (i : ℝ) * degRes))) := by
    intro area degRes rowFuel row hrow
    intro m
    induction m with
    | zero =>
      intro fuel lat _ hend hfuel
      obtain ⟨f, rfl⟩ : ∃ f, fuel = f + 1 := ⟨fuel - 1, by omega⟩
      have hend' : ¬ lat < area.topRight.lat := by simpa using hend
      rw [RegionArea.discreteLat, if_neg hend']
      rfl
    | succ m ih =>
      intro fuel lat hlt hend hfuel
      obtain ⟨f, rfl⟩ : ∃ f, fuel = f + 1 := ⟨fuel - 1, by omega⟩
      have h0 : lat < area.topRight.lat := by simpa using hlt 0 (Nat.succ_pos m)
      have hrec := ih f (lat + degRes)
        (by
          intro k hk
          have := hlt (k + 1) (Nat.succ_lt_succ hk)
          push_cast at this
          linarith)
        (by
          intro hcon
          apply hend
          push_cast
          linarith)
        (by omega)
      rw [RegionArea.discreteLat, if_pos h0, hrow lat]
      simp only [hrec]
      rw [List.range_succ_eq_map, List.flatMap_cons, List.flatMap_map]
      congr 2
      · simp
      · apply List.flatMap_congr
        intro k _
        congr 1
        push_cast
        ring
  -- One row of the area grid: the inner loop emits the points at the longitudes `lon`,
  -- `lon + degRes`, ... below the right edge.
  have discreteLon_eq : ∀ (area : RegionArea) (degRes lat : ℝ),
      ∀ (m fuel : ℕ) (lon : ℝ), (∀ k : ℕ, k < m → lon + (k : ℝ) * degRes < area.topRight.lon) →
        ¬ (lon + (m : ℝ) * degRes < area.topRight.lon) → m < fuel →
        RegionArea.discreteLon area degRes lat fuel lon =
          some ((List.range m).map (fun k : ℕ => Point.new lat (lon + (k : ℝ) * degRes))) := by
    intro area degRes lat
    intro m
    induction m with
    | zero =>
      intro fuel lon _ hend hfuel
      obtain ⟨f, rfl⟩ : ∃ f, fuel = f + 1 := ⟨fuel - 1, by omega⟩
      have hend' : ¬ lon < area.topRight.lon := by simpa using hend
      rw [RegionArea.discreteLon, if_neg hend']
      rfl
    | succ m ih =>
      intro fuel lon hlt hend hfuel
      obtain ⟨f, rfl⟩ : ∃ f, fuel = f + 1 := ⟨fuel - 1, by omega⟩
      have h0 : lon < area.topRight.lon := by simpa using hlt 0 (Nat.succ_pos m)
      have hrec := ih f (lon + degRes)
        (by
          intro k hk
          have := hlt (k + 1) (Nat.succ_lt_succ hk)
          push_cast at this
          linarith)
        (by
          intro hcon
          apply hend
          push_cast
          linarith)
        (by omega)
      rw [RegionArea.discreteLon, if_pos h0]
      simp only [hrec]
      rw [List.range_succ_eq_map, List.map_cons, List.map_map]
      congr 2
      · simp
      · apply List.map_congr_left
        intro k _
        simp only [Function.comp]
        congr 1
        push_cast
        ring
  obtain ⟨hlon1, hlon2⟩ := steps_below area.bottomLeft.lon area.topRight.lon
    (area.degRes resolution) hdeg
  obtain ⟨hlat1, hlat2⟩ := steps_below area.bottomLeft.lat area.topRight.lat
    (area.degRes resolution) hdeg
  unfold RegionArea.discrete
  simp only
  exact discreteLat_eq area (area.degRes resolution) fuel _
    (fun lat => discreteLon_eq area (area.degRes resolution) lat _ fuel area.bottomLeft.lon
      hlon1 hlon2 hfuel2) _ fuel area.bottomLeft.lat hlat1 hlat2 hfuel1

/-! ## The range of `project` -/

/-- The longitude of the point reached by `project` is that of the start plus the angle
that `atan2` returns: it is not brought back into `[-180, 180]`. -/
theorem project_lon (p : Point) (b d : ℝ) :
    (p.project b d).lon = p.lon + toDegrees
      (atan2 (Real.sin b * Real.sin (d / RADIUS) * Real.cos (toRadians p.lat))
        (Real.cos (d / RADIUS) - Real.sin (toRadians p.lat) *
          Real.sin (Real.arcsin (Real.sin (toRadians p.lat) * Real.cos (d / RADIUS) +
            Real.cos (toRadians p.lat) * Real.sin (d / RADIUS) * Real.cos b)))) := by
  have hPI := PI_pos.ne.symm
  unfold Point.project Point.new
  simp only
  unfold toDegrees toRadians
  field_simp

/-- Near the pole `project` can return a latitude above 90 degrees, because the constant
`PI` is smaller than `π`. -/
theorem project_lat_out_of_range :
    90 < ((Point.new 0 0).project 0 (1.570796 * RADIUS)).lat := by
  have hR := RADIUS_pos.ne.symm
  have hz : toRadians (0 : ℝ) = 0 := by unfold toRadians; simp
  have hratio : 1.570796 * RADIUS / RADIUS = (1.570796 : ℝ) := by field_simp
  have hpi := Real.pi_gt_d6
  unfold Point.project Point.new
  simp only [hz, hratio, Real.sin_zero, Real.cos_zero, zero_mul, mul_one, one_mul, zero_add]
  rw [Real.arcsin_sin (by linarith) (by linarith)]
  unfold toDegrees PI
  norm_num

/-! ## Concrete lines and areas -/

/-- The degree step of `RegionArea::discrete` when the step north of the bottom-left
corner does not pass a pole: the resolution as an angle, in degrees. -/
theorem degRes_eq (area : RegionArea) (resolution : ℝ)
    (h1 : -(Real.pi / 2) ≤ toRadians area.bottomLeft.lat + resolution / RADIUS)
    (h2 : toRadians area.bottomLeft.lat + resolution / RADIUS ≤ Real.pi / 2) :
    area.degRes resolution = toDegrees (resolution / RADIUS) := by
  have hPI := PI_pos.ne.symm
  have hR := RADIUS_pos.ne.symm
  unfold RegionArea.degRes Point.project Point.new
  simp only [Real.cos_zero, mul_one]
  rw [← Real.sin_add, Real.arcsin_sin h1 h2]
  unfold toDegrees toRadians
  field_simp
  ring

/-- The area of the examples: from (0, 0) to (2, 3), in degrees. -/
theorem degRes_example :
    (RegionArea.ofCorners (Point.new 0 0) (Point.new 2 3)).degRes (RADIUS * (PI / 180)) = 1 := by
  have hR := RADIUS_pos.ne.symm
  have hPI := PI_pos
  have hpi := PI_lt_pi
  have hratio : RADIUS * (PI / 180) / RADIUS = PI / 180 := by field_simp; ring
  have hz : toRadians (RegionArea.ofCorners (Point.new 0 0) (Point.new 2 3)).bottomLeft.lat = 0 := by
    unfold toRadians RegionArea.ofCorners Point.new; simp
  rw [degRes_eq _ _ (by rw [hz, hratio]; linarith) (by rw [hz, hratio]; linarith), hratio]
  unfold toDegrees
  field_simp

/-- The fuel that the area of the examples needs: 2 rows of 3 points. -/
theorem fuel_example :
    ⌈((RegionArea.ofCorners (Point.new 0 0) (Point.new 2 3)).topRight.lat -
        (RegionArea.ofCorners (Point.new 0 0) (Point.new 2 3)).bottomLeft.lat) /
        (RegionArea.ofCorners (Point.new 0 0) (Point.new 2 3)).degRes
          (RADIUS * (PI / 180))⌉₊ = 2 ∧
      ⌈((RegionArea.ofCorners (Point.new 0 0) (Point.new 2 3)).topRight.lon -
        (RegionArea.ofCorners (Point.new 0 0) (Point.new 2 3)).bottomLeft.lon) /
        (RegionArea.ofCorners (Point.new 0 0) (Point.new 2 3)).degRes
          (RADIUS * (PI / 180))⌉₊ = 3 := by
  rw [degRes_example]
  simp only [RegionArea.ofCorners, Point.new, sub_zero, div_one]
  exact ⟨by exact_mod_cast Nat.ceil_natCast 2, by exact_mod_cast Nat.ceil_natCast 3⟩

/-! ## Adding points to an area -/

/-- The corners after adding a list of points to an area: running minima and maxima
that start from the corners of the area. -/
theorem addAll_corners (pts : List Point) : ∀ (a : RegionArea),
    (pts.foldl RegionArea.add a).bottomLeft.lat =
        pts.foldl (fun m p => min m p.lat) a.bottomLeft.lat ∧
      (pts.foldl RegionArea.add a).bottomLeft.lon =
        pts.foldl (fun m p => min m p.lon) a.bottomLeft.lon ∧
      (pts.foldl RegionArea.add a).topRight.lat =
        pts.foldl (fun m p => max m p.lat) a.topRight.lat ∧
      (pts.foldl RegionArea.add a).topRight.lon =
        pts.foldl (fun m p => max m p.lon) a.topRight.lon := by
  induction pts with
  | nil => intro a; exact ⟨rfl, rfl, rfl, rfl⟩
  | cons p pts ih =>
    intro a
    simp only [List.foldl_cons]
    exact ih (a.add p)

/-- The top edge of an area built from the empty area is never south of the equator,
wherever the added points are. -/
theorem addAll_topRight_lat_nonneg (pts : List Point) :
    0 ≤ (pts.foldl RegionArea.add RegionArea.new).topRight.lat := by
  -- A running maximum is at least its start value.
  have le_foldl_max : ∀ (f : Point → ℝ) (pts : List Point),
      ∀ (m : ℝ),
      m ≤ pts.foldl (fun m p => max m (f p)) m := by
    intro f pts
    induction pts with
    | nil => intro m; exact le_rfl
    | cons p pts ih =>
      intro m
      simp only [List.foldl_cons]
      exact le_trans (le_max_left _ _) (ih _)
  rw [(addAll_corners pts RegionArea.new).2.2.1]
  exact le_foldl_max (fun p => p.lat) pts _

/-! ## The decoding of IEEE-754 singles -/

/-- The three masks of `ieee_single` read the sign bit, the eight exponent bits and the 23
fraction bits of `src`. -/
theorem ieee_fields (src : ℕ) :
    (src &&& 0x80000000) >>> 31 = src / 2 ^ 31 % 2 ∧
      (src &&& 0x7F800000) >>> 23 = src / 2 ^ 23 % 2 ^ 8 ∧
      src &&& 0x007FFFFF = src % 2 ^ 23 := by
  -- Masking with `m` shifted left by `k` bits and shifting right by `k` bits is shifting
  -- right and masking with `m`.
  have and_mul_shiftRight : ∀ (x m k : ℕ),
      (x &&& (2 ^ k * m)) >>> k = (x >>> k) &&& m := by
    intro x m k
    apply Nat.eq_of_testBit_eq
    intro i
    simp only [Nat.testBit_shiftRight, Nat.testBit_and, Nat.testBit_mul_pow_two]
    simp
  refine ⟨?_, ?_, ?_⟩
  · have e : (0x80000000 : ℕ) = 2 ^ 31 * 1 := by norm_num
    rw [e, and_mul_shiftRight, Nat.and_one_is_mod, Nat.shiftRight_eq_div_pow]
  · have e : (0x7F800000 : ℕ) = 2 ^ 23 * (2 ^ 8 - 1) := by norm_num
    rw [e, and_mul_shiftRight, Nat.and_pow_two_sub_one_eq_mod, Nat.shiftRight_eq_div_pow]
  · have e : (0x007FFFFF : ℕ) = 2 ^ 23 - 1 := by norm_num
    rw [e, Nat.and_pow_two_sub_one_eq_mod]

/-- The value of `ieee_single` on four bytes in file order, in terms of the fields `s`, `e`
and `f` of the reversed pattern, for an exponent field other than 255. -/
theorem ieee_single_eq (b0 b1 b2 b3 : ℕ) (h0 : b0 < 256) (h1 : b1 < 256) (h2 : b2 < 256)
    (h3 : b3 < 256) (pattern s e f : ℕ)
    (hpattern : pattern = b3 * 2 ^ 24 + b2 * 2 ^ 16 + b1 * 2 ^ 8 + b0)
    (hs : s = pattern / 2 ^ 31) (he : e = pattern / 2 ^ 23 % 2 ^ 8) (hf : f = pattern % 2 ^ 23)
    (hne : e ≠ 255) :
    ieee_single b0 b1 b2 b3 =
      if e = 0 then (-1 : ℝ) ^ s * (f : ℝ) * (2 : ℝ) ^ (-149 : ℤ)
      else (-1 : ℝ) ^ s * ((2 : ℝ) ^ 23 + (f : ℝ)) * (2 : ℝ) ^ ((e : ℤ) - 150) := by
  have hlt : pattern < 2 ^ 32 := by rw [hpattern]; omega
  have hs2 : pattern / 2 ^ 31 % 2 = s := by
    rw [hs]; apply Nat.mod_eq_of_lt; omega
  have hs01 : s = 0 ∨ s = 1 := by omega
  obtain ⟨hS, hE, hF⟩ := ieee_fields pattern
  unfold ieee_single
  simp only [Nat.mod_eq_of_lt h0, Nat.mod_eq_of_lt h1, Nat.mod_eq_of_lt h2,
    Nat.mod_eq_of_lt h3, Nat.shiftLeft_eq, ← hpattern, hS, hE, hF, hs2, ← he, ← hf]
  rw [if_neg (fun h => hne h.1), if_neg (fun h => hne h.1), if_neg (fun h => hne h.1)]
  have he255 : e < 256 := by rw [he]; exact Nat.mod_lt _ (by norm_num)
  by_cases he0 : e = 0
  · rw [if_neg (by omega), if_pos he0]
    by_cases hf0 : (f : ℝ) = 0
    · rw [if_neg (fun h => h.2 hf0)]
      simp [hf0]
    · rw [if_pos ⟨he0, hf0⟩]
      unfold ldexp
      rcases hs01 with h | h
      · simp only [h, ne_eq, not_true_eq_false, if_false, pow_zero, one_mul]
        norm_num
      · simp only [h, ne_eq, one_ne_zero, not_false_eq_true, if_true, pow_one]
        norm_num
  · rw [if_pos (by omega), if_neg he0]
    unfold ldexp
    have e2 : ((e : ℤ) - 127 - 23) = (e : ℤ) - 150 := by ring
    rw [e2]
    rcases hs01 with h | h
    · simp only [h, ne_eq, not_true_eq_false, if_false, pow_zero, one_mul]
      push_cast
      ring
    · simp only [h, ne_eq, one_ne_zero, not_false_eq_true, if_true, pow_one]
      push_cast
      ring

/-- The file bytes 00 00 C8 42 decode to 100. -/
theorem ieee_single_100 : ieee_single 0x00 0x00 0xC8 0x42 = 100 := by
  rw [ieee_single_eq 0x00 0x00 0xC8 0x42 (by norm_num) (by norm_num) (by norm_num) (by norm_num)
    0x42C80000 0 133 0x480000 (by norm_num) (by norm_num) (by norm_num) (by norm_num)
    (by norm_num)]
  norm_num

/-- The file bytes 00 00 CA 42 decode to 101. -/
theorem ieee_single_101 : ieee_single 0x00 0x00 0xCA 0x42 = 101 := by
  rw [ieee_single_eq 0x00 0x00 0xCA 0x42 (by norm_num) (by norm_num) (by norm_num) (by norm_num)
    0x42CA0000 0 133 0x4A0000 (by norm_num) (by norm_num) (by norm_num) (by norm_num)
    (by norm_num)]
  norm_num

/-! ## The cell of a point -/

/-- The conversion to `int` of a nonnegative real between `n` and `n + 1` is `n`. -/
theorem castInt_eq (x : ℝ) (n : ℤ) (h0 : 0 ≤ x) (h1 : (n : ℝ) ≤ x) (h2 : x < n + 1) :
    castInt x = n := by
  unfold castInt
  rw [if_pos h0]
  exact Int.floor_eq_iff.mpr ⟨h1, h2⟩

/-- The conversion `(int)0.5` is 0. -/
theorem castInt_half : castInt (0.5 : ℝ) = 0 :=
  castInt_eq _ 0 (by norm_num) (by norm_num) (by norm_num)

/-- The conversion `(int)101.0` is 101. -/
theorem castInt_101 : castInt (101 : ℝ) = 101 :=
  castInt_eq _ 101 (by norm_num) (by norm_num) (by norm_num)

/-- What the two clamps of `resolve` guarantee for every point: the row lies in
`[-1, nrows - 1]` and the column in `[0, ncols]`. -/
theorem row_col_range (g : GridSource) (p : Point) (hr : 0 ≤ g.nrows) (hc : 0 ≤ g.ncols) :
    -1 ≤ g.row p ∧ g.row p ≤ g.nrows - 1 ∧ 0 ≤ g.col p ∧ g.col p ≤ g.ncols := by
  unfold GridSource.row GridSource.col
  simp only []
  omega

/-- For a point inside the coverage rectangle of a grid with a positive cell size, the row,
the column and the offset that `resolve` computes are those of a cell of the grid. -/
theorem offset_of_contains (g : GridSource) (hcs : 0 < g.cellsize)
    (htop : g.top = g.bottom + (g.nrows : ℝ) * g.cellsize)
    (hright : g.right = g.left + (g.ncols : ℝ) * g.cellsize) (p : Point)
    (h : g.contains p = true) :
    (0 ≤ g.row p ∧ g.row p ≤ g.nrows - 1) ∧ (0 ≤ g.col p ∧ g.col p ≤ g.ncols - 1) ∧
      0 ≤ g.offset p ∧ g.offset p < g.nrows * g.ncols := by
  unfold GridSource.contains at h
  simp only [decide_eq_true_eq] at h
  obtain ⟨hx1, hx2, hy1, hy2⟩ := h
  have hu0 : 0 < ((g.convert.convert p).2 - g.bottom) / g.cellsize :=
    div_pos (by linarith) hcs
  have hu1 : ((g.convert.convert p).2 - g.bottom) / g.cellsize < (g.nrows : ℝ) := by
    rw [div_lt_iff₀ hcs]
    linarith
  have hv0 : 0 < ((g.convert.convert p).1 - g.left) / g.cellsize :=
    div_pos (by linarith) hcs
  have hv1 : ((g.convert.convert p).1 - g.left) / g.cellsize < (g.ncols : ℝ) := by
    rw [div_lt_iff₀ hcs]
    linarith
  have hr0 : 0 ≤ castInt (((g.convert.convert p).2 - g.bottom) / g.cellsize) := by
    unfold castInt
    rw [if_pos hu0.le]
    exact Int.floor_nonneg.mpr hu0.le
  have hr1 : castInt (((g.convert.convert p).2 - g.bottom) / g.cellsize) < g.nrows := by
    unfold castInt
    rw [if_pos hu0.le]
    exact Int.floor_lt.mpr hu1
  have hc0 : 0 ≤ castInt (((g.convert.convert p).1 - g.left) / g.cellsize) := by
    unfold castInt
    rw [if_pos hv0.le]
    exact Int.floor_nonneg.mpr hv0.le
  have hc1 : castInt (((g.convert.convert p).1 - g.left) / g.cellsize) < g.ncols := by
    unfold castInt
    rw [if_pos hv0.le]
    exact Int.floor_lt.mpr hv1
  have hrow : 0 ≤ g.row p ∧ g.row p ≤ g.nrows - 1 := by
    unfold GridSource.row
    simp only []
    omega
  have hcol : 0 ≤ g.col p ∧ g.col p ≤ g.ncols - 1 := by
    unfold GridSource.col
    simp only []
    omega
  refine ⟨hrow, hcol, ?_, ?_⟩
  · unfold GridSource.offset
    have : 0 ≤ g.row p * g.ncols := mul_nonneg hrow.1 (by omega)
    omega
  · unfold GridSource.offset
    have : g.row p * g.ncols ≤ (g.nrows - 1) * g.ncols :=
      mul_le_mul_of_nonneg_right hrow.2 (by omega)
    nlinarith

/-! ## The two `resolve` methods as updates -/

/-- The table of land-use classes as the chain of cases of the `switch` in
`SourceInteger::resolve`. -/
theorem landClassOf_eq (iv : ℤ) :
    landClassOf iv =
      if iv = 41 ∨ iv = 42 ∨ iv = 43 ∨ iv = 90 ∨ iv = 91 ∨ iv = 93 then LAND_FOREST
      else if iv = 22 then LAND_RESIDENTIAL
      else if iv = 23 ∨ iv = 24 then LAND_COMMERCIAL
      else LAND_NONE := by
  unfold landClassOf
  simp only [List.mem_cons, List.mem_singleton, List.not_mem_nil, or_false]

/-- The method `SourceInteger::resolve` as one update of the point. -/
theorem integer_resolve_eq (s : SourceInteger) (p : Point) :
    s.resolve p =
      if s.type = TYPE_LAND then
        { p with landType := landClassOf (s.value (s.toGridSource.offset p)) }
      else p := by
  unfold SourceInteger.resolve
  simp only [landClassOf_eq]
  split_ifs <;> rfl

/-- No height belongs to a code outside 101..112. -/
theorem vegHeightOf_none (iv : ℤ) (h : ¬(101 ≤ iv ∧ iv ≤ 112)) : vegHeightOf iv = none := by
  unfold vegHeightOf
  rw [if_pos (by omega)]

/-- The method `SourceGridFloat::resolve` as one update of the point for each type of
data. -/
theorem float_resolve_eq (s : SourceGridFloat) (p : Point) :
    s.resolve p =
      if s.type = TYPE_ELEV then
        { p with elev := s.value (s.toGridSource.offset p) }
      else if s.type = TYPE_VEGTYPE then
        { p with
          vegType := castInt (s.value (s.toGridSource.offset p))
          vegCover := (vegCoverOf (castInt (s.value (s.toGridSource.offset p)))).getD p.vegCover }
      else if s.type = TYPE_VEGHEIGHT then
        { p with
          vegHeight :=
            (vegHeightOf (castInt (s.value (s.toGridSource.offset p)))).getD p.vegHeight }
      else p := by
  -- No cover belongs to a code outside 101..129.
  have vegCoverOf_none : ∀ (iv : ℤ) (h : ¬(101 ≤ iv ∧ iv ≤ 129)),
      vegCoverOf iv = none := by
    intro iv h
    unfold vegCoverOf
    rw [if_neg (by omega)]
  unfold SourceGridFloat.resolve
  simp only []
  generalize castInt (s.value (s.toGridSource.offset p)) = iv
  generalize s.value (s.toGridSource.offset p) = dv
  by_cases h1 : s.type = TYPE_ELEV
  · rw [if_pos h1, if_pos h1]
  · rw [if_neg h1, if_neg h1]
    by_cases h2 : s.type = TYPE_VEGTYPE
    · rw [if_pos h2, if_pos h2]
      by_cases hr : 101 ≤ iv ∧ iv ≤ 129
      · obtain ⟨ha, hb⟩ := hr
        interval_cases iv <;> simp [vegCoverOf]
      · rw [vegCoverOf_none iv hr]
        repeat rw [if_neg (by omega)]
        rfl
    · rw [if_neg h2, if_neg h2]
      by_cases h3 : s.type = TYPE_VEGHEIGHT
      · rw [if_pos h3, if_pos h3]
        by_cases hr : 101 ≤ iv ∧ iv ≤ 112
        · obtain ⟨ha, hb⟩ := hr
          interval_cases iv <;> simp [vegHeightOf]
        · rw [vegHeightOf_none iv hr]
          repeat rw [if_neg (by omega)]
          rfl
      · rw [if_neg h3, if_neg h3]

/-! ## Grid sources in a group -/

/-- The converter of the base class reads only the latitude and the longitude. -/
theorem identity_positional : Convert.identity.positional := by
  intro p q h1 h2
  simp [Convert.identity, h1, h2]

/-- The Albers converter reads only the latitude and the longitude. -/
theorem albers_positional (c : ConvertAlbers) : c.toConvert.positional := by
  intro p q h1 h2
  simp [ConvertAlbers.toConvert, ConvertAlbers.convert, h1, h2]

/-- No grid source moves a point or changes its tower height. -/
theorem grid_resolve_position (g : Grid) (p : Point) :
    (g.resolve p).lat = p.lat ∧ (g.resolve p).lon = p.lon ∧
      (g.resolve p).towerHeight = p.towerHeight := by
  cases g with
  | integer s =>
    simp only [Grid.resolve, integer_resolve_eq]
    split_ifs <;> simp
  | float s =>
    simp only [Grid.resolve, float_resolve_eq]
    split_ifs <;> simp

/-- The cell and the coverage test of a grid source `g` are the same before and after
another grid source `h` has resolved the point. -/
theorem grid_resolve_stable (g h : Grid) (hpos : g.toGridSource.convert.positional) (p : Point) :
    g.toGridSource.offset (h.resolve p) = g.toGridSource.offset p ∧
      g.toGridSource.contains (h.resolve p) = g.toGridSource.contains p := by
  obtain ⟨h1, h2, _⟩ := grid_resolve_position h p
  have e := hpos (h.resolve p) p h1 h2
  simp only [GridSource.offset, GridSource.row, GridSource.col, GridSource.contains, e]
  exact ⟨trivial, trivial⟩

/-- The two methods of a grid source seen as a `Source`. -/
theorem grid_toSource (g : Grid) :
    g.toSource.contains = g.toGridSource.contains ∧ g.toSource.resolve = g.resolve := by
  cases g <;> exact ⟨rfl, rfl⟩

/-- Two grid sources of different types resolve a point to the same result in both
orders. -/
theorem grid_resolve_comm (a b : Grid) (ha : a.toGridSource.convert.positional)
    (hb : b.toGridSource.convert.positional) (hne : a.toGridSource.type ≠ b.toGridSource.type)
    (p : Point) : a.resolve (b.resolve p) = b.resolve (a.resolve p) := by
  have hab := (grid_resolve_stable a b ha p).1
  have hba := (grid_resolve_stable b a hb p).1
  cases a with
  | integer s =>
    cases b with
    | integer t =>
      simp only [Grid.toGridSource, Grid.resolve] at hab hba hne ⊢
      rw [integer_resolve_eq s (t.resolve p), integer_resolve_eq t (s.resolve p), hab, hba,
        integer_resolve_eq s p, integer_resolve_eq t p]
      split_ifs <;> simp_all
    | float t =>
      simp only [Grid.toGridSource, Grid.resolve] at hab hba hne ⊢
      rw [integer_resolve_eq s (t.resolve p), float_resolve_eq t (s.resolve p), hab, hba,
        integer_resolve_eq s p, float_resolve_eq t p]
      split_ifs <;> simp_all
  | float s =>
    cases b with
    | integer t =>
      simp only [Grid.toGridSource, Grid.resolve] at hab hba hne ⊢
      rw [float_resolve_eq s (t.resolve p), integer_resolve_eq t (s.resolve p), hab, hba,
        float_resolve_eq s p, integer_resolve_eq t p]
      split_ifs <;> simp_all
    | float t =>
      simp only [Grid.toGridSource, Grid.resolve] at hab hba hne ⊢
      rw [float_resolve_eq s (t.resolve p), float_resolve_eq t (s.resolve p), hab, hba,
        float_resolve_eq s p, float_resolve_eq t p]
      split_ifs <;> simp_all

/-- In a list of grid sources whose converters read only the position, no member changes
what any member contains. -/
theorem grids_stable (l : List Grid) (hpos : ∀ g ∈ l, g.toGridSource.convert.positional) :
    ∀ a ∈ l.map Grid.toSource, ∀ b ∈ l.map Grid.toSource, ∀ pt : Point,
      b.contains (a.resolve pt) = b.contains pt := by
  intro a ha b hb pt
  obtain ⟨x, hx, rfl⟩ := List.mem_map.mp ha
  obtain ⟨y, hy, rfl⟩ := List.mem_map.mp hb
  rw [(grid_toSource y).1, (grid_toSource x).2]
  exact (grid_resolve_stable y x (hpos y hy) pt).2

/-! ## The example tiles -/

/-- The only cell of a one-cell tile holds the value of its four bytes. -/
theorem floatTile_value (type : ℤ) (b0 b1 b2 b3 : ℕ) :
    (floatTile type b0 b1 b2 b3).value 0 = ieee_single b0 b1 b2 b3 := by
  simp [floatTile, SourceGridFloat.value, SourceGridFloat.new, fileOf]

/-- A one-cell tile covers the open square from (0, 0) to (1, 1). -/
theorem floatTile_contains (type : ℤ) (b0 b1 b2 b3 : ℕ) (p : Point) :
    (floatTile type b0 b1 b2 b3).toGridSource.contains p =
      decide (p.lon > 0 ∧ p.lon < 1 ∧ p.lat > 0 ∧ p.lat < 1) := by
  simp [floatTile, SourceGridFloat.new, GridSource.contains, Convert.identity]

/-- A one-cell tile reads its only cell for every point with a latitude in `[0, 1)` and a
longitude below 1. -/
theorem floatTile_offset (type : ℤ) (b0 b1 b2 b3 : ℕ) (p : Point) (h0 : 0 ≤ p.lat)
    (h1 : p.lat < 1) (h2 : p.lon < 1) :
    (floatTile type b0 b1 b2 b3).toGridSource.offset p = 0 := by
  -- The conversion to `int` of a real below 1 is at most 0.
  have castInt_lt_one : ∀ (x : ℝ) (h : x < 1),
      castInt x < 1 := by
    intro x h
    unfold castInt
    by_cases h0 : 0 ≤ x
    · rw [if_pos h0]
      exact Int.floor_lt.mpr (by simpa using h)
    · rw [if_neg h0]
      have : ⌈x⌉ ≤ 0 := Int.ceil_le.mpr (by simpa using (not_le.mp h0).le)
      omega
  have e : castInt p.lat = 0 := castInt_eq p.lat 0 h0 (by simpa using h0) (by simpa using h1)
  have e2 := castInt_lt_one p.lon h2
  simp only [floatTile, SourceGridFloat.new, GridSource.offset, GridSource.row, GridSource.col,
    Convert.identity, sub_zero, div_one, e]
  omega

/-- The cell that a one-cell tile reads at the point (0.5, 0.5). -/
theorem floatTile_cell (type : ℤ) (b0 b1 b2 b3 : ℕ) :
    (floatTile type b0 b1 b2 b3).value
        ((floatTile type b0 b1 b2 b3).toGridSource.offset (Point.new 0.5 0.5)) =
      ieee_single b0 b1 b2 b3 := by
  rw [floatTile_offset type b0 b1 b2 b3 (Point.new 0.5 0.5) (by simp only [Point.new]; norm_num)
    (by simp only [Point.new]; norm_num) (by simp only [Point.new]; norm_num), floatTile_value]

/-- A one-cell elevation tile sets the elevation to the value of its cell. -/
theorem floatTile_resolve (b0 b1 b2 b3 : ℕ) (p : Point) (h0 : 0 ≤ p.lat) (h1 : p.lat < 1)
    (h2 : p.lon < 1) :
    (floatTile TYPE_ELEV b0 b1 b2 b3).resolve p = { p with elev := ieee_single b0 b1 b2 b3 } := by
  rw [float_resolve_eq, if_pos (by rfl), floatTile_offset TYPE_ELEV b0 b1 b2 b3 p h0 h1 h2,
    floatTile_value]

/-- The row and the column of a point in a tile of two rows and two columns. -/
theorem landTile_row_col (type : ℤ) (c0 c1 c2 c3 : ℕ) (p : Point) :
    (landTile type c0 c1 c2 c3).toGridSource.row p = 2 - max 0 (min (castInt p.lat) 2) - 1 ∧
      (landTile type c0 c1 c2 c3).toGridSource.col p = max 0 (min (castInt p.lon) 2) := by
  simp [landTile, SourceInteger.new, GridSource.row, GridSource.col, Convert.identity]

/-! ## The Longley-Rice call -/

/-- The array `elev` is formed when no sample has the elevation -1. -/
theorem longleyProfile_of_valid (resolution : ℝ) (path : List Point)
    (h : ∀ r ∈ path, r.elev ≠ -1) :
    longleyProfile resolution path =
      some (((path.length - 1 : ℕ) : ℝ) :: (resolution * 1000) :: path.map (fun r => r.elev)) := by
  -- The copy loop of `pathLossLongley` succeeds when no sample has the elevation -1, and
  -- then holds the elevations in path order.
  have fill_of_valid : ∀ (path : List Point) (h : ∀ r ∈ path, r.elev ≠ -1),
      longleyProfile.fill path = some (path.map (fun r => r.elev)) := by
    intro path h
    induction path with
    | nil => rfl
    | cons r rest ih =>
      rw [longleyProfile.fill, if_neg (h r (List.mem_cons_self _ _)),
        ih (fun x hx => h x (List.mem_cons_of_mem _ hx))]
      rfl
  unfold longleyProfile
  rw [fill_of_valid path h]
  rfl

/-- On a path that is not empty and whose array `elev` is formed, `pathLossLongley` calls
`point_to_point` on this array and returns `DENIED` for an error code other than 0, and the
system gain minus the loss handed back otherwise. -/
theorem pathLossLongley_call (point_to_point : PointToPoint) (fuel : ℕ) (p q : Point)
    (s : SourceGroup) (resolution txPower antenna freq : ℝ) (path : List Point) (elev : List ℝ)
    (hpath : (RegionLine.ofPoints (s.resolve p) (s.resolve q)).discrete fuel resolution =
      some path)
    (hne : path ≠ [])
    (hprofile : longleyProfile resolution (s.resolveList path) = some elev) :
    pathLossLongley point_to_point fuel p q s resolution txPower antenna freq =
      some (if (point_to_point elev (s.resolve p).towerHeight (s.resolve q).towerHeight 15 0.005
          301 freq 5 0 0.9 0.9).errnum ≠ 0 then DENIED
        else 10 * log10 txPower + antenna -
          (point_to_point elev (s.resolve p).towerHeight (s.resolve q).towerHeight 15 0.005
            301 freq 5 0 0.9 0.9).dbloss) := by
  have hlen : ¬ (s.resolveList path).length = 0 := by
    unfold SourceGroup.resolveList
    rw [List.length_map]
    exact fun h => hne (List.length_eq_zero.1 h)
  unfold pathLossLongley
  simp only [hpath, if_neg hlen, hprofile]
  split_ifs <;> rfl

/-- Every point resolved by the flat source group has the elevation of the group. -/
theorem flat_resolveList_elev (E : ℝ) (path : List Point) (r : Point)
    (hr : r ∈ (flatGroup E).resolveList path) : r.elev = E := by
  unfold SourceGroup.resolveList at hr
  obtain ⟨pt, _, rfl⟩ := List.mem_map.1 hr
  rfl

/-- The path of the examples of `pathLossLongley`: two points of the equator 2 km apart on
flat ground at elevation 0, at the resolution 5 km, have a single sample. -/
theorem longley_example_path :
    (RegionLine.ofPoints ((flatGroup 0).resolve (Point.new 0 0))
        ((flatGroup 0).resolve (Point.new 0 (toDegrees (2 / RADIUS))))).discrete 2 5 =
      some [((flatGroup 0).resolve (Point.new 0 0)).project
        (((flatGroup 0).resolve (Point.new 0 0)).bearing
          ((flatGroup 0).resolve (Point.new 0 (toDegrees (2 / RADIUS))))) (((0 : ℕ) : ℝ) * 5)] := by
  have hd : ((flatGroup 0).resolve (Point.new 0 0)).distance
      ((flatGroup 0).resolve (Point.new 0 (toDegrees (2 / RADIUS)))) = 2 :=
    distance_equator _ _ 2 rfl rfl rfl rfl (by norm_num) (small_le_pi_mul_RADIUS (by norm_num))
  have hceil : ⌈(2 : ℝ) / 5⌉₊ = 1 := by
    rw [Nat.ceil_eq_iff (by norm_num)]
    norm_num
  have hpath := discrete_two_points ((flatGroup 0).resolve (Point.new 0 0))
    ((flatGroup 0).resolve (Point.new 0 (toDegrees (2 / RADIUS)))) 5 2
    (by norm_num) (by rw [hd]; norm_num) (by rw [hd, hceil]; norm_num)
  rw [hd, hceil] at hpath
  exact hpath

/-! ## The worst diffraction loss -/

/-- The maximum, started at 0, of a list of values that are at least `c ≥ 0` and that is not
empty is one of the values. -/
theorem foldr_max_mem (c : ℝ) (hc : 0 ≤ c) (ks : List ℝ) (hne : ks ≠ [])
    (hks : ∀ k ∈ ks, c ≤ k) : ks.foldr max 0 ∈ ks ∧ c ≤ ks.foldr max 0 := by
  induction ks with
  | nil => exact absurd rfl hne
  | cons k rest ih =>
    have hk : c ≤ k := hks k (List.mem_cons_self _ _)
    by_cases hrest : rest = []
    · subst hrest
      simp only [List.foldr_cons, List.foldr_nil, List.mem_singleton]
      rw [max_eq_left (le_trans hc hk)]
      exact ⟨rfl, hk⟩
    · obtain ⟨h1, h2⟩ := ih hrest (fun x hx => hks x (List.mem_cons_of_mem _ hx))
      simp only [List.foldr_cons]
      constructor
      · rcases max_choice k (rest.foldr max 0) with h | h
        · rw [h]; exact List.mem_cons_self _ _
        · rw [h]; exact List.mem_cons_of_mem _ h1
      · exact le_max_of_le_left hk

/-- The knife-edge loss of a sample is at least 6.9 dB. -/
theorem sampleKnifeEdge_ge (lambda dist elevStart elevEnd : ℝ) (size i : ℕ) (r : Point) :
    6.9 ≤ sampleKnifeEdge lambda dist elevStart elevEnd size i r := by
  unfold sampleKnifeEdge
  exact knifeEdgeLoss_ge _ _ _ _ _ _ _ _

/-- With an encroaching sample the worst diffraction loss is the knife-edge loss of one of
the encroaching samples. -/
theorem worstDiffraction_attained (lambda dist elevStart elevEnd : ℝ) (size : ℕ)
    (samples : List (ℕ × Point))
    (h : ∃ x ∈ samples, sampleEncroaches lambda dist elevStart elevEnd size x.1 x.2) :
    ∃ x ∈ samples, sampleEncroaches lambda dist elevStart elevEnd size x.1 x.2 ∧
      worstDiffraction lambda dist elevStart elevEnd size samples =
        sampleKnifeEdge lambda dist elevStart elevEnd size x.1 x.2 := by
  obtain ⟨y, hy, hency⟩ := h
  have hne : ((samples.filter (fun x =>
      decide (sampleEncroaches lambda dist elevStart elevEnd size x.1 x.2))).map
      (fun x => sampleKnifeEdge lambda dist elevStart elevEnd size x.1 x.2)) ≠ [] := by
    intro hnil
    have hmem : y ∈ samples.filter (fun x =>
        decide (sampleEncroaches lambda dist elevStart elevEnd size x.1 x.2)) :=
      List.mem_filter.2 ⟨hy, by simpa using hency⟩
    rw [List.map_eq_nil_iff] at hnil
    rw [hnil] at hmem
    simp at hmem
  obtain ⟨hmem, _⟩ := foldr_max_mem 6.9 (by norm_num) _ hne (by
    intro k hk
    obtain ⟨x, _, rfl⟩ := List.mem_map.1 hk
    exact sampleKnifeEdge_ge _ _ _ _ _ _ _)
  obtain ⟨x, hx, hxe⟩ := List.mem_map.1 hmem
  obtain ⟨hx1, hx2⟩ := List.mem_filter.1 hx
  exact ⟨x, hx1, by simpa using hx2, hxe.symm⟩

/-- The triangle inequality in the plane, for the two legs `(a, b)` and `(c, e)`. -/
theorem detour_nonneg (a b c e : ℝ) :
    Real.sqrt ((a + c) ^ 2 + (b + e) ^ 2) ≤
      Real.sqrt (a ^ 2 + b ^ 2) + Real.sqrt (c ^ 2 + e ^ 2) := by
  have h1 := Real.sqrt_nonneg (a ^ 2 + b ^ 2)
  have h2 := Real.sqrt_nonneg (c ^ 2 + e ^ 2)
  have s1 := Real.sq_sqrt (by positivity : 0 ≤ a ^ 2 + b ^ 2)
  have s2 := Real.sq_sqrt (by positivity : 0 ≤ c ^ 2 + e ^ 2)
  have hcs : a * c + b * e ≤ Real.sqrt (a ^ 2 + b ^ 2) * Real.sqrt (c ^ 2 + e ^ 2) := by
    rw [← Real.sqrt_mul (by positivity)]
    apply Real.le_sqrt_of_sq_le
    nlinarith [sq_nonneg (a * e - b * c)]
  rw [Real.sqrt_le_iff]
  refine ⟨by positivity, ?_⟩
  nlinarith

/-! ## Points on a cell boundary -/

/-- Every real has a nearest double (the mantissas and exponents are finitely many), so the
rounding `fl x` is a double and no double is closer to `x`. -/
theorem fl_rounds (x : ℝ) : Rounds x (fl x) := by
  have key : ∀ B E1 E2 : ℤ, 0 ≤ B → E1 ≤ E2 →
      ∃ m e : ℤ, |m| ≤ B ∧ E1 ≤ e ∧ e ≤ E2 ∧
        ∀ m' e' : ℤ, |m'| ≤ B → E1 ≤ e' → e' ≤ E2 →
          |x - (m : ℝ) * (2 : ℝ) ^ e| ≤ |x - (m' : ℝ) * (2 : ℝ) ^ e'| := by
    intro B E1 E2 hB hE
    obtain ⟨me, hmem, hmin⟩ := Finset.exists_min_image
      (Finset.Icc (-B) B ×ˢ Finset.Icc E1 E2)
      (fun me : ℤ × ℤ => |x - (me.1 : ℝ) * (2 : ℝ) ^ me.2|)
      ⟨(0, E1), Finset.mem_product.2 ⟨Finset.mem_Icc.2 ⟨by omega, hB⟩,
        Finset.mem_Icc.2 ⟨le_rfl, hE⟩⟩⟩
    simp only [Finset.mem_product, Finset.mem_Icc] at hmem
    refine ⟨me.1, me.2, abs_le.2 hmem.1, hmem.2.1, hmem.2.2, ?_⟩
    intro m' e' hm' he1 he2
    exact hmin (m', e') (Finset.mem_product.2 ⟨Finset.mem_Icc.2 (abs_le.1 hm'),
      Finset.mem_Icc.2 ⟨he1, he2⟩⟩)
  have hex : ∃ d : ℝ, Rounds x d := by
    obtain ⟨m, e, hm, he1, he2, hmin⟩ := key (2 ^ 53 - 1) (-1074) 971 (by norm_num)
      (by norm_num)
    refine ⟨(m : ℝ) * (2 : ℝ) ^ e, ⟨m, e, Int.lt_of_le_sub_one hm, he1, he2, rfl⟩, ?_⟩
    rintro d' ⟨m', e', hm', he1', he2', rfl⟩
    exact hmin m' e' (Int.le_sub_one_of_lt hm') he1' he2'
  exact Classical.epsilon_spec hex

/-- A value `m * 2^e` with a mantissa below `2^53` and an exponent in range is a double,
and so is its negative. -/
theorem isDouble_dyadic (d : ℝ) (m : ℕ) (e : ℤ) (hd : d = (m : ℝ) * (2 : ℝ) ^ e)
    (hm : m < 2 ^ 53) (he1 : -1074 ≤ e) (he2 : e ≤ 971) : IsDouble d ∧ IsDouble (-d) := by
  have hm' : |(m : ℤ)| < 2 ^ 53 := by
    rw [abs_of_nonneg (by positivity)]
    exact_mod_cast hm
  exact ⟨⟨(m : ℤ), e, hm', he1, he2, by rw [hd]; push_cast; rfl⟩,
    ⟨-(m : ℤ), e, by rwa [abs_neg], he1, he2, by rw [hd]; push_cast; ring⟩⟩

/-- Rounding against a double `d`: an operation whose exact result is `d` is not rounded,
and rounding is monotone, `fl x ≤ d` for `x ≤ d` and `d ≤ fl x` for `d ≤ x`. -/
theorem fl_mono (x d : ℝ) (hd : IsDouble d) :
    (x = d → fl x = d) ∧ (x ≤ d → fl x ≤ d) ∧ (d ≤ x → d ≤ fl x) := by
  have h1 := (fl_rounds x).2 d hd
  have hle : x ≤ d → fl x ≤ d := by
    intro h
    by_contra hcon
    have hlt : d < fl x := not_le.1 hcon
    rw [abs_of_nonpos (by linarith), abs_of_nonpos (by linarith)] at h1
    linarith
  have hge : d ≤ x → d ≤ fl x := by
    intro h
    by_contra hcon
    have hlt : fl x < d := not_le.1 hcon
    rw [abs_of_nonneg (by linarith), abs_of_nonneg (by linarith)] at h1
    linarith
  exact ⟨fun h => le_antisymm (hle h.le) (hge h.ge), hle, hge⟩

/-- The rounding of `x` is the double `d = m * 2^e`, with a mantissa `2^52 < m < 2^53`, when
`x` is within half a unit in the last place of `d`; the rounding of `-x` is then `-d`. -/
theorem fl_eq (x d : ℝ) (m : ℕ) (e : ℤ) (hd : d = (m : ℝ) * (2 : ℝ) ^ e) (hm1 : 2 ^ 52 < m)
    (hm2 : m < 2 ^ 53) (he1 : -1074 ≤ e) (he2 : e ≤ 971) (h1 : d - (2 : ℝ) ^ e / 2 < x)
    (h2 : x < d + (2 : ℝ) ^ e / 2) : fl x = d ∧ fl (-x) = -d := by
  have h2e : (0 : ℝ) < (2 : ℝ) ^ e := by positivity
  have hmr : (2 : ℝ) ^ 52 + 1 ≤ (m : ℝ) := by exact_mod_cast hm1
  have hx : |x - d| < (2 : ℝ) ^ e / 2 := by
    rw [abs_lt]
    constructor <;> linarith
  -- a double of magnitude at least `2^52 * 2^e` is a whole multiple of `2^e`
  have hmult : ∀ r : ℝ, IsDouble r → (2 : ℝ) ^ 52 * (2 : ℝ) ^ e ≤ |r| →
      ∃ k : ℤ, r = (k : ℝ) * (2 : ℝ) ^ e := by
    rintro r ⟨m', e', hm', _, _, rfl⟩ hbig
    have h2' : (0 : ℝ) < (2 : ℝ) ^ e' := by positivity
    have hm'r : |(m' : ℝ)| < 2 ^ 53 := by exact_mod_cast hm'
    rw [abs_mul, abs_of_pos h2'] at hbig
    have hee : e ≤ e' := by
      by_contra hcon
      have hlt : e' + 1 ≤ e := by omega
      have hpow : (2 : ℝ) ^ (e' + 1) ≤ (2 : ℝ) ^ e := zpow_le_zpow_right₀ (by norm_num) hlt
      rw [zpow_add_one₀ (by norm_num)] at hpow
      have : |(m' : ℝ)| * (2 : ℝ) ^ e' < 2 ^ 53 * (2 : ℝ) ^ e' :=
        mul_lt_mul_of_pos_right hm'r h2'
      nlinarith
    obtain ⟨n, hn⟩ : ∃ n : ℕ, e' = e + n := ⟨(e' - e).toNat, by omega⟩
    refine ⟨m' * 2 ^ n, ?_⟩
    rw [hn, zpow_add₀ (by norm_num), zpow_natCast]
    push_cast
    ring
  -- `d` is the only double nearest to `x`
  have key : ∀ r : ℝ, Rounds x r → r = d := by
    rintro r ⟨hfl, hnear⟩
    have hnr := hnear d (isDouble_dyadic d m e hd hm2 he1 he2).1
    have hdist : |r - d| < (2 : ℝ) ^ e := by
      have e1 : r - d = (x - d) - (x - r) := by ring
      rw [e1]
      calc |(x - d) - (x - r)| ≤ |x - d| + |x - r| := abs_sub _ _
        _ < (2 : ℝ) ^ e := by linarith
    have hbig : (2 : ℝ) ^ 52 * (2 : ℝ) ^ e ≤ |r| := by
      have hd' := abs_lt.1 hdist
      have hpos : 0 < r := by rw [hd] at hd'; nlinarith
      rw [abs_of_pos hpos]
      rw [hd] at hd'
      nlinarith
    obtain ⟨k, hk⟩ := hmult r hfl hbig
    rw [hk, hd] at hdist
    have hkm : |((k - (m : ℤ) : ℤ) : ℝ)| < 1 := by
      have e2 : (k : ℝ) * (2 : ℝ) ^ e - (m : ℝ) * (2 : ℝ) ^ e =
          ((k : ℝ) - (m : ℝ)) * (2 : ℝ) ^ e := by ring
      rw [e2, abs_mul, abs_of_pos h2e] at hdist
      have h3 : |(k : ℝ) - (m : ℝ)| < 1 := by
        by_contra hcon
        have := mul_le_mul_of_nonneg_right (not_lt.1 hcon) h2e.le
        linarith
      push_cast
      exact h3
    have hz : k - (m : ℤ) = 0 := by
      have : |k - (m : ℤ)| < 1 := by exact_mod_cast hkm
      exact Int.abs_lt_one_iff.1 this
    have hkm' : k = (m : ℤ) := by omega
    rw [hk, hd, hkm']
    push_cast
    rfl
  refine ⟨key _ (fl_rounds x), ?_⟩
  -- nearest doubles are symmetric under negation
  have hneg : Rounds x (-fl (-x)) := by
    obtain ⟨hfl, hnear⟩ := fl_rounds (-x)
    obtain ⟨m', e', hm', he1', he2', hr⟩ := hfl
    refine ⟨⟨-m', e', by rwa [abs_neg], he1', he2', by rw [hr]; push_cast; ring⟩, ?_⟩
    rintro d' ⟨m'', e'', hm'', he1'', he2'', rfl⟩
    have h3 := hnear (-((m'' : ℝ) * (2 : ℝ) ^ e''))
      ⟨-m'', e'', by rwa [abs_neg], he1'', he2'', by push_cast; ring⟩
    have e1 : x - -fl (-x) = -(-x - fl (-x)) := by ring
    have e2 : -x - -((m'' : ℝ) * (2 : ℝ) ^ e'') = -(x - (m'' : ℝ) * (2 : ℝ) ^ e'') := by ring
    rw [e1, abs_neg]
    rw [e2, abs_neg] at h3
    exact h3
  have := key _ hneg
  linarith

/-! ## The claims -/

/-- C1. If at some sample `i` of the discretised path the curvature-corrected ground
elevation `path[i].elev - (d1 / 1000)^2 / (2 * RADIUS) * 1000` exceeds the sight elevation
`elevStart + (elevEnd - elevStart) * i / n`, interpolated between the curvature-corrected
endpoints, then `pathLoss` returns `DENIED`, whatever the transmitter, the receiver, the
source group, the resolution and the accumulated losses. -/
theorem pathLoss_obstructed_denied (fuel : ℕ) (p q : Point) (s : SourceGroup)
    (resolution txPower antenna freq : ℝ) (path : List Point) (i : ℕ) (r : Point)
    (dist elevStart elevEnd : ℝ)
    (hdist : dist = p.distance q * 1000)
    (hstart : elevStart = (s.resolve p).elev + (s.resolve p).towerHeight)
    (hend : elevEnd = (s.resolve q).elev + (s.resolve q).towerHeight -
      (dist / 1000) ^ 2 / (2 * RADIUS) * 1000)
    (hpath : (RegionLine.ofPoints (s.resolve p) (s.resolve q)).discrete fuel resolution =
      some path)
    (hr : (s.resolveList path)[i]? = some r)
    (hobs : r.elev - ((i : ℝ) / (path.length : ℝ) * dist / 1000) ^ 2 / (2 * RADIUS) * 1000 >
      elevStart + (elevEnd - elevStart) * (i : ℝ) / (path.length : ℝ)) :
    pathLoss fuel p q s resolution txPower antenna freq = some DENIED := by
  -- An obstructed sample anywhere in the rest of the path ends the walk with `lineDead`.
  have walk_lineDead_of_obstructed : ∀ (size : ℕ) (resolution lambda dist elevStart elevEnd : ℝ),
      ∀ (l : List Point) (i : ℕ) (st : WalkState) (j : ℕ) (r : Point), l[j]? = some r →
        sampleObstructed dist elevStart elevEnd size (i + j) r →
        (pathLoss.walk size resolution lambda dist elevStart elevEnd l i st).lineDead = true := by
    intro size resolution lambda dist elevStart elevEnd
    intro l
    induction l with
    | nil => intro i st j r h; simp at h
    | cons r0 rest ih =>
      intro i st j r h hobs
      rw [walk_cons]
      by_cases h0 : sampleObstructed dist elevStart elevEnd size i r0
      · rw [if_pos h0]
      · rw [if_neg h0]
        cases j with
        | zero =>
          simp only [List.getElem?_cons_zero, Option.some.injEq] at h
          subst h
          exact absurd hobs h0
        | succ j =>
          simp only [List.getElem?_cons_succ] at h
          apply ih (i + 1) _ j r h
          have e : i + 1 + j = i + (j + 1) := by omega
          rw [e]; exact hobs
  unfold pathLoss
  simp only
  split_ifs with hhor
  · rfl
  · rw [hpath]
    simp only
    have hlen : (s.resolveList path).length = path.length := by
      unfold SourceGroup.resolveList; simp
    have hdead := walk_lineDead_of_obstructed (s.resolveList path).length resolution
      (SPEED_LIGHT / (freq * 1000000)) dist elevStart elevEnd (s.resolveList path) 0
      { vegDepth := 0, forestDepth := 0, residentialDepth := 0, commercialDepth := 0,
        worstFresnel := 0, lineDead := false } i r hr
      (by
        rw [zero_add, hlen]
        exact hobs)
    rw [hdist, hstart, hend, hdist] at hdead
    rw [if_pos hdead]

/-- Witness of C1: two antennas on the ground 2 km apart, no terrain data, one sample per
kilometre; the second sample is hidden behind the curvature of the Earth. -/
theorem pathLoss_obstructed_denied_witness :
    pathLoss 3 (Point.new 0 0) (Point.new 0 (toDegrees (2 / RADIUS))) emptyGroup 1 4000 0 900 =
      some DENIED := by
  have hd : (Point.new 0 0).distance (Point.new 0 (toDegrees (2 / RADIUS))) = 2 :=
    distance_equator _ _ 2 rfl rfl rfl rfl (by norm_num) (small_le_pi_mul_RADIUS (by norm_num))
  have hceil : ⌈(2 : ℝ) / 1⌉₊ = 2 := by norm_num
  have hpath := discrete_two_points (Point.new 0 0) (Point.new 0 (toDegrees (2 / RADIUS))) 1 3
    (by norm_num) (by rw [hd]; norm_num) (by rw [hd, hceil]; norm_num)
  rw [hd, hceil] at hpath
  have hR := RADIUS_pos
  exact pathLoss_obstructed_denied 3 _ _ emptyGroup 1 4000 0 900 _ 1
    ((Point.new 0 0).project ((Point.new 0 0).bearing (Point.new 0 (toDegrees (2 / RADIUS))))
      (((1 : ℕ) : ℝ) * 1))
    _ _ _ rfl rfl rfl hpath
    (by rw [emptyGroup_resolveList]; rfl)
    (by
      rw [emptyGroup_resolve, emptyGroup_resolve, hd]
      simp only [List.length_map, List.length_range, Point.project, Point.new]
      have h : (0 : ℝ) < 1000 / (2 * RADIUS) := by positivity
      have e1 : ((1 : ℕ) : ℝ) / ((2 : ℕ) : ℝ) * (2 * 1000) / 1000 = 1 := by norm_num
      have e2 : (2 * 1000 / 1000 : ℝ) = 2 := by norm_num
      rw [e1, e2]
      have e3 : (1 : ℝ) ^ 2 / (2 * RADIUS) * 1000 = 1000 / (2 * RADIUS) := by ring
      have e4 : (2 : ℝ) ^ 2 / (2 * RADIUS) * 1000 = 4 * (1000 / (2 * RADIUS)) := by ring
      rw [e3, e4]
      push_cast
      linarith)

/-- C2. When the transmitter height `p.elev + p.towerHeight` (after resolving) is not
negative and the endpoint separation in metres exceeds the radio horizon
`3.569 * sqrt (p.elev + p.towerHeight) * 1000`, `pathLoss` returns `DENIED`: the terrain
along the path is not even read (any fuel will do). -/
theorem pathLoss_horizon_denied (fuel : ℕ) (p q : Point) (s : SourceGroup)
    (resolution txPower antenna freq : ℝ)
    (_hheight : 0 ≤ (s.resolve p).elev + (s.resolve p).towerHeight)
    (hfar : p.distance q * 1000 >
      3.569 * Real.sqrt ((s.resolve p).elev + (s.resolve p).towerHeight) * 1000) :
    pathLoss fuel p q s resolution txPower antenna freq = some DENIED := by
  unfold pathLoss
  simp only
  rw [if_pos hfar]

/-- Witness of C2: a 10 m tower at unresolved elevation -1 (height 9 m, horizon about
10.7 km) and a receiver 20 km away. -/
theorem pathLoss_horizon_denied_witness :
    pathLoss 0 (Point.newTower 0 0 10) (Point.newTower 0 (toDegrees (20 / RADIUS)) 10)
      emptyGroup 0.01 4000 0 900 = some DENIED := by
  have hd : (Point.newTower 0 0 10).distance (Point.newTower 0 (toDegrees (20 / RADIUS)) 10) =
      20 :=
    distance_equator _ _ 20 rfl rfl rfl rfl (by norm_num) (small_le_pi_mul_RADIUS (by norm_num))
  have h9 : Real.sqrt ((Point.newTower 0 0 10).elev + (Point.newTower 0 0 10).towerHeight) ≤ 3 := by
    rw [Real.sqrt_le_iff]
    norm_num [Point.newTower]
  exact pathLoss_horizon_denied 0 _ _ emptyGroup 0.01 4000 0 900
    (by rw [emptyGroup_resolve]; norm_num [Point.newTower])
    (by rw [emptyGroup_resolve, hd]; nlinarith)

/-- C3. Within the radio horizon and on a path without obstructed sample, `pathLoss`
returns `(10 * log10 txPower + antenna) - (freeSpace + worstDiffraction + vegLoss + landLoss)`
with `freeSpace = 32.4 + 20 * log10 freq + 20 * log10 dist_km`; the diffraction term is the
worst knife-edge loss, the vegetation term that of the vegetation depth in metres, the
land-use term the sum over the three classes. -/
theorem pathLoss_clear_eq (fuel : ℕ) (p q : Point) (s : SourceGroup)
    (resolution txPower antenna freq : ℝ) (path : List Point)
    (dist elevStart elevEnd lambda : ℝ)
    (hdist : dist = p.distance q * 1000)
    (hstart : elevStart = (s.resolve p).elev + (s.resolve p).towerHeight)
    (hend : elevEnd = (s.resolve q).elev + (s.resolve q).towerHeight -
      (dist / 1000) ^ 2 / (2 * RADIUS) * 1000)
    (hlambda : lambda = SPEED_LIGHT / (freq * 1000000))
    (hhor : dist ≤ 3.569 * Real.sqrt elevStart * 1000)
    (hpath : (RegionLine.ofPoints (s.resolve p) (s.resolve q)).discrete fuel resolution =
      some path)
    (hclear : ∀ (i : ℕ) (r : Point), (s.resolveList path)[i]? = some r →
      ¬ (r.elev - ((i : ℝ) / (path.length : ℝ) * dist / 1000) ^ 2 / (2 * RADIUS) * 1000 >
        elevStart + (elevEnd - elevStart) * (i : ℝ) / (path.length : ℝ))) :
    pathLoss fuel p q s resolution txPower antenna freq =
      some ((10 * log10 txPower + antenna) -
        ((32.4 + 20 * log10 freq + 20 * log10 (p.distance q)) +
          worstDiffraction lambda dist elevStart elevEnd path.length (s.resolveList path).enum +
          pathLoss.vegLoss freq
            (vegetationDepth resolution dist elevStart elevEnd path.length
              (s.resolveList path).enum * 1000) +
          (calcLandLoss LAND_FOREST
              (landDepth resolution LAND_FOREST (s.resolveList path).enum * 1000) freq +
            calcLandLoss LAND_RESIDENTIAL
              (landDepth resolution LAND_RESIDENTIAL (s.resolveList path).enum * 1000) freq +
            calcLandLoss LAND_COMMERCIAL
              (landDepth resolution LAND_COMMERCIAL (s.resolveList path).enum * 1000) freq))) :=
  pathLoss_of_clear fuel p q s resolution txPower antenna freq path dist elevStart elevEnd lambda
    hdist hstart hend hlambda hhor hpath hclear

/-- Witness of C3: two 10 m towers 2 km apart, no terrain data, a single sample (resolution
5 km): within the horizon and clear, so a value is returned. -/
theorem pathLoss_clear_eq_witness :
    ∃ v : ℝ, pathLoss 2 (Point.newTower 0 0 10) (Point.newTower 0 (toDegrees (2 / RADIUS)) 10)
      emptyGroup 5 4000 0 900 = some v := by
  have hd : (Point.newTower 0 0 10).distance (Point.newTower 0 (toDegrees (2 / RADIUS)) 10) =
      2 :=
    distance_equator _ _ 2 rfl rfl rfl rfl (by norm_num) (small_le_pi_mul_RADIUS (by norm_num))
  have hceil : ⌈(2 : ℝ) / 5⌉₊ = 1 := by
    rw [Nat.ceil_eq_iff (by norm_num)]
    norm_num
  have hpath := discrete_two_points (Point.newTower 0 0 10)
    (Point.newTower 0 (toDegrees (2 / RADIUS)) 10) 5 2
    (by norm_num) (by rw [hd]; norm_num) (by rw [hd, hceil]; norm_num)
  rw [hd, hceil] at hpath
  have h3 : (3 : ℝ) ≤ Real.sqrt ((Point.newTower 0 0 10).elev +
      (Point.newTower 0 0 10).towerHeight) := by
    rw [Real.le_sqrt' (by norm_num)]
    norm_num [Point.newTower]
  exact ⟨_, pathLoss_clear_eq 2 _ _ emptyGroup 5 4000 0 900 _ _ _ _ _ rfl rfl rfl rfl
    (by rw [emptyGroup_resolve, hd]; nlinarith)
    hpath
    (by
      intro i r hr
      have hrange : List.range 1 = [0] := rfl
      rw [emptyGroup_resolveList, hrange] at hr
      rw [emptyGroup_resolve, emptyGroup_resolve]
      cases i with
      | zero =>
        simp only [List.map_cons, List.map_nil, List.getElem?_cons_zero,
          Option.some.injEq] at hr
        subst hr
        simp only [List.length_map, List.length_range, Point.project, Point.new,
          Point.newTower]
        norm_num
      | succ j => simp at hr)⟩

/-- Counterexample to C4: on flat ground at elevation 0, between two 10 m towers 4.1 km
apart on the equator, at resolution 0.01 km, 4000 mW, 0 dB and 900 MHz, `pathLoss` does
not return the free-space value: the ground at mid-path is inside the first Fresnel zone. -/
theorem pathLoss_flat_not_free_space_only :
    pathLoss 500 (Point.newTower 0 0 10) (Point.newTower 0 (toDegrees (4.1 / RADIUS)) 10)
        (flatGroup 0) 0.01 4000 0 900 ≠
      some (10 * log10 4000 - (32.4 + 20 * log10 900 + 20 * log10
        ((Point.newTower 0 0 10).distance
          (Point.newTower 0 (toDegrees (4.1 / RADIUS)) 10)))) := by
  -- Flat ground at a constant elevation `E ≥ 0`, two towers of 10 m between 4 and 4.2 km
  -- apart, resolution 0.01 km, 4000 mW, 0 dB, 900 MHz: the path is clear, there is no
  -- vegetation or land-use loss, and the worst knife-edge loss `w` is at least 6.9 dB.
  have pathLoss_flat_aux : ∀ (fuel : ℕ) (p q : Point) (s : SourceGroup) (E : ℝ)
      (hs : ∀ pt : Point, s.resolve pt = { pt with elev := E }) (hE : 0 ≤ E)
      (hp : p.towerHeight = 10) (hq : q.towerHeight = 10) (hL1 : 4 ≤ p.distance q)
      (hL2 : p.distance q ≤ 4.2) (hfuel : 422 ≤ fuel),
      ∃ w : ℝ, 6.9 ≤ w ∧
        pathLoss fuel p q s 0.01 4000 0 900 =
          some (10 * log10 4000 - (32.4 + 20 * log10 900 + 20 * log10 (p.distance q)) - w) ∧
        10 * log10 4000 - (32.4 + 20 * log10 900 + 20 * log10 (p.distance q)) - w ≠ DENIED := by
    intro fuel p q s E hs hE hp hq hL1 hL2 hfuel
    obtain ⟨path, _, hmain, hveg, hland, x, hx, henc⟩ :=
      pathLoss_flat_parts fuel p q s E hs hE hp hq hL1 hL2 hfuel
    rw [hveg, hland _ (Or.inl rfl), hland _ (Or.inr (Or.inl rfl)), hland _ (Or.inr (Or.inr rfl)),
      zero_mul, vegLoss_zero, calcLandLoss_zero, calcLandLoss_zero, calcLandLoss_zero] at hmain
    have hw := le_worstDiffraction (SPEED_LIGHT / (900 * 1000000)) (p.distance q * 1000) (E + 10)
      (E + 10 - (p.distance q * 1000 / 1000) ^ 2 / (2 * RADIUS) * 1000) path.length
      (s.resolveList path).enum x hx henc
    have hk := knifeEdgeLoss_ge (E + 10)
      (E + 10 - (p.distance q * 1000 / 1000) ^ 2 / (2 * RADIUS) * 1000 -
        (p.distance q * 1000 / 1000) ^ 2 / (2 * RADIUS) * 1000)
      (sampleGround (p.distance q * 1000) path.length x.1 x.2)
      (p.distance q * 1000) (sampleD1 (p.distance q * 1000) path.length x.1)
      (sampleD2 (p.distance q * 1000) path.length x.1) (SPEED_LIGHT / (900 * 1000000))
      (sampleSight (E + 10) (E + 10 - (p.distance q * 1000 / 1000) ^ 2 / (2 * RADIUS) * 1000)
        path.length x.1)
    have h4 := le_trans hk hw
    generalize worstDiffraction (SPEED_LIGHT / (900 * 1000000)) (p.distance q * 1000) (E + 10)
      (E + 10 - (p.distance q * 1000 / 1000) ^ 2 / (2 * RADIUS) * 1000) path.length
      (s.resolveList path).enum = w at hmain h4
    refine ⟨w, h4, ?_, ?_⟩
    · rw [hmain]
      congr 1
      ring
    · have h1 := log10_4000_le
      have h2 : 0 ≤ log10 900 := log10_nonneg (by norm_num)
      have h3 : 0 ≤ log10 (p.distance q) := log10_nonneg (by linarith)
      unfold DENIED
      intro hcon
      linarith
  have hd : (Point.newTower 0 0 10).distance (Point.newTower 0 (toDegrees (4.1 / RADIUS)) 10) =
      4.1 :=
    distance_equator _ _ 4.1 rfl rfl rfl rfl (by norm_num) (small_le_pi_mul_RADIUS (by norm_num))
  obtain ⟨w, hw, heq, _⟩ := pathLoss_flat_aux 500 (Point.newTower 0 0 10)
    (Point.newTower 0 (toDegrees (4.1 / RADIUS)) 10) (flatGroup 0) 0 (flatGroup_resolve 0)
    le_rfl rfl rfl (by rw [hd]; norm_num) (by rw [hd]; norm_num) (by norm_num)
  rw [heq]
  intro hcon
  have := Option.some.inj hcon
  norm_num at hw
  linarith

/-- C4, amended. On flat ground at a constant elevation `E ≥ 0`, without vegetation or
land-use data, between two 10 m towers 4 to 4.2 km apart, at resolution 0.01 km, 4000 mW,
0 dB and 900 MHz, `pathLoss` (with fuel for the at most 420 samples) returns a value other
than `DENIED`: the free-space value `10 * log10 4000 - (32.4 + 20 * log10 900 +
20 * log10 dist_km)` minus `w`, where `w` is the worst knife-edge diffraction loss of the
walk, the loss of a sample that encroaches into the first Fresnel zone, and at least
6.9 dB; the vegetation term and the three land-use terms are zero. -/
theorem pathLoss_flat_diffraction (fuel : ℕ) (p q : Point) (s : SourceGroup) (E : ℝ)
    (hs : ∀ pt : Point, s.resolve pt = { pt with elev := E })
    (hE : 0 ≤ E) (hp : p.towerHeight = 10) (hq : q.towerHeight = 10)
    (hL1 : 4 ≤ p.distance q) (hL2 : p.distance q ≤ 4.2) (hfuel : 422 ≤ fuel) :
    ∃ (path : List Point) (w : ℝ),
      (RegionLine.ofPoints (s.resolve p) (s.resolve q)).discrete fuel 0.01 = some path ∧
      w = worstDiffraction (SPEED_LIGHT / (900 * 1000000)) (p.distance q * 1000) (E + 10)
        (E + 10 - (p.distance q * 1000 / 1000) ^ 2 / (2 * RADIUS) * 1000) path.length
        (s.resolveList path).enum ∧
      (∃ x ∈ (s.resolveList path).enum,
        sampleEncroaches (SPEED_LIGHT / (900 * 1000000)) (p.distance q * 1000) (E + 10)
          (E + 10 - (p.distance q * 1000 / 1000) ^ 2 / (2 * RADIUS) * 1000) path.length
          x.1 x.2 ∧
        w = sampleKnifeEdge (SPEED_LIGHT / (900 * 1000000)) (p.distance q * 1000) (E + 10)
          (E + 10 - (p.distance q * 1000 / 1000) ^ 2 / (2 * RADIUS) * 1000) path.length
          x.1 x.2) ∧
      6.9 ≤ w ∧
      pathLoss.vegLoss 900 (vegetationDepth 0.01 (p.distance q * 1000) (E + 10)
        (E + 10 - (p.distance q * 1000 / 1000) ^ 2 / (2 * RADIUS) * 1000) path.length
        (s.resolveList path).enum * 1000) = 0 ∧
      (∀ t : ℤ, t = LAND_FOREST ∨ t = LAND_RESIDENTIAL ∨ t = LAND_COMMERCIAL →
        calcLandLoss t (landDepth 0.01 t (s.resolveList path).enum * 1000) 900 = 0) ∧
      pathLoss fuel p q s 0.01 4000 0 900 =
        some (10 * log10 4000 - (32.4 + 20 * log10 900 + 20 * log10 (p.distance q)) - w) ∧
      10 * log10 4000 - (32.4 + 20 * log10 900 + 20 * log10 (p.distance q)) - w ≠ DENIED := by
  obtain ⟨path, hpath, hmain, hveg, hland, henc⟩ :=
    pathLoss_flat_parts fuel p q s E hs hE hp hq hL1 hL2 hfuel
  obtain ⟨x, hx, hencx, hatt⟩ := worstDiffraction_attained (SPEED_LIGHT / (900 * 1000000))
    (p.distance q * 1000) (E + 10)
    (E + 10 - (p.distance q * 1000 / 1000) ^ 2 / (2 * RADIUS) * 1000) path.length
    (s.resolveList path).enum henc
  have hk := knifeEdgeLoss_ge (E + 10)
    (E + 10 - (p.distance q * 1000 / 1000) ^ 2 / (2 * RADIUS) * 1000 -
      (p.distance q * 1000 / 1000) ^ 2 / (2 * RADIUS) * 1000)
    (sampleGround (p.distance q * 1000) path.length x.1 x.2)
    (p.distance q * 1000) (sampleD1 (p.distance q * 1000) path.length x.1)
    (sampleD2 (p.distance q * 1000) path.length x.1) (SPEED_LIGHT / (900 * 1000000))
    (sampleSight (E + 10) (E + 10 - (p.distance q * 1000 / 1000) ^ 2 / (2 * RADIUS) * 1000)
      path.length x.1)
  have hvz : pathLoss.vegLoss 900 (vegetationDepth 0.01 (p.distance q * 1000) (E + 10)
      (E + 10 - (p.distance q * 1000 / 1000) ^ 2 / (2 * RADIUS) * 1000) path.length
      (s.resolveList path).enum * 1000) = 0 := by
    rw [hveg, zero_mul, vegLoss_zero]
  have hlz : ∀ t : ℤ, t = LAND_FOREST ∨ t = LAND_RESIDENTIAL ∨ t = LAND_COMMERCIAL →
      calcLandLoss t (landDepth 0.01 t (s.resolveList path).enum * 1000) 900 = 0 := by
    intro t ht
    rw [hland t ht, zero_mul, calcLandLoss_zero]
  rw [hvz, hlz _ (Or.inl rfl), hlz _ (Or.inr (Or.inl rfl)), hlz _ (Or.inr (Or.inr rfl))] at hmain
  have h4 : 6.9 ≤ worstDiffraction (SPEED_LIGHT / (900 * 1000000)) (p.distance q * 1000)
      (E + 10) (E + 10 - (p.distance q * 1000 / 1000) ^ 2 / (2 * RADIUS) * 1000) path.length
      (s.resolveList path).enum := by
    rw [hatt]
    exact hk
  refine ⟨path, _, hpath, rfl, ⟨x, hx, hencx, hatt⟩, h4, hvz, hlz, ?_, ?_⟩
  · rw [hmain]
    congr 1
    ring
  · have h1 := log10_4000_le
    have h2 : 0 ≤ log10 900 := log10_nonneg (by norm_num)
    have h3 : 0 ≤ log10 (p.distance q) := log10_nonneg (by linarith)
    unfold DENIED
    intro hcon
    linarith

/-- Witness of C4, amended: the input of the counterexample, two towers 4.1 km apart on the
equator over ground at elevation 0. -/
theorem pathLoss_flat_diffraction_witness :
    ∃ (path : List Point) (w : ℝ),
      (RegionLine.ofPoints ((flatGroup 0).resolve (Point.newTower 0 0 10))
        ((flatGroup 0).resolve (Point.newTower 0 (toDegrees (4.1 / RADIUS)) 10))).discrete
          500 0.01 = some path ∧
      w = worstDiffraction (SPEED_LIGHT / (900 * 1000000)) (4.1 * 1000) (0 + 10)
        (0 + 10 - (4.1 * 1000 / 1000) ^ 2 / (2 * RADIUS) * 1000) path.length
        ((flatGroup 0).resolveList path).enum ∧
      6.9 ≤ w ∧
      pathLoss 500 (Point.newTower 0 0 10) (Point.newTower 0 (toDegrees (4.1 / RADIUS)) 10)
        (flatGroup 0) 0.01 4000 0 900 =
        some (10 * log10 4000 - (32.4 + 20 * log10 900 + 20 * log10 4.1) - w) := by
  have hd : (Point.newTower 0 0 10).distance (Point.newTower 0 (toDegrees (4.1 / RADIUS)) 10) =
      4.1 :=
    distance_equator _ _ 4.1 rfl rfl rfl rfl (by norm_num) (small_le_pi_mul_RADIUS (by norm_num))
  obtain ⟨path, w, h1, h2, _, h4, _, _, h7, _⟩ := pathLoss_flat_diffraction 500
    (Point.newTower 0 0 10) (Point.newTower 0 (toDegrees (4.1 / RADIUS)) 10) (flatGroup 0) 0
    (flatGroup_resolve 0) le_rfl rfl rfl (by rw [hd]; norm_num) (by rw [hd]; norm_num)
    (by norm_num)
  rw [hd] at h2 h7
  exact ⟨path, w, h1, h2, h4, h7⟩

/-- C7. The distance is symmetric: `p.distance(q) = q.distance(p)` for all points. -/
theorem distance_comm (p q : Point) : p.distance q = q.distance p := by
  unfold Point.distance
  simp only
  rw [← Real.cos_neg (toRadians q.lon - toRadians p.lon), neg_sub]
  ring_nf

/-- C8 fails on the code: for a point of latitude 2, such as `Point(2, -111.2476944)`, the
double-precision evaluation of `p.distance(p)` is NaN and not 0.  The latitude in radians
is `0.03490655555555555`, its sine rounds to `0.03489946723613097` and its cosine to
`0.9993908280480837`, their rounded squares add up to the double `1 + 2^-52`, and this is
outside the domain of `acos`; over the reals the sum is 1 and the distance is 0. -/
theorem distance_self_nan (lon : ℝ) :
    (Point.new 2 lon).distanceDouble (Point.new 2 lon) = none ∧
      (Point.new 2 lon).distance (Point.new 2 lon) = 0 := by
  -- The Taylor polynomials of degree 8 and 9 of the cosine and the sine, with the remainder
  -- bound of the exponential series, for `|x| ≤ 1`.
  have sin_cos_taylor : ∀ (x : ℝ) (hx : |x| ≤ 1),
      |Real.cos x - (1 - x ^ 2 / 2 + x ^ 4 / 24 - x ^ 6 / 720 + x ^ 8 / 40320)| ≤
          |x| ^ 10 * (11 / 36288000) ∧
        |Real.sin x - (x - x ^ 3 / 6 + x ^ 5 / 120 - x ^ 7 / 5040 + x ^ 9 / 362880)| ≤
          |x| ^ 10 * (11 / 36288000) := by
    intro x hx
    have hsum : ∑ m ∈ Finset.range 10, ((x : ℂ) * Complex.I) ^ m / (m.factorial : ℂ) =
        ((1 - x ^ 2 / 2 + x ^ 4 / 24 - x ^ 6 / 720 + x ^ 8 / 40320 : ℝ) : ℂ) +
          ((x - x ^ 3 / 6 + x ^ 5 / 120 - x ^ 7 / 5040 + x ^ 9 / 362880 : ℝ) : ℂ) *
            Complex.I := by
      have h2 : Complex.I ^ 2 = -1 := Complex.I_sq
      have h3 : Complex.I ^ 3 = -Complex.I := by rw [pow_succ, h2]; ring
      have h4 : Complex.I ^ 4 = 1 := by rw [pow_succ, h3]; simp
      have h5 : Complex.I ^ 5 = Complex.I := by rw [pow_succ, h4]; ring
      have h6 : Complex.I ^ 6 = -1 := by rw [pow_succ, h5]; simp
      have h7 : Complex.I ^ 7 = -Complex.I := by rw [pow_succ, h6]; ring
      have h8 : Complex.I ^ 8 = 1 := by rw [pow_succ, h7]; simp
      have h9 : Complex.I ^ 9 = Complex.I := by rw [pow_succ, h8]; ring
      simp only [Finset.sum_range_succ, Finset.sum_range_zero, mul_pow, h2, h3, h4, h5, h6, h7,
        h8, h9, pow_zero, pow_one, Nat.factorial]
      push_cast
      ring
    have habs : Complex.abs ((x : ℂ) * Complex.I) = |x| := by simp
    have hb := Complex.exp_bound (x := (x : ℂ) * Complex.I) (by rw [habs]; exact hx)
      (n := 10) (by norm_num)
    rw [hsum, habs] at hb
    have hconst : ((Nat.succ 10 : ℕ) : ℝ) * ((Nat.factorial 10 : ℝ) * ((10 : ℕ) : ℝ))⁻¹ =
        11 / 36288000 := by
      norm_num [Nat.factorial]
    rw [hconst] at hb
    have key : ∀ a b : ℝ,
        |Real.cos x - a| ≤ Complex.abs (Complex.exp ((x : ℂ) * Complex.I) -
          ((a : ℂ) + (b : ℂ) * Complex.I)) ∧
        |Real.sin x - b| ≤ Complex.abs (Complex.exp ((x : ℂ) * Complex.I) -
          ((a : ℂ) + (b : ℂ) * Complex.I)) := by
      intro a b
      constructor
      · have h := Complex.abs_re_le_abs (Complex.exp ((x : ℂ) * Complex.I) -
          ((a : ℂ) + (b : ℂ) * Complex.I))
        simpa [Complex.exp_ofReal_mul_I_re] using h
      · have h := Complex.abs_im_le_abs (Complex.exp ((x : ℂ) * Complex.I) -
          ((a : ℂ) + (b : ℂ) * Complex.I))
        simpa [Complex.exp_ofReal_mul_I_im] using h
    exact ⟨le_trans (key _ _).1 hb, le_trans (key _ _).2 hb⟩
  constructor
  · have hPI : fl PI = 7074231776675438 * (2 : ℝ) ^ (-51 : ℤ) :=
      (fl_eq _ _ 7074231776675438 (-51) (by norm_num) (by norm_num) (by norm_num)
        (by norm_num) (by norm_num) (by unfold PI; norm_num) (by unfold PI; norm_num)).1
    have h2pi : fl (2 * (7074231776675438 * (2 : ℝ) ^ (-51 : ℤ))) =
        7074231776675438 * (2 : ℝ) ^ (-50 : ℤ) :=
      (fl_mono _ _ (isDouble_dyadic _ 7074231776675438 (-50) (by norm_num) (by norm_num)
        (by norm_num) (by norm_num)).1).1 (by norm_num)
    have hrad : toRadiansDouble 2 = 5030564818969200 * (2 : ℝ) ^ (-57 : ℤ) := by
      delta toRadiansDouble
      rw [hPI, h2pi]
      exact (fl_eq _ _ 5030564818969200 (-57) (by norm_num) (by norm_num) (by norm_num)
        (by norm_num) (by norm_num) (by norm_num) (by norm_num)).1
    have hb := sin_cos_taylor (5030564818969200 * (2 : ℝ) ^ (-57 : ℤ))
      (by rw [abs_le]; constructor <;> norm_num)
    rw [abs_of_nonneg (by norm_num : (0 : ℝ) ≤ 5030564818969200 * (2 : ℝ) ^ (-57 : ℤ))] at hb
    have hc := abs_le.1 hb.1
    have hs := abs_le.1 hb.2
    have hsin : fl (Real.sin (5030564818969200 * (2 : ℝ) ^ (-57 : ℤ))) =
        5029543284482185 * (2 : ℝ) ^ (-57 : ℤ) :=
      (fl_eq _ _ 5029543284482185 (-57) (by norm_num) (by norm_num) (by norm_num)
        (by norm_num) (by norm_num)
        (by
          have := hs.1
          norm_num at this ⊢
          linarith)
        (by
          have := hs.2
          norm_num at this ⊢
          linarith)).1
    have hcos : fl (Real.cos (5030564818969200 * (2 : ℝ) ^ (-57 : ℤ))) =
        9001712321589682 * (2 : ℝ) ^ (-53 : ℤ) :=
      (fl_eq _ _ 9001712321589682 (-53) (by norm_num) (by norm_num) (by norm_num)
        (by norm_num) (by norm_num)
        (by
          have := hc.1
          norm_num at this ⊢
          linarith)
        (by
          have := hc.2
          norm_num at this ⊢
          linarith)).1
    have hss : fl (5029543284482185 * (2 : ℝ) ^ (-57 : ℤ) *
        (5029543284482185 * (2 : ℝ) ^ (-57 : ℤ))) = 5616908194223634 * (2 : ℝ) ^ (-62 : ℤ) :=
      (fl_eq _ _ 5616908194223634 (-62) (by norm_num) (by norm_num) (by norm_num)
        (by norm_num) (by norm_num) (by norm_num) (by norm_num)).1
    have hcc : fl (9001712321589682 * (2 : ℝ) ^ (-53 : ℤ) *
        (9001712321589682 * (2 : ℝ) ^ (-53 : ℤ))) = 8996228730924150 * (2 : ℝ) ^ (-53 : ℤ) :=
      (fl_eq _ _ 8996228730924150 (-53) (by norm_num) (by norm_num) (by norm_num)
        (by norm_num) (by norm_num) (by norm_num) (by norm_num)).1
    have h0 : fl 0 = 0 :=
      (fl_mono 0 0 (isDouble_dyadic 0 0 0 (by norm_num) (by norm_num) (by norm_num)
        (by norm_num)).1).1 rfl
    have h1 : fl 1 = 1 :=
      (fl_mono 1 1 (isDouble_dyadic 1 1 0 (by norm_num) (by norm_num) (by norm_num)
        (by norm_num)).1).1 rfl
    have hcc1 : fl (8996228730924150 * (2 : ℝ) ^ (-53 : ℤ) * 1) =
        8996228730924150 * (2 : ℝ) ^ (-53 : ℤ) :=
      (fl_mono _ _ (isDouble_dyadic _ 8996228730924150 (-53) (by norm_num) (by norm_num)
        (by norm_num) (by norm_num)).1).1 (by norm_num)
    have harg : fl (5616908194223634 * (2 : ℝ) ^ (-62 : ℤ) +
        8996228730924150 * (2 : ℝ) ^ (-53 : ℤ)) = 4503599627370497 * (2 : ℝ) ^ (-52 : ℤ) :=
      (fl_eq _ _ 4503599627370497 (-52) (by norm_num) (by norm_num) (by norm_num)
        (by norm_num) (by norm_num) (by norm_num) (by norm_num)).1
    delta Point.distanceDouble
    simp only [Point.new, sub_self, h0, Real.cos_zero, h1, hrad, hsin, hcos, hss, hcc, hcc1,
      harg]
    rw [if_pos]
    right
    norm_num
  · unfold Point.distance
    simp only [sub_self, Real.cos_zero, mul_one]
    rw [← sq, ← sq, Real.sin_sq_add_cos_sq, Real.arccos_one, zero_mul]

/-- C9 fails on the code: `bearing` returns the value of `atan2`, in `(-π, π]`, not a
value in `[0, 2π)`.  For the two points of `testPoint` (the second lies south-west of the
first) the returned bearing is negative. -/
theorem bearing_testPoint_neg :
    (Point.new 45.52391667 (-111.2476944)).bearing (Point.new 45.49677778 (-111.2711389)) < 0 := by
  -- The angle `atan2 y x` is negative exactly when `y` is.
  have atan2_neg_iff : ∀ (y x : ℝ),
      atan2 y x < 0 ↔ y < 0 := by
    intro y x
    unfold atan2
    rw [Complex.arg_neg_iff]
  unfold Point.bearing Point.new
  simp only
  rw [atan2_neg_iff]
  have hpi := Real.pi_gt_three
  apply mul_neg_of_neg_of_pos
  · apply Real.sin_neg_of_neg_of_neg_pi_lt
    · unfold toRadians PI; norm_num
    · unfold toRadians PI; norm_num; linarith
  · apply Real.cos_pos_of_mem_Ioo
    constructor
    · unfold toRadians PI; norm_num; linarith
    · unfold toRadians PI; norm_num; linarith

/-- C10. Walking from `p` along `p.bearing(q)` for `p.distance(q)` reaches `q`: for
latitudes in `[-90, 90]` and longitudes less than 180 degrees apart the projected point
has the latitude and the longitude of `q`, exactly in real arithmetic.  (Two such points
are never antipodal, and the statement also holds when they coincide.) -/
theorem project_bearing_distance (p q : Point) (hp1 : -90 ≤ p.lat) (hp2 : p.lat ≤ 90)
    (hq1 : -90 ≤ q.lat) (hq2 : q.lat ≤ 90) (hlon : |q.lon - p.lon| < 180) :
    (p.project (p.bearing q) (p.distance q)).lat = q.lat ∧
      (p.project (p.bearing q) (p.distance q)).lon = q.lon := by
  -- The spherical law of sines and cosines in the form used by `bearing`.
  have bearing_sq : ∀ (a a2 t : ℝ),
      1 - (Real.sin a * Real.sin a2 + Real.cos a * Real.cos a2 * Real.cos t) ^ 2 =
        (Real.cos a * Real.sin a2 - Real.sin a * Real.cos a2 * Real.cos t) ^ 2 +
          (Real.sin t * Real.cos a2) ^ 2 := by
    intro a a2 t
    have ha := Real.sin_sq_add_cos_sq a
    have h2 := Real.sin_sq_add_cos_sq a2
    have ht := Real.sin_sq_add_cos_sq t
    linear_combination (-(1 : ℝ)) * h2 - Real.cos a2 ^ 2 * ht -
      (Real.sin a2 ^ 2 + Real.cos a2 ^ 2 * Real.cos t ^ 2) * ha
  -- The angle of a positive multiple of `(cos t, sin t)` is `t`, for `t` in `(-π, π]`.
  have atan2_mul_sin_cos : ∀ {k t : ℝ} (hk : 0 < k) (h1 : -Real.pi < t) (h2 : t ≤ Real.pi),
      atan2 (k * Real.sin t) (k * Real.cos t) = t := by
    intro k t hk h1 h2
    unfold atan2
    have h := Complex.arg_mul_cos_add_sin_mul_I hk (Set.mem_Ioc.2 ⟨h1, h2⟩)
    have e : (⟨k * Real.cos t, k * Real.sin t⟩ : ℂ) =
        (k : ℂ) * (Complex.cos t + Complex.sin t * Complex.I) := by
      apply Complex.ext <;>
        simp [Complex.cos_ofReal_re, Complex.sin_ofReal_re, Complex.cos_ofReal_im,
          Complex.sin_ofReal_im]
    rw [e]
    exact h
  have hR := RADIUS_pos
  obtain ⟨ha1, ha2⟩ := toRadians_lat_mem hp1 hp2
  obtain ⟨hb1, hb2⟩ := toRadians_lat_mem hq1 hq2
  have hca : 0 < Real.cos (toRadians p.lat) := Real.cos_pos_of_mem_Ioo ⟨ha1, ha2⟩
  have hcb : 0 < Real.cos (toRadians q.lat) := Real.cos_pos_of_mem_Ioo ⟨hb1, hb2⟩
  -- the longitude difference in radians lies strictly inside (-π, π)
  have ht : -Real.pi < toRadians q.lon - toRadians p.lon ∧
      toRadians q.lon - toRadians p.lon ≤ Real.pi := by
    have hpi := PI_lt_pi
    have hpos := PI_pos
    have e : toRadians q.lon - toRadians p.lon = (q.lon - p.lon) * PI / 180 := by
      unfold toRadians; ring
    rw [e]
    obtain ⟨h1, h2⟩ := abs_lt.1 hlon
    constructor
    · have : -PI < (q.lon - p.lon) * PI / 180 := by nlinarith
      linarith
    · have : (q.lon - p.lon) * PI / 180 < PI := by nlinarith
      linarith
  generalize hta : toRadians q.lon - toRadians p.lon = t at ht
  have hsq := bearing_sq (toRadians p.lat) (toRadians q.lat) t
  generalize hc : Real.sin (toRadians p.lat) * Real.sin (toRadians q.lat) +
    Real.cos (toRadians p.lat) * Real.cos (toRadians q.lat) * Real.cos t = c at hsq
  generalize hX : Real.cos (toRadians p.lat) * Real.sin (toRadians q.lat) -
    Real.sin (toRadians p.lat) * Real.cos (toRadians q.lat) * Real.cos t = X at hsq
  generalize hY : Real.sin t * Real.cos (toRadians q.lat) = Y at hsq
  have hc2 : c ^ 2 ≤ 1 := by nlinarith [sq_nonneg X, sq_nonneg Y]
  have hc1 : -1 ≤ c ∧ c ≤ 1 := by constructor <;> nlinarith
  have hratio : Real.arccos c * RADIUS / RADIUS = Real.arccos c := by field_simp
  have hsin : Real.sin (Real.arccos c) = Real.sqrt (X ^ 2 + Y ^ 2) := by
    rw [Real.sin_arccos, hsq]
  have hcosθ : Real.sin (Real.arccos c) * Real.cos (atan2 Y X) = X := by
    rw [hsin, mul_comm]; exact cos_atan2_mul Y X
  have hsinθ : Real.sin (atan2 Y X) * Real.sin (Real.arccos c) = Y := by
    rw [hsin]; exact sin_atan2_mul Y X
  have hpa := Real.sin_sq_add_cos_sq (toRadians p.lat)
  -- the latitude
  have hlat : Real.sin (toRadians p.lat) * Real.cos (Real.arccos c) +
      Real.cos (toRadians p.lat) * Real.sin (Real.arccos c) * Real.cos (atan2 Y X) =
      Real.sin (toRadians q.lat) := by
    rw [Real.cos_arccos hc1.1 hc1.2, mul_assoc, hcosθ, ← hc, ← hX]
    linear_combination Real.sin (toRadians q.lat) * hpa
  -- the longitude
  have hlonarg : atan2 (Real.sin (atan2 Y X) * Real.sin (Real.arccos c) *
        Real.cos (toRadians p.lat))
      (Real.cos (Real.arccos c) - Real.sin (toRadians p.lat) * Real.sin (toRadians q.lat)) =
      t := by
    rw [hsinθ, Real.cos_arccos hc1.1 hc1.2, ← hc, ← hY]
    have e1 : Real.sin t * Real.cos (toRadians q.lat) * Real.cos (toRadians p.lat) =
        (Real.cos (toRadians p.lat) * Real.cos (toRadians q.lat)) * Real.sin t := by ring
    have e2 : Real.sin (toRadians p.lat) * Real.sin (toRadians q.lat) +
        Real.cos (toRadians p.lat) * Real.cos (toRadians q.lat) * Real.cos t -
        Real.sin (toRadians p.lat) * Real.sin (toRadians q.lat) =
        (Real.cos (toRadians p.lat) * Real.cos (toRadians q.lat)) * Real.cos t := by ring
    rw [e1, e2]
    exact atan2_mul_sin_cos (mul_pos hca hcb) ht.1 ht.2
  unfold Point.project Point.distance Point.bearing Point.new
  simp only [hta, hc, hX, hY, hratio]
  rw [hlat, Real.arcsin_sin hb1.le hb2.le, toDegrees_toRadians]
  refine ⟨rfl, ?_⟩
  rw [hlonarg, ← hta]
  have e : toRadians p.lon + (toRadians q.lon - toRadians p.lon) = toRadians q.lon := by ring
  rw [e, toDegrees_toRadians]

/-- Witness of C10: from the point (0, 0) to the point (10, 20). -/
theorem project_bearing_distance_witness :
    ((Point.new 0 0).project ((Point.new 0 0).bearing (Point.new 10 20))
        ((Point.new 0 0).distance (Point.new 10 20))).lat = 10 ∧
      ((Point.new 0 0).project ((Point.new 0 0).bearing (Point.new 10 20))
        ((Point.new 0 0).distance (Point.new 10 20))).lon = 20 :=
  project_bearing_distance (Point.new 0 0) (Point.new 10 20) (by norm_num [Point.new])
    (by norm_num [Point.new]) (by norm_num [Point.new]) (by norm_num [Point.new])
    (by norm_num [Point.new, abs_lt])

/-- C11 fails on the code: `project` adds the angle returned by `atan2` to the longitude
and does not bring the sum back into `[-180, 180]`.  From the valid point (0, 179), at
bearing 1 rad and distance 500 km, the returned longitude is above 180 degrees. -/
theorem project_lon_out_of_range : 180 < ((Point.new 0 179).project 1 500).lon := by
  -- A lower bound on `atan2 y x` for a vector `(x, y)` of length at most 1 in the upper
  -- half plane: the angle is at least `y`.
  have le_atan2 : ∀ (y x : ℝ) (hy : 0 < y) (hlen : x ^ 2 + y ^ 2 ≤ 1),
      y ≤ atan2 y x := by
    intro y x hy hlen
    have h0 : 0 ≤ atan2 y x := by
      unfold atan2
      rw [Complex.arg_nonneg_iff]
      exact hy.le
    have hs := sin_atan2_mul y x
    have hsqrt0 : 0 ≤ Real.sqrt (x ^ 2 + y ^ 2) := Real.sqrt_nonneg _
    have hsqrt1 : Real.sqrt (x ^ 2 + y ^ 2) ≤ 1 := by
      rw [Real.sqrt_le_iff]
      exact ⟨zero_le_one, by linarith⟩
    have hsin : Real.sin (atan2 y x) ≤ atan2 y x := Real.sin_le h0
    have hsin0 : 0 ≤ Real.sin (atan2 y x) := by
      by_contra hneg
      have : Real.sin (atan2 y x) * Real.sqrt (x ^ 2 + y ^ 2) ≤ 0 :=
        mul_nonpos_of_nonpos_of_nonneg (not_le.1 hneg).le hsqrt0
      linarith
    nlinarith
  have hz : toRadians (Point.new 0 179).lat = 0 := by unfold toRadians Point.new; simp
  rw [project_lon, hz]
  simp only [Real.sin_zero, Real.cos_zero, zero_mul, mul_one, sub_zero, zero_add, one_mul]
  have hr0 : (0.078 : ℝ) ≤ 500 / RADIUS := by
    unfold RADIUS; norm_num
  have hr1 : 500 / RADIUS ≤ (0.0784 : ℝ) := by
    unfold RADIUS; norm_num
  have hsinr : (0.0778 : ℝ) ≤ Real.sin (500 / RADIUS) := by
    have h := Real.sin_gt_sub_cube (by linarith : (0 : ℝ) < 500 / RADIUS) (by linarith)
    have h3 : (500 / RADIUS) ^ 3 ≤ (0.0784 : ℝ) ^ 3 :=
      pow_le_pow_left₀ (by linarith) hr1 3
    norm_num at h3
    linarith
  have hsin1 : (0.75 : ℝ) ≤ Real.sin 1 := by
    have h := Real.sin_gt_sub_cube (by norm_num : (0 : ℝ) < 1) le_rfl
    norm_num at h
    linarith
  have hsinr1 : Real.sin (500 / RADIUS) ≤ 1 := Real.sin_le_one _
  have hsin11 : Real.sin 1 ≤ 1 := Real.sin_le_one _
  have hy : (0.058 : ℝ) ≤ Real.sin 1 * Real.sin (500 / RADIUS) := by nlinarith
  have hlen : Real.cos (500 / RADIUS) ^ 2 + (Real.sin 1 * Real.sin (500 / RADIUS)) ^ 2 ≤ 1 := by
    have h1 := Real.sin_sq_add_cos_sq (500 / RADIUS)
    have h2 : (Real.sin 1 * Real.sin (500 / RADIUS)) ^ 2 ≤ Real.sin (500 / RADIUS) ^ 2 := by
      rw [mul_pow]
      have : Real.sin 1 ^ 2 ≤ 1 := by nlinarith
      nlinarith [sq_nonneg (Real.sin (500 / RADIUS))]
    linarith
  have hθ := le_atan2 (Real.sin 1 * Real.sin (500 / RADIUS)) (Real.cos (500 / RADIUS))
    (by linarith) hlen
  have hdeg : 1 < toDegrees (atan2 (Real.sin 1 * Real.sin (500 / RADIUS))
      (Real.cos (500 / RADIUS))) := by
    unfold toDegrees PI
    rw [lt_div_iff₀ (by norm_num)]
    linarith
  have hlon : (Point.new 0 179).lon = 179 := rfl
  rw [hlon]
  linarith

/-- C14. For a line with `k ≥ 1` points `RegionLine::length` is the sum over
`i = 0 .. k-2` of `list[i].distance(list[i+1])` (the default point `d` of `getD` is never
used); it is 0 for a single point and `p.distance(q)` for the two-point line `(p, q)`. -/
theorem length_eq_sum (line : RegionLine) (d : Point) (hk : 1 ≤ line.list.length) :
    line.length = some (∑ i in Finset.range (line.list.length - 1),
        (line.list.getD i d).distance (line.list.getD (i + 1) d)) ∧
      (∀ p : Point, (RegionLine.mk [p]).length = some 0) ∧
      (∀ p q : Point, (RegionLine.ofPoints p q).length = some (p.distance q)) := by
  refine ⟨?_, fun p => rfl, fun p q => ?_⟩
  · obtain ⟨list⟩ := line
    cases list with
    | nil => simp at hk
    | cons first rest =>
      simp only [RegionLine.length, List.length_cons, Nat.add_sub_cancel]
      rw [lengthLoop_eq_sum d rest first 0, zero_add]
  · simp [RegionLine.ofPoints, RegionLine.length, RegionLine.lengthLoop]

/-- Witness of C14: a line of three vertices. -/
theorem length_eq_sum_witness :
    (RegionLine.mk [Point.new 0 0, Point.new 1 1, Point.new 1 2]).length =
      some (∑ i in Finset.range
          ((RegionLine.mk [Point.new 0 0, Point.new 1 1, Point.new 1 2]).list.length - 1),
        ((RegionLine.mk [Point.new 0 0, Point.new 1 1, Point.new 1 2]).list.getD i
            (Point.new 0 0)).distance
          ((RegionLine.mk [Point.new 0 0, Point.new 1 1, Point.new 1 2]).list.getD (i + 1)
            (Point.new 0 0))) :=
  (length_eq_sum _ (Point.new 0 0) (by simp)).1

/-- C15. With a positive degree step (and enough fuel for the rows and columns) every
point that `RegionArea::discrete` emits satisfies `contains`; this needs no order between
the corners, an area with `bottomLeft` beyond `topRight` emits nothing. -/
theorem area_discrete_contained (area : RegionArea) (resolution : ℝ) (fuel : ℕ)
    (hdeg : 0 < area.degRes resolution)
    (hfuel1 : ⌈(area.topRight.lat - area.bottomLeft.lat) / area.degRes resolution⌉₊ < fuel)
    (hfuel2 : ⌈(area.topRight.lon - area.bottomLeft.lon) / area.degRes resolution⌉₊ < fuel) :
    ∃ path : List Point, area.discrete fuel resolution = some path ∧
      ∀ pt ∈ path, area.contains pt = true := by
  refine ⟨_, area_discrete_eq area resolution fuel hdeg hfuel1 hfuel2, ?_⟩
  intro pt hpt
  obtain ⟨i, hi, hpt⟩ := List.mem_flatMap.1 hpt
  obtain ⟨j, hj, rfl⟩ := List.mem_map.1 hpt
  have hi' := (steps_below area.bottomLeft.lat area.topRight.lat _ hdeg).1 i (List.mem_range.1 hi)
  have hj' := (steps_below area.bottomLeft.lon area.topRight.lon _ hdeg).1 j (List.mem_range.1 hj)
  have hi0 : 0 ≤ (i : ℝ) * area.degRes resolution := by positivity
  have hj0 : 0 ≤ (j : ℝ) * area.degRes resolution := by positivity
  unfold RegionArea.contains
  simp only [Point.new, decide_eq_true_eq]
  exact ⟨hi'.le, by linarith, hj'.le, by linarith⟩

/-- Witness of C15: the area from (0, 0) to (2, 3) with a step of one degree. -/
theorem area_discrete_contained_witness :
    ∃ path : List Point,
      (RegionArea.ofCorners (Point.new 0 0) (Point.new 2 3)).discrete 5
        (RADIUS * (PI / 180)) = some path ∧
      ∀ pt ∈ path, (RegionArea.ofCorners (Point.new 0 0) (Point.new 2 3)).contains pt = true :=
  area_discrete_contained _ _ 5 (by rw [degRes_example]; norm_num)
    (by rw [fuel_example.1]; norm_num) (by rw [fuel_example.2]; norm_num)

/-- C16. For an area with `bottomLeft < topRight` in both coordinates and a positive
degree step `degRes`, `RegionArea::discrete` (with enough fuel) emits exactly the points
`(bottomLeft.lat + i * degRes, bottomLeft.lon + j * degRes)` for
`i < ⌈span_lat / degRes⌉` and `j < ⌈span_lon / degRes⌉`, the latitude in the outer and
the longitude in the inner loop, so `⌈span_lat / degRes⌉ * ⌈span_lon / degRes⌉` points. -/
theorem area_discrete_grid (area : RegionArea) (resolution : ℝ) (fuel : ℕ)
    (_hlat : area.bottomLeft.lat < area.topRight.lat)
    (_hlon : area.bottomLeft.lon < area.topRight.lon)
    (hdeg : 0 < area.degRes resolution)
    (hfuel1 : ⌈(area.topRight.lat - area.bottomLeft.lat) / area.degRes resolution⌉₊ < fuel)
    (hfuel2 : ⌈(area.topRight.lon - area.bottomLeft.lon) / area.degRes resolution⌉₊ < fuel) :
    ∃ path : List Point, area.discrete fuel resolution = some path ∧
      path = (List.range
          ⌈(area.topRight.lat - area.bottomLeft.lat) / area.degRes resolution⌉₊).flatMap
        (fun i : ℕ => (List.range
            ⌈(area.topRight.lon - area.bottomLeft.lon) / area.degRes resolution⌉₊).map
          (fun j : ℕ => Point.new (area.bottomLeft.lat + (i : ℝ) * area.degRes resolution)
            (area.bottomLeft.lon + (j : ℝ) * area.degRes resolution))) ∧
      path.length =
        ⌈(area.topRight.lat - area.bottomLeft.lat) / area.degRes resolution⌉₊ *
          ⌈(area.topRight.lon - area.bottomLeft.lon) / area.degRes resolution⌉₊ := by
  -- A grid of rows that all have `b` points has as many points as rows times `b`.
  have length_grid : ∀ (g : ℕ → ℕ → Point) (b : ℕ),
      ∀ l : List ℕ,
      (l.flatMap (fun i : ℕ => (List.range b).map (g i))).length = l.length * b := by
    intro g b
    intro l
    induction l with
    | nil => simp
    | cons i l ih =>
      rw [List.flatMap_cons, List.length_append, ih, List.length_map, List.length_range,
        List.length_cons]
      ring
  refine ⟨_, area_discrete_eq area resolution fuel hdeg hfuel1 hfuel2, rfl, ?_⟩
  rw [length_grid, List.length_range]

/-- Witness of C16: the area from (0, 0) to (2, 3) with a step of one degree has 2 rows
of 3 points. -/
theorem area_discrete_grid_witness :
    ∃ path : List Point,
      (RegionArea.ofCorners (Point.new 0 0) (Point.new 2 3)).discrete 5
        (RADIUS * (PI / 180)) = some path ∧ path.length = 6 := by
  obtain ⟨path, h1, _, h3⟩ := area_discrete_grid
    (RegionArea.ofCorners (Point.new 0 0) (Point.new 2 3)) (RADIUS * (PI / 180)) 5
    (by simp [RegionArea.ofCorners, Point.new]) (by simp [RegionArea.ofCorners, Point.new])
    (by rw [degRes_example]; norm_num)
    (by rw [fuel_example.1]; norm_num) (by rw [fuel_example.2]; norm_num)
  rw [fuel_example.1, fuel_example.2] at h3
  exact ⟨path, h1, h3⟩

/-- C17. `RegionArea::contains(p)` is true exactly when
`bottomLeft.lat ≤ p.lat ≤ topRight.lat` and `bottomLeft.lon ≤ p.lon ≤ topRight.lon`; the
bounds are inclusive, so the two corners of an area with ordered corners are contained. -/
theorem area_contains_iff (area : RegionArea) (p : Point) :
    (area.contains p = true ↔
      (area.bottomLeft.lat ≤ p.lat ∧ p.lat ≤ area.topRight.lat) ∧
        (area.bottomLeft.lon ≤ p.lon ∧ p.lon ≤ area.topRight.lon)) ∧
      (area.bottomLeft.lat ≤ area.topRight.lat → area.bottomLeft.lon ≤ area.topRight.lon →
        area.contains area.bottomLeft = true ∧ area.contains area.topRight = true) := by
  unfold RegionArea.contains
  simp only [decide_eq_true_eq]
  refine ⟨⟨?_, ?_⟩, ?_⟩
  · rintro ⟨h1, h2, h3, h4⟩; exact ⟨⟨h2, h1⟩, ⟨h4, h3⟩⟩
  · rintro ⟨⟨h2, h1⟩, ⟨h4, h3⟩⟩; exact ⟨h1, h2, h3, h4⟩
  · intro hlat hlon
    exact ⟨⟨hlat, le_rfl, hlon, le_rfl⟩, ⟨le_rfl, hlat, le_rfl, hlon⟩⟩

/-- C18. For every area, the empty one included, and every point `p`: after
`area.add(p)` the area contains `p`, hence its corners are ordered in both coordinates. -/
theorem area_add_contains (area : RegionArea) (p : Point) :
    (area.add p).contains p = true ∧
      (area.add p).bottomLeft.lat ≤ (area.add p).topRight.lat ∧
      (area.add p).bottomLeft.lon ≤ (area.add p).topRight.lon := by
  unfold RegionArea.contains RegionArea.add
  simp only [decide_eq_true_eq]
  refine ⟨⟨le_max_right _ _, min_le_right _ _, le_max_right _ _, min_le_right _ _⟩, ?_, ?_⟩
  · exact le_trans (min_le_right _ _) (le_max_right _ _)
  · exact le_trans (min_le_right _ _) (le_max_right _ _)

/-- C19 fails on the code: the empty area starts with the top-right sentinel latitude 0
(not -1024), so after adding the single valid point (-10, 20) the top-right latitude is
0, not the maximum latitude -10 of the added points; the three other coordinates of the
corners are the extremes of the point. -/
theorem area_add_south :
    ([Point.new (-10) 20].foldl RegionArea.add RegionArea.new).topRight.lat = 0 ∧
      ([Point.new (-10) 20].foldl RegionArea.add RegionArea.new).topRight.lon = 20 ∧
      ([Point.new (-10) 20].foldl RegionArea.add RegionArea.new).bottomLeft.lat = -10 ∧
      ([Point.new (-10) 20].foldl RegionArea.add RegionArea.new).bottomLeft.lon = 20 := by
  simp only [List.foldl_cons, List.foldl_nil, RegionArea.add, RegionArea.new, Point.new]
  norm_num

/-- C20. `Source::contains(p)` is true exactly when the converted coordinates `(x, y)` of
`p` satisfy `left < x < right` and `bottom < y < top`; a point on an edge of the
rectangle is not contained. -/
theorem gridSource_contains_iff (src : GridSource) (p : Point) :
    (src.contains p = true ↔
      (src.left < (src.convert.convert p).1 ∧ (src.convert.convert p).1 < src.right) ∧
        (src.bottom < (src.convert.convert p).2 ∧ (src.convert.convert p).2 < src.top)) ∧
      ((src.convert.convert p).1 = src.left ∨ (src.convert.convert p).1 = src.right ∨
          (src.convert.convert p).2 = src.bottom ∨ (src.convert.convert p).2 = src.top →
        src.contains p = false) := by
  unfold GridSource.contains
  simp only [decide_eq_true_eq, decide_eq_false_iff_not, gt_iff_lt]
  refine ⟨by tauto, ?_⟩
  rintro (h | h | h | h) ⟨h1, h2, h3, h4⟩
  · exact absurd h1 (by rw [h]; exact lt_irrefl _)
  · exact absurd h2 (by rw [h]; exact lt_irrefl _)
  · exact absurd h3 (by rw [h]; exact lt_irrefl _)
  · exact absurd h4 (by rw [h]; exact lt_irrefl _)

/-- C21 fails on the code: the clamps of `resolve` are
`nrows - max(0, min(row, nrows)) - 1` and `max(0, min(col, ncols))`, which let the row be
-1 and the column be `ncols`.  In a tile of two rows and two columns of one degree from
(0, 0) to (2, 2), the point at latitude 0.5 and longitude 5 gets column 2 and offset 4, and
the point at latitude 2 and longitude 0.5 gets row -1 and offset -2; the claim has
`0 ≤ row ≤ 1`, `0 ≤ col ≤ 1` and an offset in `[0, 4)`. -/
theorem grid_clamp_off_by_one :
    (1 ≤ (landTile TYPE_LAND 0 0 0 0).nrows ∧ 1 ≤ (landTile TYPE_LAND 0 0 0 0).ncols ∧
        0 < (landTile TYPE_LAND 0 0 0 0).cellsize) ∧
      (landTile TYPE_LAND 0 0 0 0).toGridSource.col (Point.new 0.5 5) = 2 ∧
      (landTile TYPE_LAND 0 0 0 0).toGridSource.offset (Point.new 0.5 5) = 4 ∧
      (landTile TYPE_LAND 0 0 0 0).toGridSource.row (Point.new 2 0.5) = -1 ∧
      (landTile TYPE_LAND 0 0 0 0).toGridSource.offset (Point.new 2 0.5) = -2 := by
  -- The conversion `(int)5.0` is 5.
  have castInt_five :
      castInt (5 : ℝ) = 5 :=
    castInt_eq _ 5 (by norm_num) (by norm_num) (by norm_num)
  -- The conversion `(int)2.0` is 2.
  have castInt_two :
      castInt (2 : ℝ) = 2 :=
    castInt_eq _ 2 (by norm_num) (by norm_num) (by norm_num)
  refine ⟨⟨by simp [landTile, SourceInteger.new], by simp [landTile, SourceInteger.new],
    by simp [landTile, SourceInteger.new]⟩, ?_, ?_, ?_, ?_⟩
  · rw [(landTile_row_col _ _ _ _ _ _).2]
    simp only [Point.new, castInt_five]
    decide
  · unfold GridSource.offset
    rw [(landTile_row_col _ _ _ _ _ _).1, (landTile_row_col _ _ _ _ _ _).2]
    simp only [Point.new, castInt_five, castInt_half, landTile, SourceInteger.new]
    decide
  · rw [(landTile_row_col _ _ _ _ _ _).1]
    simp only [Point.new, castInt_two]
    decide
  · unfold GridSource.offset
    rw [(landTile_row_col _ _ _ _ _ _).1, (landTile_row_col _ _ _ _ _ _).2]
    simp only [Point.new, castInt_two, castInt_half, landTile, SourceInteger.new]
    decide

/-- C22 fails on the code: `SourceGridFloat::resolve` does not test the coverage
rectangle.  The one-cell elevation tile from (0, 0) to (1, 1) holding 100 does not contain
the point at latitude 0.5 and longitude -3, and yet `resolve` changes the elevation of this
point from -1 to 100. -/
theorem grid_resolve_outside_changes :
    (floatTile TYPE_ELEV 0x00 0x00 0xC8 0x42).toGridSource.contains (Point.new 0.5 (-3)) =
        false ∧
      ((floatTile TYPE_ELEV 0x00 0x00 0xC8 0x42).resolve (Point.new 0.5 (-3))).elev = 100 ∧
      (Point.new 0.5 (-3)).elev = -1 := by
  refine ⟨?_, ?_, rfl⟩
  · rw [floatTile_contains]
    simp only [Point.new, decide_eq_false_iff_not]
    norm_num
  · rw [floatTile_resolve _ _ _ _ _ (by simp only [Point.new]; norm_num)
      (by simp only [Point.new]; norm_num) (by simp only [Point.new]; norm_num), ieee_single_100]

/-- C23. For a group none of whose members changes what a member contains (so for every
group of grid sources, see `grids_stable`), `SourceGroup::resolve` applied to `p` is the
result of applying, in list order, `resolve` of exactly the members that contain `p`; if no
member contains `p` the point is unchanged, and so it is for the empty group. -/
theorem group_resolve_members (group : SourceGroup) (p : Point)
    (hstable : ∀ a ∈ group.list, ∀ b ∈ group.list, ∀ pt : Point,
      b.contains (a.resolve pt) = b.contains pt) :
    group.resolve p =
        (group.list.filter (fun it => it.contains p)).foldl (fun pt it => it.resolve pt) p ∧
      ((∀ it ∈ group.list, it.contains p = false) → group.resolve p = p) ∧
      emptyGroup.resolve p = p := by
  -- The loop of `SourceGroup::resolve` leaves a point unchanged that no member contains.
  have foldl_resolve_none : ∀ (l : List Source) (p : Point) (h : ∀ it ∈ l, it.contains p = false),
      l.foldl (fun pt it => if it.contains pt then it.resolve pt else pt) p = p := by
    intro l p h
    induction l with
    | nil => rfl
    | cons a l ih =>
      rw [List.foldl_cons, h a (List.mem_cons_self _ _)]
      exact ih (fun it hit => h it (List.mem_cons_of_mem _ hit))
  -- The loop of `SourceGroup::resolve` started at `q` runs the members that contain `p`,
  -- when no member changes what any member contains and `q` is contained as `p` is.
  have foldl_resolve_filter : ∀ (l : List Source)
      (hstable : ∀ a ∈ l, ∀ b ∈ l, ∀ pt : Point, b.contains (a.resolve pt) = b.contains pt)
      (p q : Point) (hq : ∀ b ∈ l, b.contains q = b.contains p),
      l.foldl (fun pt it => if it.contains pt then it.resolve pt else pt) q =
        (l.filter (fun it => it.contains p)).foldl (fun pt it => it.resolve pt) q := by
    intro l hstable p q hq
    induction l generalizing q with
    | nil => rfl
    | cons a l ih =>
      have hst : ∀ x ∈ l, ∀ b ∈ l, ∀ pt : Point, b.contains (x.resolve pt) = b.contains pt :=
        fun x hx b hb pt => hstable x (List.mem_cons_of_mem _ hx) b (List.mem_cons_of_mem _ hb) pt
      have ha : a.contains q = a.contains p := hq a (List.mem_cons_self _ _)
      rw [List.foldl_cons, ha]
      by_cases hc : a.contains p = true
      · rw [if_pos hc, List.filter_cons, if_pos hc, List.foldl_cons]
        apply ih hst
        intro b hb
        rw [hstable a (List.mem_cons_self _ _) b (List.mem_cons_of_mem _ hb) q]
        exact hq b (List.mem_cons_of_mem _ hb)
      · rw [if_neg hc, List.filter_cons, if_neg hc]
        exact ih hst q (fun b hb => hq b (List.mem_cons_of_mem _ hb))
  exact ⟨foldl_resolve_filter group.list hstable p p (fun _ _ => rfl),
      fun h => foldl_resolve_none group.list p h, rfl⟩

/-- Witness of C23: an elevation tile and a land-use tile, resolved at (0.5, 0.5). -/
theorem group_resolve_members_witness :
    (SourceGroup.mk ([Grid.float (floatTile TYPE_ELEV 0x00 0x00 0xC8 0x42),
        Grid.integer (landTile TYPE_LAND 41 0 0 0)].map Grid.toSource)).resolve
          (Point.new 0.5 0.5) =
      (([Grid.float (floatTile TYPE_ELEV 0x00 0x00 0xC8 0x42),
        Grid.integer (landTile TYPE_LAND 41 0 0 0)].map Grid.toSource).filter
          (fun it => it.contains (Point.new 0.5 0.5))).foldl (fun pt it => it.resolve pt)
            (Point.new 0.5 0.5) := by
  -- The converters of the two example tiles read only the position.
  have tiles_positional :
      ∀ g ∈ [Grid.float (floatTile TYPE_ELEV 0x00 0x00 0xC8 0x42), Grid.integer (landTile TYPE_LAND 41 0 0 0)],
        g.toGridSource.convert.positional := by
    intro g hg
    simp only [List.mem_cons, List.mem_singleton, List.not_mem_nil, or_false] at hg
    rcases hg with rfl | rfl <;> exact identity_positional
  exact (group_resolve_members
      (SourceGroup.mk ([Grid.float (floatTile TYPE_ELEV 0x00 0x00 0xC8 0x42),
          Grid.integer (landTile TYPE_LAND 41 0 0 0)].map Grid.toSource))
      (Point.new 0.5 0.5) (grids_stable _ tiles_positional)).1

/-- Counterexample to C24: two elevation tiles cover the point (0.5, 0.5), one
holding 100 and one holding 200; the group resolves the elevation to the value of the last
member, 200 in one order and 100 in the other. -/
theorem group_resolve_order_dependent :
    ((SourceGroup.mk ([Grid.float (floatTile TYPE_ELEV 0x00 0x00 0xC8 0x42),
        Grid.float (floatTile TYPE_ELEV 0x00 0x00 0x48 0x43)].map Grid.toSource)).resolve
          (Point.new 0.5 0.5)).elev = 200 ∧
      ((SourceGroup.mk ([Grid.float (floatTile TYPE_ELEV 0x00 0x00 0x48 0x43),
        Grid.float (floatTile TYPE_ELEV 0x00 0x00 0xC8 0x42)].map Grid.toSource)).resolve
          (Point.new 0.5 0.5)).elev = 100 := by
  -- One step of the loop of `SourceGroup::resolve` with a one-cell elevation tile, at a
  -- point in the middle of the tile.
  have floatTile_gated : ∀ (b0 b1 b2 b3 : ℕ) (q : Point) (h1 : q.lat = 0.5) (h2 : q.lon = 0.5),
      (if (Grid.float (floatTile TYPE_ELEV b0 b1 b2 b3)).toSource.contains q = true then
          (Grid.float (floatTile TYPE_ELEV b0 b1 b2 b3)).toSource.resolve q else q) =
        { q with elev := ieee_single b0 b1 b2 b3 } := by
    intro b0 b1 b2 b3 q h1 h2
    have hc : (Grid.float (floatTile TYPE_ELEV b0 b1 b2 b3)).toSource.contains q = true := by
      show (floatTile TYPE_ELEV b0 b1 b2 b3).toGridSource.contains q = true
      rw [floatTile_contains, h1, h2]
      simp only [decide_eq_true_eq]
      norm_num
    rw [if_pos hc]
    show (floatTile TYPE_ELEV b0 b1 b2 b3).resolve q = _
    exact floatTile_resolve b0 b1 b2 b3 q (by rw [h1]; norm_num) (by rw [h1]; norm_num)
      (by rw [h2]; norm_num)
  -- The file bytes 00 00 48 43 decode to 200.
  have ieee_single_200 :
      ieee_single 0x00 0x00 0x48 0x43 = 200 := by
    rw [ieee_single_eq 0x00 0x00 0x48 0x43 (by norm_num) (by norm_num) (by norm_num) (by norm_num)
      0x43480000 0 134 0x480000 (by norm_num) (by norm_num) (by norm_num) (by norm_num)
      (by norm_num)]
    norm_num
  unfold SourceGroup.resolve
  simp only [List.map, List.foldl]
  constructor
  · rw [floatTile_gated 0x00 0x00 0xC8 0x42 (Point.new 0.5 0.5) rfl rfl,
      floatTile_gated _ _ _ _ _ rfl rfl, ieee_single_200]
  · rw [floatTile_gated 0x00 0x00 0x48 0x43 (Point.new 0.5 0.5) rfl rfl,
      floatTile_gated _ _ _ _ _ rfl rfl, ieee_single_100]

/-- C24, amended. For every list of grid sources in which no two members of the same type
both contain the point, and whose converters read only the latitude and the longitude, and
every point, `SourceGroup::resolve` gives the same point for every permutation of the
member list. -/
theorem group_resolve_perm (l l' : List Grid) (p : Point) (hperm : l.Perm l')
    (hpair : l.Pairwise (fun a b => a.toGridSource.type ≠ b.toGridSource.type ∨
      ¬(a.toGridSource.contains p = true ∧ b.toGridSource.contains p = true)))
    (hpos : ∀ g ∈ l, g.toGridSource.convert.positional) :
    (SourceGroup.mk (l.map Grid.toSource)).resolve p =
      (SourceGroup.mk (l'.map Grid.toSource)).resolve p := by
  -- In the loop of `SourceGroup::resolve` over grid sources whose converters read only the
  -- position, the test `contains` may be taken at the point the loop started from: no member
  -- moves the point.
  have foldl_contains_fixed : ∀ (l : List Grid)
      (hpos : ∀ g ∈ l, g.toGridSource.convert.positional) (p q : Point) (h1 : q.lat = p.lat)
      (h2 : q.lon = p.lon),
      l.foldl (fun pt g => if g.toSource.contains pt then g.toSource.resolve pt else pt) q =
        l.foldl (fun pt g => if g.toGridSource.contains p then g.resolve pt else pt) q := by
    intro l hpos p q h1 h2
    induction l generalizing q with
    | nil => rfl
    | cons g rest ih =>
      have hrest : ∀ x ∈ rest, x.toGridSource.convert.positional :=
        fun x hx => hpos x (List.mem_cons_of_mem _ hx)
      have hc : g.toGridSource.contains q = g.toGridSource.contains p := by
        have e := hpos g (List.mem_cons_self _ _) q p h1 h2
        simp only [GridSource.contains, e]
      simp only [List.foldl_cons, (grid_toSource g).1, (grid_toSource g).2, hc]
      by_cases hg : g.toGridSource.contains p = true
      · rw [if_pos hg]
        obtain ⟨e1, e2, _⟩ := grid_resolve_position g q
        exact ih hrest (g.resolve q) (by rw [e1, h1]) (by rw [e2, h2])
      · rw [if_neg hg]
        exact ih hrest q h1 h2
  have hpos' : ∀ g ∈ l', g.toGridSource.convert.positional :=
    fun g hg => hpos g (hperm.mem_iff.2 hg)
  unfold SourceGroup.resolve
  simp only [List.foldl_map]
  rw [foldl_contains_fixed l hpos p p rfl rfl, foldl_contains_fixed l' hpos' p p rfl rfl]
  apply List.Perm.foldl_eq' hperm
  intro x hx y hy z
  by_cases hxy : x = y
  · subst hxy
    rfl
  · have hsymm : Symmetric (fun a b : Grid =>
        a.toGridSource.type ≠ b.toGridSource.type ∨
          ¬(a.toGridSource.contains p = true ∧ b.toGridSource.contains p = true)) :=
      fun a b hab => hab.imp Ne.symm (fun hn hc => hn ⟨hc.2, hc.1⟩)
    have hR := List.Pairwise.forall hsymm hpair hx hy hxy
    by_cases h1 : x.toGridSource.contains p = true
    · by_cases h2 : y.toGridSource.contains p = true
      · simp only [if_pos h1, if_pos h2]
        rcases hR with hne | hnot
        · exact (grid_resolve_comm x y (hpos x hx) (hpos y hy) hne z).symm
        · exact absurd ⟨h1, h2⟩ hnot
      · simp only [if_pos h1, if_neg h2]
    · by_cases h2 : y.toGridSource.contains p = true
      · simp only [if_neg h1, if_pos h2]
      · simp only [if_neg h1, if_neg h2]

/-- Witness of C24, amended: two elevation tiles side by side, of which only the first
contains the point (0.5, 0.5), and a land-use tile, in two orders. -/
theorem group_resolve_perm_witness :
    (SourceGroup.mk ([Grid.float (floatTile TYPE_ELEV 0x00 0x00 0xC8 0x42),
        Grid.float (SourceGridFloat.new Convert.identity TYPE_ELEV 1 1 1 0 1
          (fileOf [0x00, 0x00, 0x48, 0x43])),
        Grid.integer (landTile TYPE_LAND 41 0 0 0)].map Grid.toSource)).resolve
          (Point.new 0.5 0.5) =
      (SourceGroup.mk ([Grid.integer (landTile TYPE_LAND 41 0 0 0),
        Grid.float (SourceGridFloat.new Convert.identity TYPE_ELEV 1 1 1 0 1
          (fileOf [0x00, 0x00, 0x48, 0x43])),
        Grid.float (floatTile TYPE_ELEV 0x00 0x00 0xC8 0x42)].map Grid.toSource)).resolve
          (Point.new 0.5 0.5) :=
  group_resolve_perm _ _ _
    ((List.Perm.swap _ _ _).trans ((List.Perm.cons _ (List.Perm.swap _ _ _)).trans
      (List.Perm.swap _ _ _)))
    (by
      simp only [List.pairwise_cons, List.mem_cons, List.mem_singleton, List.not_mem_nil,
        forall_eq_or_imp, forall_eq, IsEmpty.forall_iff, implies_true, List.Pairwise.nil,
        and_true]
      refine ⟨⟨Or.inr ?_, Or.inl ?_⟩, Or.inl ?_⟩
      · simp only [Grid.toGridSource, SourceGridFloat.new, GridSource.contains, Convert.identity,
          Point.new, decide_eq_true_eq]
        norm_num
      · simp [Grid.toGridSource, floatTile, landTile, SourceGridFloat.new, SourceInteger.new,
          TYPE_ELEV, TYPE_LAND]
      · simp [Grid.toGridSource, landTile, SourceGridFloat.new, SourceInteger.new,
          TYPE_ELEV, TYPE_LAND])
    (by
      intro g hg
      simp only [List.mem_cons, List.mem_singleton, List.not_mem_nil, or_false] at hg
      rcases hg with rfl | rfl | rfl <;> exact identity_positional)

/-- C25. For four bytes `b0 b1 b2 b3` in file order whose exponent field is not 255,
`ieee_single` returns the value of the IEEE-754 single with the bit pattern `b3 b2 b1 b0`:
`(-1)^s * (2^23 + f) * 2^(e - 150)` for `1 ≤ e ≤ 254` and `(-1)^s * f * 2^(-149)` for
`e = 0`.  The file bytes 00 00 7C 42 decode to 63, and both zeros decode to 0. -/
theorem ieee_single_decodes (b0 b1 b2 b3 : ℕ) (h0 : b0 < 256) (h1 : b1 < 256) (h2 : b2 < 256)
    (h3 : b3 < 256) (hne : bitPattern b0 b1 b2 b3 / 2 ^ 23 % 2 ^ 8 ≠ 255) :
    ieee_single b0 b1 b2 b3 = ieeeValue (bitPattern b0 b1 b2 b3) ∧
      ieee_single 0x00 0x00 0x7C 0x42 = 63 ∧
      ieee_single 0x00 0x00 0x00 0x00 = 0 ∧ ieee_single 0x00 0x00 0x00 0x80 = 0 := by
  -- Both zeros decode to 0.
  have ieee_single_zeros :
      ieee_single 0 0 0 0 = 0 ∧ ieee_single 0 0 0 0x80 = 0 := by
    constructor
    · rw [ieee_single_eq 0 0 0 0 (by norm_num) (by norm_num) (by norm_num) (by norm_num)
        0 0 0 0 (by norm_num) (by norm_num) (by norm_num) (by norm_num) (by norm_num)]
      norm_num
    · rw [ieee_single_eq 0 0 0 0x80 (by norm_num) (by norm_num) (by norm_num) (by norm_num)
        0x80000000 1 0 0 (by norm_num) (by norm_num) (by norm_num) (by norm_num) (by norm_num)]
      norm_num
  -- The file bytes 00 00 7C 42 decode to 63.
  have ieee_single_example :
      ieee_single 0x00 0x00 0x7C 0x42 = 63 := by
    rw [ieee_single_eq 0x00 0x00 0x7C 0x42 (by norm_num) (by norm_num) (by norm_num) (by norm_num)
      0x427C0000 0 132 0x7C0000 (by norm_num) (by norm_num) (by norm_num) (by norm_num)
      (by norm_num)]
    norm_num
  -- On four bytes with an exponent field other than 255, `ieee_single` is the value of the
  -- reversed bit pattern.
  have ieee_single_value : ∀ (b0 b1 b2 b3 : ℕ) (h0 : b0 < 256) (h1 : b1 < 256) (h2 : b2 < 256)
      (h3 : b3 < 256) (hne : bitPattern b0 b1 b2 b3 / 2 ^ 23 % 2 ^ 8 ≠ 255),
      ieee_single b0 b1 b2 b3 = ieeeValue (bitPattern b0 b1 b2 b3) := by
    intro b0 b1 b2 b3 h0 h1 h2 h3 hne
    have hlt : bitPattern b0 b1 b2 b3 < 2 ^ 32 := by unfold bitPattern; omega
    have hs : bitPattern b0 b1 b2 b3 / 2 ^ 31 % 2 = bitPattern b0 b1 b2 b3 / 2 ^ 31 := by
      apply Nat.mod_eq_of_lt
      omega
    rw [ieee_single_eq b0 b1 b2 b3 h0 h1 h2 h3 (bitPattern b0 b1 b2 b3)
      (bitPattern b0 b1 b2 b3 / 2 ^ 31) (bitPattern b0 b1 b2 b3 / 2 ^ 23 % 2 ^ 8)
      (bitPattern b0 b1 b2 b3 % 2 ^ 23) rfl rfl rfl rfl hne]
    unfold ieeeValue
    simp only [hs]
  exact ⟨ieee_single_value b0 b1 b2 b3 h0 h1 h2 h3 hne, ieee_single_example, ieee_single_zeros.1,
      ieee_single_zeros.2⟩

/-- Witness of C25: the file bytes 00 00 C8 42. -/
theorem ieee_single_decodes_witness :
    ieee_single 0x00 0x00 0xC8 0x42 = ieeeValue (bitPattern 0x00 0x00 0xC8 0x42) :=
  (ieee_single_decodes 0x00 0x00 0xC8 0x42 (by norm_num) (by norm_num) (by norm_num)
    (by norm_num) (by norm_num [bitPattern])).1

/-- C26. For a land-use source, `resolve` sets `landType` to the class of the code of the
cell: forest for 41, 42, 43, 90, 91, 93, residential for 22, commercial for 23 and 24, none
for every other code; so `landType` is then one of none, forest, residential and
commercial. -/
theorem land_resolve_table (src : SourceInteger) (p : Point) (htype : src.type = TYPE_LAND) :
    (src.resolve p).landType = landClassOf (src.value (src.toGridSource.offset p)) ∧
      ((src.resolve p).landType = LAND_NONE ∨ (src.resolve p).landType = LAND_FOREST ∨
        (src.resolve p).landType = LAND_RESIDENTIAL ∨
        (src.resolve p).landType = LAND_COMMERCIAL) := by
  have h : (src.resolve p).landType = landClassOf (src.value (src.toGridSource.offset p)) := by
    rw [integer_resolve_eq, if_pos htype]
  refine ⟨h, ?_⟩
  rw [h]
  unfold landClassOf
  split_ifs <;> simp

/-- Witness of C26: the cell with code 41 is forest. -/
theorem land_resolve_table_witness :
    ((landTile TYPE_LAND 41 22 23 0).resolve (Point.new 1.5 0.5)).landType = LAND_FOREST := by
  -- The cell that a tile of two rows and two columns reads at the point (1.5, 0.5): the
  -- first byte of its file.
  have landTile_cell : ∀ (type : ℤ) (c0 c1 c2 c3 : ℕ) (h : c0 < 128),
      (landTile type c0 c1 c2 c3).value
          ((landTile type c0 c1 c2 c3).toGridSource.offset (Point.new 1.5 0.5)) = c0 := by
    intro type c0 c1 c2 c3 h
    -- The conversion `(int)1.5` is 1.
    have castInt_one_half :
        castInt (1.5 : ℝ) = 1 :=
      castInt_eq _ 1 (by norm_num) (by norm_num) (by norm_num)
    have e : (landTile type c0 c1 c2 c3).toGridSource.offset (Point.new 1.5 0.5) = 0 := by
      unfold GridSource.offset
      rw [(landTile_row_col _ _ _ _ _ _).1, (landTile_row_col _ _ _ _ _ _).2]
      simp only [Point.new, castInt_one_half, castInt_half, landTile, SourceInteger.new]
      decide
    rw [e]
    have h2 : c0 % 256 = c0 := Nat.mod_eq_of_lt (by omega)
    simp [landTile, SourceInteger.value, SourceInteger.new, fileOf, charToInt, h2, h]
  rw [(land_resolve_table (landTile TYPE_LAND 41 22 23 0) (Point.new 1.5 0.5) rfl).1,
    landTile_cell _ _ _ _ _ (by norm_num)]
  rfl

/-- C27. For a vegetation-type source and the code `c` of the cell, `resolve` sets
`vegType` to `c`, and `vegCover` to `10 * (c mod 10) + 5` if `c` is in 101..109, 111..119 or
121..129 and leaves it unchanged otherwise; the covers are exactly the nine values
15, 25, ..., 95. -/
theorem vegtype_resolve_table (src : SourceGridFloat) (p : Point)
    (htype : src.type = TYPE_VEGTYPE) :
    (src.resolve p).vegType = castInt (src.value (src.toGridSource.offset p)) ∧
      (src.resolve p).vegCover =
        (vegCoverOf (castInt (src.value (src.toGridSource.offset p)))).getD p.vegCover ∧
      ∀ v : ℤ, (∃ code : ℤ, vegCoverOf code = some v) ↔
        v ∈ [15, 25, 35, 45, 55, 65, 75, 85, 95] := by
  -- The covers of the table are exactly the nine values 15, 25, ..., 95.
  have vegCoverOf_range : ∀ (v : ℤ),
      (∃ code : ℤ, vegCoverOf code = some v) ↔ v ∈ [15, 25, 35, 45, 55, 65, 75, 85, 95] := by
    intro v
    simp only [List.mem_cons, List.mem_singleton, List.not_mem_nil, or_false]
    constructor
    · rintro ⟨code, h⟩
      unfold vegCoverOf at h
      split_ifs at h with hc
      simp only [Option.some.injEq] at h
      omega
    · intro h
      refine ⟨100 + (v - 5) / 10, ?_⟩
      unfold vegCoverOf
      rw [if_pos (by omega)]
      simp only [Option.some.injEq]
      omega
  have hne : ¬src.type = TYPE_ELEV := by rw [htype]; decide
  refine ⟨?_, ?_, vegCoverOf_range⟩
  · rw [float_resolve_eq, if_neg hne, if_pos htype]
  · rw [float_resolve_eq, if_neg hne, if_pos htype]

/-- Witness of C27: the cell with code 101 gives the vegetation type 101 and the cover 15. -/
theorem vegtype_resolve_table_witness :
    ((floatTile TYPE_VEGTYPE 0x00 0x00 0xCA 0x42).resolve (Point.new 0.5 0.5)).vegType = 101 ∧
      ((floatTile TYPE_VEGTYPE 0x00 0x00 0xCA 0x42).resolve (Point.new 0.5 0.5)).vegCover =
        15 := by
  rw [(vegtype_resolve_table (floatTile TYPE_VEGTYPE 0x00 0x00 0xCA 0x42) (Point.new 0.5 0.5)
      rfl).1,
    (vegtype_resolve_table (floatTile TYPE_VEGTYPE 0x00 0x00 0xCA 0x42) (Point.new 0.5 0.5)
      rfl).2.1,
    floatTile_cell, ieee_single_101, castInt_101]
  exact ⟨rfl, by simp [vegCoverOf]⟩

/-- C28. For a vegetation-height source and the code `c` of the cell, `resolve` sets
`vegHeight` by the table 101 → 0.25, 102 → 0.5, 103 → 1, 104 → 0.25, 105 → 0.5, 106 → 1.5,
107 → 3, 108 → 2.5, 109 → 5, 110 → 12.5, 111 → 25, 112 → 50 and leaves it unchanged for
every other code; every height of the table is positive. -/
theorem vegheight_resolve_table (src : SourceGridFloat) (p : Point)
    (htype : src.type = TYPE_VEGHEIGHT) :
    (src.resolve p).vegHeight =
        (vegHeightOf (castInt (src.value (src.toGridSource.offset p)))).getD p.vegHeight ∧
      ∀ (code : ℤ) (h : ℝ), vegHeightOf code = some h → 0 < h := by
  -- Every height of the table is positive.
  have vegHeightOf_pos : ∀ (code : ℤ) (h : ℝ) (hh : vegHeightOf code = some h),
      0 < h := by
    intro code h hh
    by_cases hr : 101 ≤ code ∧ code ≤ 112
    · obtain ⟨ha, hb⟩ := hr
      interval_cases code <;> simp [vegHeightOf] at hh <;> rw [← hh] <;> norm_num
    · rw [vegHeightOf_none code hr] at hh
      exact absurd hh (by simp)
  have hne : ¬src.type = TYPE_ELEV := by rw [htype]; decide
  have hne2 : ¬src.type = TYPE_VEGTYPE := by rw [htype]; decide
  refine ⟨?_, vegHeightOf_pos⟩
  rw [float_resolve_eq, if_neg hne, if_neg hne2, if_pos htype]

/-- Witness of C28: the cell with code 101 gives the height 0.25. -/
theorem vegheight_resolve_table_witness :
    ((floatTile TYPE_VEGHEIGHT 0x00 0x00 0xCA 0x42).resolve (Point.new 0.5 0.5)).vegHeight =
      0.25 := by
  rw [(vegheight_resolve_table (floatTile TYPE_VEGHEIGHT 0x00 0x00 0xCA 0x42)
      (Point.new 0.5 0.5) rfl).1,
    floatTile_cell, ieee_single_101, castInt_101]
  simp [vegHeightOf]

/-- C29. For an elevation source, `resolve` sets `elev` to the value of the cell, a real
that is not truncated, and leaves `lat`, `lon`, `towerHeight`, `vegHeight`, `vegType`,
`vegCover` and `landType` unchanged. -/
theorem elev_resolve_frame (src : SourceGridFloat) (p : Point) (htype : src.type = TYPE_ELEV) :
    (src.resolve p).elev = src.value (src.toGridSource.offset p) ∧
      (src.resolve p).lat = p.lat ∧ (src.resolve p).lon = p.lon ∧
      (src.resolve p).towerHeight = p.towerHeight ∧ (src.resolve p).vegHeight = p.vegHeight ∧
      (src.resolve p).vegType = p.vegType ∧ (src.resolve p).vegCover = p.vegCover ∧
      (src.resolve p).landType = p.landType := by
  rw [float_resolve_eq, if_pos htype]
  exact ⟨rfl, rfl, rfl, rfl, rfl, rfl, rfl, rfl⟩

/-- Witness of C29: the cell holding 0.5 gives the elevation 0.5, whose truncation is 0. -/
theorem elev_resolve_frame_witness :
    ((floatTile TYPE_ELEV 0x00 0x00 0x00 0x3F).resolve (Point.new 0.5 0.5)).elev = 0.5 ∧
      castInt (0.5 : ℝ) = 0 := by
  -- The file bytes 00 00 00 3F decode to one half.
  have ieee_single_half :
      ieee_single 0x00 0x00 0x00 0x3F = 0.5 := by
    rw [ieee_single_eq 0x00 0x00 0x00 0x3F (by norm_num) (by norm_num) (by norm_num) (by norm_num)
      0x3F000000 0 126 0 (by norm_num) (by norm_num) (by norm_num) (by norm_num)
      (by norm_num)]
    norm_num
  rw [(elev_resolve_frame (floatTile TYPE_ELEV 0x00 0x00 0x00 0x3F) (Point.new 0.5 0.5) rfl).1,
    floatTile_cell, ieee_single_half]
  exact ⟨rfl, castInt_half⟩

/-- C30. The function `calcLandLoss` returns `(a + b * ln(freq)) * distance / 200` with
`(a, b) = (-9.484, 2.776)` for forest, `(-9.735, 3.196)` for residential and
`(-10.31, 3.616)` for commercial, and 0 for every other type; a zero distance gives 0; and
the land-use term of `pathLoss` is the sum of the three values of `calcLandLoss` at the
three depths in metres. -/
theorem calcLandLoss_formula (type : ℤ) (distance freq : ℝ) :
    (type = LAND_FOREST →
        calcLandLoss type distance freq = (-9.484 + 2.776 * Real.log freq) * (distance / 200)) ∧
      (type = LAND_RESIDENTIAL →
        calcLandLoss type distance freq = (-9.735 + 3.196 * Real.log freq) * (distance / 200)) ∧
      (type = LAND_COMMERCIAL →
        calcLandLoss type distance freq = (-10.31 + 3.616 * Real.log freq) * (distance / 200)) ∧
      (type ≠ LAND_FOREST → type ≠ LAND_RESIDENTIAL → type ≠ LAND_COMMERCIAL →
        calcLandLoss type distance freq = 0) ∧
      calcLandLoss type 0 freq = 0 ∧
      ∀ forestDepth residentialDepth commercialDepth : ℝ,
        pathLoss.landLoss freq forestDepth residentialDepth commercialDepth =
          calcLandLoss LAND_FOREST (forestDepth * 1000) freq +
            calcLandLoss LAND_RESIDENTIAL (residentialDepth * 1000) freq +
            calcLandLoss LAND_COMMERCIAL (commercialDepth * 1000) freq := by
  refine ⟨?_, ?_, ?_, ?_, calcLandLoss_zero type freq, ?_⟩
  · intro h
    unfold calcLandLoss
    rw [if_pos h]
  · intro h
    unfold calcLandLoss
    rw [if_neg (by rw [h]; decide), if_pos h]
  · intro h
    unfold calcLandLoss
    rw [if_neg (by rw [h]; decide), if_neg (by rw [h]; decide), if_pos h]
  · intro h1 h2 h3
    unfold calcLandLoss
    rw [if_neg h1, if_neg h2, if_neg h3]
    simp
  · intro a b c
    unfold pathLoss.landLoss
    simp [CONSIDER_LAND]

/-- C31. For every function `point_to_point` and every call of `pathLossLongley` whose
discretised path is not empty and passes the `assert` on the elevations (so that
`point_to_point` is called, on the array `elev`): if the error code handed back is not 0
the result is `DENIED`, and if it is 0 the result is
`10 * log10 txPower + antenna - dbloss`. -/
theorem pathLossLongley_result (point_to_point : PointToPoint) (fuel : ℕ) (p q : Point)
    (s : SourceGroup) (resolution txPower antenna freq : ℝ) (path : List Point)
    (hpath : (RegionLine.ofPoints (s.resolve p) (s.resolve q)).discrete fuel resolution =
      some path)
    (hne : path ≠ [])
    (hassert : ∀ r ∈ s.resolveList path, r.elev ≠ -1) :
    ∃ elev : List ℝ, longleyProfile resolution (s.resolveList path) = some elev ∧
      ((point_to_point elev (s.resolve p).towerHeight (s.resolve q).towerHeight 15 0.005 301
          freq 5 0 0.9 0.9).errnum ≠ 0 →
        pathLossLongley point_to_point fuel p q s resolution txPower antenna freq =
          some DENIED) ∧
      ((point_to_point elev (s.resolve p).towerHeight (s.resolve q).towerHeight 15 0.005 301
          freq 5 0 0.9 0.9).errnum = 0 →
        pathLossLongley point_to_point fuel p q s resolution txPower antenna freq =
          some (10 * log10 txPower + antenna -
            (point_to_point elev (s.resolve p).towerHeight (s.resolve q).towerHeight 15 0.005
              301 freq 5 0 0.9 0.9).dbloss)) := by
  have hprofile := longleyProfile_of_valid resolution (s.resolveList path) hassert
  have hcall := pathLossLongley_call point_to_point fuel p q s resolution txPower antenna freq
    path _ hpath hne hprofile
  refine ⟨_, hprofile, ?_, ?_⟩
  · intro h
    rw [hcall, if_pos h]
  · intro h
    rw [hcall, if_neg (not_not.2 h)]

/-- Witness of C31: two points of the equator 2 km apart on flat ground, a model that
hands back the loss 100 and the error code 0. -/
theorem pathLossLongley_result_witness :
    pathLossLongley (constantModel 100 0) 2 (Point.new 0 0)
        (Point.new 0 (toDegrees (2 / RADIUS))) (flatGroup 0) 5 4000 0 900 =
      some (10 * log10 4000 + 0 - 100) := by
  obtain ⟨elev, _, _, h0⟩ := pathLossLongley_result (constantModel 100 0) 2 (Point.new 0 0)
    (Point.new 0 (toDegrees (2 / RADIUS))) (flatGroup 0) 5 4000 0 900 _ longley_example_path
    (by simp)
    (by
      intro r hr
      rw [flat_resolveList_elev 0 _ r hr]
      norm_num)
  exact h0 rfl

/-- Counterexample to C32: the entry (-1, 20) is not the sentinel (-1, -1), and the loader
skips it all the same. -/
theorem ofEntries_skips_half_sentinel :
    (RegionLine.ofEntries [(-1, 20), (45, -111)]).list = [Point.new 45 (-111)] ∧
      ¬((-1 : ℝ) = -1 ∧ (20 : ℝ) = -1) := by
  refine ⟨?_, by norm_num⟩
  unfold RegionLine.ofEntries
  simp only [List.foldl_cons, List.foldl_nil]
  norm_num

/-- C32, amended. Loading a line appends, in file order, exactly the entries read that have
no coordinate equal to -1: an entry `(lat, lon)` is skipped if and only if `lat = -1` or
`lon = -1`. -/
theorem ofEntries_list (entries : List (ℝ × ℝ)) :
    (RegionLine.ofEntries entries).list =
      (entries.filter (fun e => decide (¬(e.1 = -1 ∨ e.2 = -1)))).map
        (fun e => Point.new e.1 e.2) := by
  -- The loop of `RegionLine::RegionLine(string)` appends to the list so far the entries
  -- without a coordinate -1, in their order.
  have foldl_entries : ∀ (entries : List (ℝ × ℝ)) (acc : List Point),
      entries.foldl
          (fun list e => if e.1 = -1 ∨ e.2 = -1 then list else list ++ [Point.new e.1 e.2]) acc =
        acc ++ (entries.filter (fun e => decide (¬(e.1 = -1 ∨ e.2 = -1)))).map
          (fun e => Point.new e.1 e.2) := by
    intro entries acc
    induction entries generalizing acc with
    | nil => simp
    | cons e rest ih =>
      rw [List.foldl_cons, ih]
      by_cases h : e.1 = -1 ∨ e.2 = -1
      · rw [if_pos h, List.filter_cons,
          if_neg (by simp only [decide_eq_true_eq, not_not]; exact h)]
      · rw [if_neg h, List.filter_cons, if_pos (by simp only [decide_eq_true_eq]; exact h)]
        simp
  unfold RegionLine.ofEntries
  rw [foldl_entries]
  rfl

/-- C33. On a path without obstructed sample the diffraction term of `pathLoss` (the
variable `worstFresnel` after the walk) is the maximum of the knife-edge losses of the
samples that encroach into the first Fresnel zone: it is 0 when no sample encroaches, it is
at least the loss of every encroaching sample, it is the loss of one of them when there is
one, and with two or more encroaching samples it is strictly below the sum of their losses. -/
theorem diffraction_is_worst (size : ℕ) (resolution lambda dist elevStart elevEnd : ℝ)
    (path : List Point)
    (hclear : ∀ (j : ℕ) (r : Point), path[j]? = some r →
      ¬ sampleObstructed dist elevStart elevEnd size j r) :
    (pathLoss.walk size resolution lambda dist elevStart elevEnd path 0
        { vegDepth := 0, forestDepth := 0, residentialDepth := 0, commercialDepth := 0,
          worstFresnel := 0, lineDead := false }).worstFresnel =
        worstDiffraction lambda dist elevStart elevEnd size path.enum ∧
      ((∀ x ∈ path.enum, ¬ sampleEncroaches lambda dist elevStart elevEnd size x.1 x.2) →
        worstDiffraction lambda dist elevStart elevEnd size path.enum = 0) ∧
      (∀ x ∈ path.enum, sampleEncroaches lambda dist elevStart elevEnd size x.1 x.2 →
        sampleKnifeEdge lambda dist elevStart elevEnd size x.1 x.2 ≤
          worstDiffraction lambda dist elevStart elevEnd size path.enum) ∧
      ((∃ x ∈ path.enum, sampleEncroaches lambda dist elevStart elevEnd size x.1 x.2) →
        ∃ x ∈ path.enum, sampleEncroaches lambda dist elevStart elevEnd size x.1 x.2 ∧
          worstDiffraction lambda dist elevStart elevEnd size path.enum =
            sampleKnifeEdge lambda dist elevStart elevEnd size x.1 x.2) ∧
      (2 ≤ (path.enum.filter (fun x =>
          decide (sampleEncroaches lambda dist elevStart elevEnd size x.1 x.2))).length →
        worstDiffraction lambda dist elevStart elevEnd size path.enum <
          ((path.enum.filter (fun x =>
            decide (sampleEncroaches lambda dist elevStart elevEnd size x.1 x.2))).map
            (fun x => sampleKnifeEdge lambda dist elevStart elevEnd size x.1 x.2)).sum) := by
  -- On a path without obstructed sample the variable `worstFresnel` ends the walk as the
  -- worst diffraction loss.
  have walk_worstFresnel : ∀ (size : ℕ) (resolution lambda dist elevStart elevEnd : ℝ)
      (path : List Point)
      (hclear : ∀ (j : ℕ) (r : Point), path[j]? = some r → ¬ sampleObstructed dist elevStart elevEnd size j r),
      (pathLoss.walk size resolution lambda dist elevStart elevEnd path 0
          { vegDepth := 0, forestDepth := 0, residentialDepth := 0, commercialDepth := 0,
            worstFresnel := 0, lineDead := false }).worstFresnel =
        worstDiffraction lambda dist elevStart elevEnd size path.enum := by
    intro size resolution lambda dist elevStart elevEnd path hclear
    rw [walk_clear size resolution lambda dist elevStart elevEnd path 0 _ le_rfl
      (by intro j r hj; rw [zero_add]; exact hclear j r hj)]
    simp only [List.enum]
    exact max_eq_right (worstDiffraction_nonneg _ _ _ _ _ _)
  -- With two or more encroaching samples the worst diffraction loss is below the sum of
  -- their knife-edge losses by at least 6.9 dB.
  have worstDiffraction_lt_sum : ∀ (lambda dist elevStart elevEnd : ℝ) (size : ℕ)
      (samples : List (ℕ × Point))
      (h : 2 ≤ (samples.filter (fun x => decide (sampleEncroaches lambda dist elevStart elevEnd size x.1 x.2))).length),
      worstDiffraction lambda dist elevStart elevEnd size samples + 6.9 ≤
        ((samples.filter (fun x =>
          decide (sampleEncroaches lambda dist elevStart elevEnd size x.1 x.2))).map
          (fun x => sampleKnifeEdge lambda dist elevStart elevEnd size x.1 x.2)).sum := by
    intro lambda dist elevStart elevEnd size samples h
    -- The maximum of two or more values that are at least `c ≥ 0` is below their sum by at
    -- least `c`.
    have foldr_max_add_le_sum : ∀ (c : ℝ) (hc : 0 ≤ c) (ks : List ℝ) (hks : ∀ k ∈ ks, c ≤ k)
        (hlen : 2 ≤ ks.length),
        ks.foldr max 0 + c ≤ ks.sum := by
      intro c hc ks hks hlen
      have key : ∀ l : List ℝ, (∀ k ∈ l, c ≤ k) → l ≠ [] →
          l.foldr max 0 + c * ((l.length : ℝ) - 1) ≤ l.sum := by
        intro l
        induction l with
        | nil => intro _ h; exact absurd rfl h
        | cons k rest ih =>
          intro hl _
          have hk : c ≤ k := hl k (List.mem_cons_self _ _)
          by_cases hrest : rest = []
          · subst hrest
            simp only [List.foldr_cons, List.foldr_nil, List.length_singleton, List.sum_cons,
              List.sum_nil]
            rw [max_eq_left (le_trans hc hk)]
            norm_num
          · have hr := fun x hx => hl x (List.mem_cons_of_mem _ hx)
            have h1 := ih hr hrest
            have h2 := (foldr_max_mem c hc rest hrest hr).2
            simp only [List.foldr_cons, List.length_cons, List.sum_cons]
            push_cast
            rcases max_choice k (rest.foldr max 0) with h | h
            · rw [h]; nlinarith
            · rw [h]; nlinarith
      have hne : ks ≠ [] := by
        intro h
        rw [h] at hlen
        simp at hlen
      have h := key ks hks hne
      have h2 : (2 : ℝ) ≤ (ks.length : ℝ) := by exact_mod_cast hlen
      nlinarith
    unfold worstDiffraction
    apply foldr_max_add_le_sum 6.9 (by norm_num)
    · intro k hk
      obtain ⟨x, _, rfl⟩ := List.mem_map.1 hk
      exact sampleKnifeEdge_ge _ _ _ _ _ _ _
    · rw [List.length_map]
      exact h
  -- Without encroaching sample the worst diffraction loss is 0.
  have worstDiffraction_none : ∀ (lambda dist elevStart elevEnd : ℝ) (size : ℕ)
      (samples : List (ℕ × Point))
      (h : ∀ x ∈ samples, ¬ sampleEncroaches lambda dist elevStart elevEnd size x.1 x.2),
      worstDiffraction lambda dist elevStart elevEnd size samples = 0 := by
    intro lambda dist elevStart elevEnd size samples h
    unfold worstDiffraction
    rw [List.filter_eq_nil_iff.2 (fun x hx => by simpa using h x hx)]
    rfl
  refine ⟨walk_worstFresnel size resolution lambda dist elevStart elevEnd path hclear,
    worstDiffraction_none _ _ _ _ _ _,
    fun x hx henc => le_worstDiffraction _ _ _ _ _ _ x hx henc,
    worstDiffraction_attained _ _ _ _ _ _, ?_⟩
  intro h
  have := worstDiffraction_lt_sum lambda dist elevStart elevEnd size path.enum h
  linarith

/-- Witness of C33: a single sample below the sight line. -/
theorem diffraction_is_worst_witness :
    (pathLoss.walk 1 1 (1 / 3) 1000 10 10 [Point.new 0 0] 0
        { vegDepth := 0, forestDepth := 0, residentialDepth := 0, commercialDepth := 0,
          worstFresnel := 0, lineDead := false }).worstFresnel =
      worstDiffraction (1 / 3) 1000 10 10 1 [Point.new 0 0].enum :=
  (diffraction_is_worst 1 1 (1 / 3) 1000 10 10 [Point.new 0 0] (by
    intro j r hj
    cases j with
    | zero =>
      simp only [List.getElem?_cons_zero, Option.some.injEq] at hj
      subst hj
      simp only [sampleObstructed, sampleSight, sampleGround, sampleD1, Point.new]
      norm_num
    | succ j => simp at hj)).1

/-- C35 fails on the code: an elevation tile of 1000 by 1000 cells with the header values
left edge `-111.3`, bottom edge `0` and cell size `0.1` contains the point of latitude
`0.05` and longitude `-11.3`, one step of the doubles below its right edge
`-11.299999999999997`; in double precision `x - left` rounds to 100 and the quotient by the
cell size to 1000, the clamp `min(col, ncols)` keeps the column 1000, and the offset is
`nrows * ncols`, one past the last cell. -/
theorem grid_offset_out_of_range :
    1 ≤ wideTile.toGridSource.nrows ∧ 1 ≤ wideTile.toGridSource.ncols ∧
      0 < wideTile.toGridSource.cellsize ∧
      wideTile.toGridSource.top = fl (wideTile.toGridSource.bottom +
        fl ((wideTile.toGridSource.nrows : ℝ) * wideTile.toGridSource.cellsize)) ∧
      wideTile.toGridSource.right = fl (wideTile.toGridSource.left +
        fl ((wideTile.toGridSource.ncols : ℝ) * wideTile.toGridSource.cellsize)) ∧
      wideTile.toGridSource.contains (Point.new (fl 0.05) (fl (-11.3))) = true ∧
      wideTile.toGridSource.colDouble (Point.new (fl 0.05) (fl (-11.3))) =
        wideTile.toGridSource.ncols ∧
      wideTile.toGridSource.rowDouble (Point.new (fl 0.05) (fl (-11.3))) =
        wideTile.toGridSource.nrows - 1 ∧
      wideTile.toGridSource.offsetDouble (Point.new (fl 0.05) (fl (-11.3))) =
        wideTile.toGridSource.nrows * wideTile.toGridSource.ncols := by
  -- the doubles nearest to the literals
  have hc : fl 0.1 = 7205759403792794 * (2 : ℝ) ^ (-56 : ℤ) :=
    (fl_eq _ _ 7205759403792794 (-56) (by norm_num) (by norm_num) (by norm_num) (by norm_num)
      (by norm_num) (by norm_num) (by norm_num)).1
  have hy : fl 0.05 = 7205759403792794 * (2 : ℝ) ^ (-57 : ℤ) :=
    (fl_eq _ _ 7205759403792794 (-57) (by norm_num) (by norm_num) (by norm_num) (by norm_num)
      (by norm_num) (by norm_num) (by norm_num)).1
  have hl : fl (-111.3) = -(7832041226974003 * (2 : ℝ) ^ (-46 : ℤ)) :=
    (fl_eq _ _ 7832041226974003 (-46) (by norm_num) (by norm_num) (by norm_num) (by norm_num)
      (by norm_num) (by norm_num) (by norm_num)).2
  have hx : fl (-11.3) = -(6361334473660826 * (2 : ℝ) ^ (-49 : ℤ)) :=
    (fl_eq _ _ 6361334473660826 (-49) (by norm_num) (by norm_num) (by norm_num) (by norm_num)
      (by norm_num) (by norm_num) (by norm_num)).2
  -- the edges: `1000 * 0.1` rounds to 100, and `-111.3 + 100` is a double
  have hw : fl (((1000 : ℤ) : ℝ) * (7205759403792794 * (2 : ℝ) ^ (-56 : ℤ))) = 100 :=
    (fl_eq _ _ 7036874417766400 (-46) (by norm_num) (by norm_num) (by norm_num) (by norm_num)
      (by norm_num) (by norm_num) (by norm_num)).1
  have h100 : fl (0 + 100) = 100 :=
    (fl_mono _ _ (isDouble_dyadic 100 100 0 (by norm_num) (by norm_num) (by norm_num)
      (by norm_num)).1).1 (by norm_num)
  have hr : fl (-(7832041226974003 * (2 : ℝ) ^ (-46 : ℤ)) + 100) =
      -(6361334473660824 * (2 : ℝ) ^ (-49 : ℤ)) :=
    (fl_mono _ _ (isDouble_dyadic _ 6361334473660824 (-49) rfl (by norm_num) (by norm_num)
      (by norm_num)).2).1 (by norm_num)
  -- the column: `-11.3 - -111.3` and the quotient by `0.1`
  have ht : fl (-(6361334473660826 * (2 : ℝ) ^ (-49 : ℤ)) -
      -(7832041226974003 * (2 : ℝ) ^ (-46 : ℤ))) = 100 :=
    (fl_eq _ _ 7036874417766400 (-46) (by norm_num) (by norm_num) (by norm_num) (by norm_num)
      (by norm_num) (by norm_num) (by norm_num)).1
  have hq : fl (100 / (7205759403792794 * (2 : ℝ) ^ (-56 : ℤ))) = 1000 :=
    (fl_eq _ _ 8796093022208000 (-43) (by norm_num) (by norm_num) (by norm_num) (by norm_num)
      (by norm_num) (by norm_num) (by norm_num)).1
  have hi : castInt (1000 : ℝ) = 1000 :=
    castInt_eq _ 1000 (by norm_num) (by norm_num) (by norm_num)
  -- the row: `0.05 - 0` and the quotient by `0.1`, exactly one half
  have hy0 : fl (7205759403792794 * (2 : ℝ) ^ (-57 : ℤ) - 0) =
      7205759403792794 * (2 : ℝ) ^ (-57 : ℤ) :=
    (fl_mono _ _ (isDouble_dyadic _ 7205759403792794 (-57) rfl (by norm_num) (by norm_num)
      (by norm_num)).1).1 (by norm_num)
  have hyq : fl (7205759403792794 * (2 : ℝ) ^ (-57 : ℤ) /
      (7205759403792794 * (2 : ℝ) ^ (-56 : ℤ))) = 1 / 2 :=
    (fl_mono _ _ (isDouble_dyadic (1 / 2) 1 (-1) (by norm_num) (by norm_num) (by norm_num)
      (by norm_num)).1).1 (by norm_num)
  have hi0 : castInt ((1 : ℝ) / 2) = 0 :=
    castInt_eq _ 0 (by norm_num) (by norm_num) (by norm_num)
  have hcs : wideTile.toGridSource.cellsize = 7205759403792794 * (2 : ℝ) ^ (-56 : ℤ) := hc
  have hleft : wideTile.toGridSource.left = -(7832041226974003 * (2 : ℝ) ^ (-46 : ℤ)) := hl
  have hbot : wideTile.toGridSource.bottom = 0 := rfl
  have hcols : wideTile.toGridSource.ncols = 1000 := rfl
  have hrows : wideTile.toGridSource.nrows = 1000 := rfl
  have hright : wideTile.toGridSource.right = -(6361334473660824 * (2 : ℝ) ^ (-49 : ℤ)) := by
    show fl (fl (-111.3) + fl (((1000 : ℤ) : ℝ) * fl 0.1)) = _
    rw [hl, hc, hw, hr]
  have htop : wideTile.toGridSource.top = 100 := by
    show fl (0 + fl (((1000 : ℤ) : ℝ) * fl 0.1)) = _
    rw [hc, hw, h100]
  have hpx : (wideTile.toGridSource.convert.convert (Point.new (fl 0.05) (fl (-11.3)))).1 =
      -(6361334473660826 * (2 : ℝ) ^ (-49 : ℤ)) := hx
  have hpy : (wideTile.toGridSource.convert.convert (Point.new (fl 0.05) (fl (-11.3)))).2 =
      7205759403792794 * (2 : ℝ) ^ (-57 : ℤ) := hy
  have hcon : wideTile.toGridSource.contains (Point.new (fl 0.05) (fl (-11.3))) = true := by
    delta GridSource.contains
    simp only [hpx, hpy, hleft, hright, hbot, htop, decide_eq_true_eq]
    norm_num
  have hcol : wideTile.toGridSource.colDouble (Point.new (fl 0.05) (fl (-11.3))) = 1000 := by
    delta GridSource.colDouble
    simp only [hpx, hleft, hcs, hcols, ht, hq, hi]
    decide
  have hrow : wideTile.toGridSource.rowDouble (Point.new (fl 0.05) (fl (-11.3))) = 999 := by
    delta GridSource.rowDouble
    simp only [hpy, hbot, hcs, hrows, hy0, hyq, hi0]
    decide
  refine ⟨by rw [hrows]; norm_num, by rw [hcols]; norm_num, by rw [hcs]; norm_num, rfl, rfl,
    hcon, by rw [hcol, hcols], by rw [hrow, hrows]; rfl, ?_⟩
  delta GridSource.offsetDouble
  rw [hcol, hrow, hrows, hcols]
  rfl

/-- C36. For a positive resolution and a bottom-left corner with a latitude of at least -90
whose step north does not pass the pole (`toRadians lat + resolution / RADIUS ≤ π / 2`),
the degree step of `RegionArea::discrete` is `toDegrees (resolution / RADIUS)`, it is
positive, and both loops finish: some fuel gives a path. -/
theorem degRes_positive (area : RegionArea) (resolution : ℝ) (hres : 0 < resolution)
    (hlat : -90 ≤ area.bottomLeft.lat)
    (hpole : toRadians area.bottomLeft.lat + resolution / RADIUS ≤ Real.pi / 2) :
    area.degRes resolution = toDegrees (resolution / RADIUS) ∧ 0 < area.degRes resolution ∧
      ∃ (fuel : ℕ) (path : List Point), area.discrete fuel resolution = some path := by
  -- The degree step of an area whose bottom-left corner is not south of -90 degrees and
  -- whose step north does not pass the pole.
  have degRes_of_south : ∀ (area : RegionArea) (resolution : ℝ) (hres : 0 < resolution)
      (hlat : -90 ≤ area.bottomLeft.lat)
      (hpole : toRadians area.bottomLeft.lat + resolution / RADIUS ≤ Real.pi / 2),
      area.degRes resolution = toDegrees (resolution / RADIUS) ∧ 0 < area.degRes resolution := by
    intro area resolution hres hlat hpole
    -- A positive angle is positive in degrees.
    have toDegrees_pos : ∀ (x : ℝ) (hx : 0 < x),
        0 < toDegrees x := by
      intro x hx
      unfold toDegrees
      have := PI_pos
      positivity
    have hR := RADIUS_pos
    have hp := PI_lt_pi
    have hpos := PI_pos
    have hlow : -(Real.pi / 2) ≤ toRadians area.bottomLeft.lat + resolution / RADIUS := by
      have h1 : -(PI / 2) ≤ toRadians area.bottomLeft.lat := by
        unfold toRadians
        nlinarith
      have h2 : 0 < resolution / RADIUS := div_pos hres hR
      linarith
    have h := degRes_eq area resolution hlow hpole
    exact ⟨h, by rw [h]; exact toDegrees_pos _ (div_pos hres hR)⟩
  -- With a positive degree step `RegionArea::discrete` finishes: some fuel gives a path.
  have area_discrete_terminates : ∀ (area : RegionArea) (resolution : ℝ)
      (hdeg : 0 < area.degRes resolution),
      ∃ (fuel : ℕ) (path : List Point), area.discrete fuel resolution = some path := fun area resolution hdeg =>
    ⟨max ⌈(area.topRight.lat - area.bottomLeft.lat) / area.degRes resolution⌉₊
        ⌈(area.topRight.lon - area.bottomLeft.lon) / area.degRes resolution⌉₊ + 1, _,
      area_discrete_eq area resolution _ hdeg
        (Nat.lt_succ_of_le (le_max_left _ _)) (Nat.lt_succ_of_le (le_max_right _ _))⟩
  exact ⟨(degRes_of_south area resolution hres hlat hpole).1,
      (degRes_of_south area resolution hres hlat hpole).2,
      area_discrete_terminates area resolution (degRes_of_south area resolution hres hlat hpole).2⟩

/-- Witness of C36: the area from (0, 0) to (2, 3) at a resolution of 1 km. -/
theorem degRes_positive_witness :
    (RegionArea.ofCorners (Point.new 0 0) (Point.new 2 3)).degRes 1 = toDegrees (1 / RADIUS) ∧
      0 < (RegionArea.ofCorners (Point.new 0 0) (Point.new 2 3)).degRes 1 := by
  have hR : (1 : ℝ) ≤ RADIUS := by unfold RADIUS; norm_num
  have hpi := Real.pi_gt_three
  have h := degRes_positive (RegionArea.ofCorners (Point.new 0 0) (Point.new 2 3)) 1
    (by norm_num) (by simp [RegionArea.ofCorners, Point.new])
    (by
      have hz : toRadians (RegionArea.ofCorners (Point.new 0 0) (Point.new 2 3)).bottomLeft.lat
          = 0 := by
        simp [RegionArea.ofCorners, Point.new, toRadians]
      rw [hz, zero_add]
      have : (1 : ℝ) / RADIUS ≤ 1 := by
        rw [div_le_one (by linarith)]
        exact hR
      linarith)
  exact ⟨h.1, h.2.1⟩

/-- C38 fails on the code: `knifeEdgeLoss(0, 10, 2, 500, 100, 400, 1/3, 2)` meets the
conditions `lambda > 0`, `dist1X ≥ 0`, `dist2X ≥ 0` and `dist1X + dist2X = distX`, and in
double precision the rounded lengths `d1 = 100.0199980003999`, `d2 = 400.0799920015996`
and `d = 500.0999900019995` give the detour `d1 + d2 - d = -2^-44`; the square root of the
negative quotient is NaN, and so is the returned loss.  Over the reals the loss is at least
6.9 dB. -/
theorem knifeEdgeLoss_nan :
    (0 : ℝ) < fl (1 / 3) ∧ (0 : ℝ) ≤ 100 ∧ (0 : ℝ) ≤ 400 ∧ (100 : ℝ) + 400 = 500 ∧
      knifeEdgeLossDouble 0 10 2 500 100 400 (fl (1 / 3)) 2 = none ∧
      6.9 ≤ knifeEdgeLoss 0 10 2 500 100 400 (fl (1 / 3)) 2 := by
  -- the wavelength: a double between 1/4 and 1
  have hl1 : (1 / 4 : ℝ) ≤ fl (1 / 3) :=
    (fl_mono _ _ (isDouble_dyadic _ 1 (-2) (by norm_num) (by norm_num) (by norm_num)
      (by norm_num)).1).2.2 (by norm_num)
  have hl2 : fl (1 / 3) ≤ 1 :=
    (fl_mono _ _ (isDouble_dyadic _ 1 0 (by norm_num) (by norm_num) (by norm_num)
      (by norm_num)).1).2.1 (by norm_num)
  -- whole numbers are not rounded
  have hnat : ∀ (x y : ℝ) (n : ℕ), n < 2 ^ 53 → y = (n : ℝ) → x = y → fl x = y := by
    intro x y n hn hy hx
    exact (fl_mono x y (isDouble_dyadic y n 0 (by rw [hy]; simp) hn (by norm_num)
      (by norm_num)).1).1 hx
  have a1 : fl ((10 : ℝ) - 0) = 10 := hnat _ _ 10 (by norm_num) (by norm_num) (by norm_num)
  have a2 : fl ((10 : ℝ) ^ 2) = 100 := hnat _ _ 100 (by norm_num) (by norm_num) (by norm_num)
  have a3 : fl ((500 : ℝ) ^ 2) = 250000 :=
    hnat _ _ 250000 (by norm_num) (by norm_num) (by norm_num)
  have a4 : fl ((100 : ℝ) + 250000) = 250100 :=
    hnat _ _ 250100 (by norm_num) (by norm_num) (by norm_num)
  have a5 : fl ((100 : ℝ) ^ 2) = 10000 :=
    hnat _ _ 10000 (by norm_num) (by norm_num) (by norm_num)
  have a6 : fl ((0 : ℝ) - 2) = -2 :=
    (fl_mono _ _ (isDouble_dyadic 2 2 0 (by norm_num) (by norm_num) (by norm_num)
      (by norm_num)).2).1 (by norm_num)
  have a7 : fl ((-2 : ℝ) ^ 2) = 4 := hnat _ _ 4 (by norm_num) (by norm_num) (by norm_num)
  have a8 : fl ((10000 : ℝ) + 4) = 10004 :=
    hnat _ _ 10004 (by norm_num) (by norm_num) (by norm_num)
  have a9 : fl ((400 : ℝ) ^ 2) = 160000 :=
    hnat _ _ 160000 (by norm_num) (by norm_num) (by norm_num)
  have a10 : fl ((10 : ℝ) - 2) = 8 := hnat _ _ 8 (by norm_num) (by norm_num) (by norm_num)
  have a11 : fl ((8 : ℝ) ^ 2) = 64 := hnat _ _ 64 (by norm_num) (by norm_num) (by norm_num)
  have a12 : fl ((160000 : ℝ) + 64) = 160064 :=
    hnat _ _ 160064 (by norm_num) (by norm_num) (by norm_num)
  -- the three lengths, correctly rounded
  have hsqrt : ∀ (y d : ℝ) (m : ℕ) (e : ℤ), d = (m : ℝ) * (2 : ℝ) ^ e → 2 ^ 52 < m →
      m < 2 ^ 53 → -1074 ≤ e → e ≤ 971 → 0 ≤ d - (2 : ℝ) ^ e / 2 →
      (d - (2 : ℝ) ^ e / 2) ^ 2 < y → y < (d + (2 : ℝ) ^ e / 2) ^ 2 →
      fl (Real.sqrt y) = d := by
    intro y d m e hd hm1 hm2 he1 he2 h0 h1 h2
    have hp : (0 : ℝ) < (2 : ℝ) ^ e := by positivity
    exact (fl_eq _ d m e hd hm1 hm2 he1 he2 ((Real.lt_sqrt h0).2 h1)
      ((Real.sqrt_lt' (by linarith)).2 h2)).1
  have hd : fl (Real.sqrt 250100) = 8797852064925757 * (2 : ℝ) ^ (-44 : ℤ) :=
    hsqrt _ _ 8797852064925757 (-44) (by norm_num) (by norm_num) (by norm_num)
      (by norm_num) (by norm_num) (by norm_num) (by norm_num) (by norm_num)
  have hd1 : fl (Real.sqrt 10004) = 7038281651940605 * (2 : ℝ) ^ (-46 : ℤ) :=
    hsqrt _ _ 7038281651940605 (-46) (by norm_num) (by norm_num) (by norm_num)
      (by norm_num) (by norm_num) (by norm_num) (by norm_num) (by norm_num)
  have hd2 : fl (Real.sqrt 160064) = 7038281651940605 * (2 : ℝ) ^ (-44 : ℤ) :=
    hsqrt _ _ 7038281651940605 (-44) (by norm_num) (by norm_num) (by norm_num)
      (by norm_num) (by norm_num) (by norm_num) (by norm_num) (by norm_num)
  -- the detour
  have hs : fl (7038281651940605 * (2 : ℝ) ^ (-46 : ℤ) +
      7038281651940605 * (2 : ℝ) ^ (-44 : ℤ)) = 8797852064925756 * (2 : ℝ) ^ (-44 : ℤ) :=
    (fl_eq _ _ 8797852064925756 (-44) (by norm_num) (by norm_num) (by norm_num) (by norm_num)
      (by norm_num) (by norm_num) (by norm_num)).1
  have hdelta : fl (8797852064925756 * (2 : ℝ) ^ (-44 : ℤ) -
      8797852064925757 * (2 : ℝ) ^ (-44 : ℤ)) = -((2 : ℝ) ^ (-44 : ℤ)) :=
    (fl_mono _ _ (isDouble_dyadic ((2 : ℝ) ^ (-44 : ℤ)) 1 (-44) (by norm_num) (by norm_num)
      (by norm_num) (by norm_num)).2).1 (by norm_num)
  have hratio : fl (-((2 : ℝ) ^ (-44 : ℤ)) / fl (1 / 3)) < 0 := by
    have hpos : (0 : ℝ) < fl (1 / 3) := by linarith
    have h2 : (0 : ℝ) < (2 : ℝ) ^ (-44 : ℤ) := by positivity
    have h1 : -((2 : ℝ) ^ (-44 : ℤ)) / fl (1 / 3) ≤ -((2 : ℝ) ^ (-44 : ℤ)) := by
      rw [div_le_iff₀ hpos]
      nlinarith
    have h3 := (fl_mono _ _ (isDouble_dyadic ((2 : ℝ) ^ (-44 : ℤ)) 1 (-44) (by norm_num)
      (by norm_num) (by norm_num) (by norm_num)).2).2.1 h1
    linarith
  refine ⟨by linarith, by norm_num, by norm_num, by norm_num, ?_,
    knifeEdgeLoss_ge _ _ _ _ _ _ _ _⟩
  delta knifeEdgeLossDouble
  simp only [a1, a2, a3, a4, hd, a5, a6, a7, a8, hd1, a9, a10, a11, a12, hd2, hs, hdelta]
  rw [if_pos hratio]

/-- C39. Two grid sources of different types, whose converters read only the latitude and
the longitude, commute: resolving a point by the first and then by the second gives the
same point as resolving it by the second and then by the first. -/
theorem grid_resolve_commute (a b : Grid) (p : Point)
    (ha : a.toGridSource.convert.positional) (hb : b.toGridSource.convert.positional)
    (hne : a.toGridSource.type ≠ b.toGridSource.type) :
    a.resolve (b.resolve p) = b.resolve (a.resolve p) :=
  grid_resolve_comm a b ha hb hne p

/-- Witness of C39: an elevation tile and a land-use tile at the point (0.5, 0.5). -/
theorem grid_resolve_commute_witness :
    (Grid.float (floatTile TYPE_ELEV 0x00 0x00 0xC8 0x42)).resolve
        ((Grid.integer (landTile TYPE_LAND 41 0 0 0)).resolve (Point.new 0.5 0.5)) =
      (Grid.integer (landTile TYPE_LAND 41 0 0 0)).resolve
        ((Grid.float (floatTile TYPE_ELEV 0x00 0x00 0xC8 0x42)).resolve (Point.new 0.5 0.5)) :=
  grid_resolve_commute _ _ _ identity_positional identity_positional
    (by simp [Grid.toGridSource, floatTile, landTile, SourceGridFloat.new, SourceInteger.new,
      TYPE_ELEV, TYPE_LAND])

/-- Counterexample to C40: for a path of one point the first element of the array is 0, not
the point count 1. -/
theorem longleyProfile_first_not_count :
    longleyProfile 0.01 [{ Point.new 0 0 with elev := 5 }] = some [0, 0.01 * 1000, 5] ∧
      [({ Point.new 0 0 with elev := 5 } : Point)].length = 1 := by
  refine ⟨?_, rfl⟩
  rw [longleyProfile_of_valid _ _ (by
    intro r hr
    simp only [List.mem_singleton] at hr
    subst hr
    norm_num)]
  simp

/-- C40, amended. On a path of `n ≥ 1` points that passes the `assert`, the array handed to
`point_to_point` has `n + 2` elements: the first is `n - 1` (the number of intervals between
the points), the second is `resolution * 1000`, and the elements `2, ..., n + 1` are the
elevations of the samples in path order. -/
theorem longleyProfile_layout (point_to_point : PointToPoint) (fuel : ℕ) (p q : Point)
    (s : SourceGroup) (resolution txPower antenna freq : ℝ) (path : List Point) (elev : List ℝ)
    (hpath : (RegionLine.ofPoints (s.resolve p) (s.resolve q)).discrete fuel resolution =
      some path)
    (hne : path ≠ [])
    (hprofile : longleyProfile resolution (s.resolveList path) = some elev) :
    pathLossLongley point_to_point fuel p q s resolution txPower antenna freq =
        some (if (point_to_point elev (s.resolve p).towerHeight (s.resolve q).towerHeight 15
            0.005 301 freq 5 0 0.9 0.9).errnum ≠ 0 then DENIED
          else 10 * log10 txPower + antenna -
            (point_to_point elev (s.resolve p).towerHeight (s.resolve q).towerHeight 15 0.005
              301 freq 5 0 0.9 0.9).dbloss) ∧
      elev.length = path.length + 2 ∧
      elev[0]? = some ((path.length : ℝ) - 1) ∧
      elev[1]? = some (resolution * 1000) ∧
      ∀ i : ℕ, i < path.length →
        elev[i + 2]? = ((s.resolveList path)[i]?).map (fun r => r.elev) := by
  -- The array `elev` of `pathLossLongley`, when it is formed.
  have longleyProfile_some : ∀ (resolution : ℝ) (path : List Point) (elev : List ℝ)
      (h : longleyProfile resolution path = some elev),
      elev = ((path.length - 1 : ℕ) : ℝ) :: (resolution * 1000) :: path.map (fun r => r.elev) ∧
        ∀ r ∈ path, r.elev ≠ -1 := by
    intro resolution path elev h
    -- When the copy loop of `pathLossLongley` succeeds, it holds the elevations in path order
    -- and no sample has the elevation -1.
    have fill_some : ∀ (path : List Point) (elev : List ℝ)
        (h : longleyProfile.fill path = some elev),
        elev = path.map (fun r => r.elev) ∧ ∀ r ∈ path, r.elev ≠ -1 := by
      intro path elev h
      induction path generalizing elev with
      | nil =>
        simp only [longleyProfile.fill, Option.some.injEq] at h
        exact ⟨h.symm, by simp⟩
      | cons r rest ih =>
        rw [longleyProfile.fill] at h
        by_cases hr : r.elev = -1
        · rw [if_pos hr] at h
          exact absurd h (by simp)
        · rw [if_neg hr] at h
          cases hf : longleyProfile.fill rest with
          | none => rw [hf] at h; exact absurd h (by simp)
          | some tail =>
            rw [hf] at h
            simp only [Option.map_some', Option.some.injEq] at h
            obtain ⟨h1, h2⟩ := ih tail hf
            refine ⟨by rw [← h, h1]; rfl, ?_⟩
            intro x hx
            rcases List.mem_cons.1 hx with rfl | hmem
            · exact hr
            · exact h2 x hmem
    unfold longleyProfile at h
    cases hf : longleyProfile.fill path with
    | none => rw [hf] at h; exact absurd h (by simp)
    | some tail =>
      rw [hf] at h
      simp only [Option.map_some', Option.some.injEq] at h
      obtain ⟨h1, h2⟩ := fill_some path tail hf
      exact ⟨by rw [← h, h1], h2⟩
  have hlen : (s.resolveList path).length = path.length := by
    unfold SourceGroup.resolveList
    simp
  have hpos : 1 ≤ path.length := List.length_pos.2 hne
  obtain ⟨he, _⟩ := longleyProfile_some resolution (s.resolveList path) elev hprofile
  refine ⟨pathLossLongley_call point_to_point fuel p q s resolution txPower antenna freq path
    elev hpath hne hprofile, ?_, ?_, ?_, ?_⟩
  · rw [he]
    simp [hlen]
  · rw [he, hlen]
    simp [Nat.cast_sub hpos]
  · rw [he]
    simp
  · intro i _
    rw [he]
    simp

/-- Witness of C40: two points of the equator on flat ground, a model that hands back the
error code 3. -/
theorem longleyProfile_layout_witness :
    pathLossLongley (constantModel 100 3) 2 (Point.new 0 0)
        (Point.new 0 (toDegrees (2 / RADIUS))) (flatGroup 0) 5 4000 0 900 = some DENIED := by
  rw [(longleyProfile_layout (constantModel 100 3) 2 (Point.new 0 0)
    (Point.new 0 (toDegrees (2 / RADIUS))) (flatGroup 0) 5 4000 0 900 _ _ longley_example_path
    (by simp)
    (longleyProfile_of_valid 5 _ (by
      intro r hr
      rw [flat_resolveList_elev 0 _ r hr]
      norm_num))).1]
  simp [constantModel]

end Libprop

end
